import Mathlib

/-!
# Verification of the blooop-feedstock update scripts

This file shallowly embeds the five recipe-update scripts of the repository
(`scripts/update-claude-code.py`, `scripts/update-devpod.py`,
`scripts/update-devpod-prerelease.py`, `scripts/update-iterfzf.py`,
`scripts/update-ralph-orchestrator.py`).

Recipe documents are modelled as `List Char`.  Each regular-expression
substitution performed by a script is embedded as a character-level scanner
that mirrors the behaviour of the concrete pattern used in the source
(left-to-right scan, non-overlapping matches, greedy character classes with
the backtracking behaviour of the concrete pattern).  Network interaction is
modelled by passing the upstream responses as explicit parameters
(`Option` values: `none` models an unreachable or undecodable response).
-/

namespace Feedstock

/-- Convenience: the character list of a string literal. -/
def lit (s : String) : List Char := s.toList

/-- Match a literal character list at the head of the input; on success
return the remainder of the input.  This models a regex fragment whose
characters are all literal (e.g. an `re.escape`d interpolation). -/
def matchLit : List Char → List Char → Option (List Char)
  | [], s => some s
  | _ :: _, [] => none
  | p :: ps, c :: cs => if p = c then matchLit ps cs else none

/-- Match a regex *pattern text* at the head of the input, where `'.'` is
the regex wildcard (any character except a newline) and every other
character is literal.  This models pattern fragments that are interpolated
without `re.escape` (e.g. the dots of `github.com` in
`update-devpod.py`'s URL pattern). -/
def matchPat : List Char → List Char → Option (List Char)
  | [], s => some s
  | _ :: _, [] => none
  | p :: ps, c :: cs =>
    if p = '.' then (if c = '\n' then none else matchPat ps cs)
    else if p = c then matchPat ps cs else none

/-- Python's `\s` class (ASCII): space, tab, newline, carriage return,
form feed, vertical tab. -/
def isSpaceCh (c : Char) : Bool :=
  c = ' ' || c = '\t' || c = '\n' || c = '\r' || c = '\x0c' || c = '\x0b'

/-- Python's `\d` class (ASCII digits). -/
def isDigitCh (c : Char) : Bool := c.isDigit

/-- The character class `[a-f0-9]` (equivalently `[\da-f]`) used for
checksum digests in all the scripts. -/
def isHexCh (c : Char) : Bool := c.isDigit || ('a' ≤ c && c ≤ 'f')

/-- One pass of global substitution (Python `re.sub` without `count`),
with explicit fuel.  `try?` attempts a match at the current position,
returning the replacement text and the remainder after the match.  On
failure the scanner advances one character.  All patterns used by the
scripts match at least one character, so fuel `s.length` suffices. -/
def subAllF (try? : List Char → Option (List Char × List Char)) :
    Nat → List Char → List Char
  | _, [] => []
  | 0, s => s
  | n + 1, c :: rest =>
    match try? (c :: rest) with
    | some (repl, rem) => repl ++ subAllF try? n rem
    | none => c :: subAllF try? n rest

/-- Global substitution: Python `re.sub(pattern, repl, s)`. -/
def subAll (try? : List Char → Option (List Char × List Char))
    (s : List Char) : List Char :=
  subAllF try? s.length s

/-- First-occurrence substitution: Python `re.sub(pattern, repl, s, count=1)`. -/
def subFirst (try? : List Char → Option (List Char × List Char)) :
    List Char → List Char
  | [] => []
  | c :: rest =>
    match try? (c :: rest) with
    | some (repl, rem) => repl ++ rem
    | none => c :: subFirst try? rest

/-- First-occurrence search: Python `re.search`, returning whatever the
matcher extracts (e.g. a capture group). -/
def searchF {α : Type} (try? : List Char → Option α) : List Char → Option α
  | [] => none
  | c :: rest =>
    match try? (c :: rest) with
    | some a => some a
    | none => searchF try? rest

/-- A matcher consumes at least one character whenever it succeeds. -/
def Consumes (try? : List Char → Option (List Char × List Char)) : Prop :=
  ∀ s r rem, try? s = some (r, rem) → rem.length < s.length

/-! ## Basic lemmas about the matching primitives -/

theorem matchLit_eq_some_iff {p s rem : List Char} :
    matchLit p s = some rem ↔ s = p ++ rem := by
  induction p generalizing s with
  | nil => simp [matchLit]
  | cons a ps ih =>
    cases s with
    | nil => simp [matchLit]
    | cons c cs =>
      by_cases h : a = c
      · subst h
        simp [matchLit, ih]
      · simp [matchLit, h]
        intro hc
        exact absurd hc.symm h

theorem matchLit_self_append (p rest : List Char) :
    matchLit p (p ++ rest) = some rest :=
  matchLit_eq_some_iff.mpr rfl

theorem matchLit_eq_none_iff {p s : List Char} :
    matchLit p s = none ↔ ∀ rem, s ≠ p ++ rem := by
  constructor
  · intro h rem heq
    have h2 : matchLit p s = some rem := matchLit_eq_some_iff.mpr heq
    rw [h] at h2
    exact Option.noConfusion h2
  · intro h
    cases hm : matchLit p s with
    | none => rfl
    | some rem => exact absurd (matchLit_eq_some_iff.mp hm) (h rem)

theorem length_of_matchLit {p s rem : List Char} (h : matchLit p s = some rem) :
    rem.length + p.length = s.length := by
  have := matchLit_eq_some_iff.mp h
  subst this
  simp [Nat.add_comm]

theorem matchPat_append (p q s : List Char) :
    matchPat (p ++ q) s = (matchPat p s).bind (matchPat q) := by
  induction p generalizing s with
  | nil => simp [matchPat]
  | cons a ps ih =>
    cases s with
    | nil => simp [matchPat]
    | cons c cs =>
      by_cases hd : a = '.'
      · subst hd
        by_cases hn : c = '\n'
        · simp [matchPat, hn]
        · simp [matchPat, hn, ih]
      · by_cases h : a = c
        · subst h
          simp [matchPat, hd, ih]
        · simp [matchPat, hd, h]

/-- On a dot-free pattern, `matchPat` agrees with `matchLit`. -/
theorem matchPat_eq_matchLit {p : List Char} (hp : '.' ∉ p) (s : List Char) :
    matchPat p s = matchLit p s := by
  induction p generalizing s with
  | nil => simp [matchPat, matchLit]
  | cons a ps ih =>
    cases s with
    | nil => simp [matchPat, matchLit]
    | cons c cs =>
      have ha : a ≠ '.' := fun h => hp (h ▸ List.mem_cons_self a ps)
      have hps : '.' ∉ ps := fun h => hp (List.mem_cons_of_mem a h)
      simp [matchPat, matchLit, ha, ih hps]

theorem length_le_of_matchPat {p s rem : List Char}
    (h : matchPat p s = some rem) : rem.length + p.length = s.length := by
  induction p generalizing s rem with
  | nil =>
    simp [matchPat] at h
    simp [h]
  | cons a ps ih =>
    cases s with
    | nil => simp [matchPat] at h
    | cons c cs =>
      by_cases hd : a = '.'
      · subst hd
        by_cases hn : c = '\n'
        · simp [matchPat, hn] at h
        · simp [matchPat, hn] at h
          have := ih h
          simp [List.length_cons]
          omega
      · by_cases hac : a = c
        · subst hac
          simp [matchPat, hd] at h
          have := ih h
          simp [List.length_cons]
          omega
        · simp [matchPat, hd, hac] at h

/-! ## Lemmas about the substitution engine -/

theorem subAllF_nil (try? : List Char → Option (List Char × List Char))
    (n : Nat) : subAllF try? n [] = [] := by
  cases n <;> rfl

theorem subAllF_of_ge {try? : List Char → Option (List Char × List Char)}
    (hc : Consumes try?) :
    ∀ (k : Nat) (s : List Char), s.length ≤ k →
      ∀ n, s.length ≤ n → subAllF try? n s = subAllF try? s.length s := by
  intro k
  induction k with
  | zero =>
    intro s hs n _
    have : s = [] := List.length_eq_zero.mp (Nat.le_zero.mp hs)
    subst this
    simp [subAllF_nil]
  | succ k ih =>
    intro s hs n hn
    cases s with
    | nil => simp [subAllF_nil]
    | cons c rest =>
      have hn0 : n ≠ 0 := by
        intro h
        subst h
        simp at hn
      obtain ⟨m, rfl⟩ := Nat.exists_eq_succ_of_ne_zero hn0
      cases htry : try? (c :: rest) with
      | none =>
        simp only [subAllF, htry, List.length_cons]
        have h1 := ih rest (by simpa using hs) m (by simpa using hn)
        have h2 := ih rest (by simpa using hs) rest.length le_rfl
        rw [h1, h2]
      | some pr =>
        obtain ⟨r, rem⟩ := pr
        have hlt := hc _ _ _ htry
        simp only [List.length_cons] at hlt hs hn
        simp only [subAllF, htry, List.length_cons]
        have h1 := ih rem (by omega) m (by omega)
        have h2 := ih rem (by omega) rest.length (by omega)
        rw [h1, h2]

theorem subAll_nil (try? : List Char → Option (List Char × List Char)) :
    subAll try? [] = [] := rfl

theorem subAll_cons_none {try? : List Char → Option (List Char × List Char)}
    {c : Char} {s : List Char} (h : try? (c :: s) = none) :
    subAll try? (c :: s) = c :: subAll try? s := by
  simp [subAll, subAllF, h]

theorem subAll_cons_match {try? : List Char → Option (List Char × List Char)}
    (hc : Consumes try?) {c : Char} {s r rem : List Char}
    (h : try? (c :: s) = some (r, rem)) :
    subAll try? (c :: s) = r ++ subAll try? rem := by
  have hlt := hc _ _ _ h
  simp only [List.length_cons] at hlt
  simp only [subAll, List.length_cons, subAllF, h]
  rw [subAllF_of_ge hc s.length rem (by omega) s.length (by omega)]

theorem subAll_append_skip {try? : List Char → Option (List Char × List Char)}
    {a b : List Char} (h : ∀ i < a.length, try? (a.drop i ++ b) = none) :
    subAll try? (a ++ b) = a ++ subAll try? b := by
  induction a with
  | nil => simp
  | cons c a ih =>
    have h0 : try? (c :: (a ++ b)) = none := by
      have := h 0 (by simp)
      simpa using this
    have hint : ∀ i < a.length, try? (a.drop i ++ b) = none := by
      intro i hi
      have := h (i + 1) (by simpa using Nat.succ_lt_succ hi)
      simpa using this
    rw [List.cons_append, subAll_cons_none h0, ih hint]
    simp

theorem subAll_eq_self {try? : List Char → Option (List Char × List Char)}
    {s : List Char} (h : ∀ i < s.length, try? (s.drop i) = none) :
    subAll try? s = s := by
  induction s with
  | nil => rfl
  | cons c rest ih =>
    have h0 : try? (c :: rest) = none := by simpa using h 0 (by simp)
    have hint : ∀ i < rest.length, try? (rest.drop i) = none := by
      intro i hi
      have := h (i + 1) (by simpa using Nat.succ_lt_succ hi)
      simpa using this
    rw [subAll_cons_none h0, ih hint]

theorem searchF_cons_none {α : Type} {try? : List Char → Option α}
    {c : Char} {s : List Char} (h : try? (c :: s) = none) :
    searchF try? (c :: s) = searchF try? s := by
  simp [searchF, h]

theorem searchF_append_skip {α : Type} {try? : List Char → Option α}
    {a b : List Char} (h : ∀ i < a.length, try? (a.drop i ++ b) = none) :
    searchF try? (a ++ b) = searchF try? b := by
  induction a with
  | nil => simp
  | cons c a ih =>
    have h0 : try? (c :: (a ++ b)) = none := by
      have := h 0 (by simp)
      simpa using this
    have hint : ∀ i < a.length, try? (a.drop i ++ b) = none := by
      intro i hi
      have := h (i + 1) (by simpa using Nat.succ_lt_succ hi)
      simpa using this
    rw [List.cons_append, searchF_cons_none h0, ih hint]

theorem subFirst_cons_none {try? : List Char → Option (List Char × List Char)}
    {c : Char} {s : List Char} (h : try? (c :: s) = none) :
    subFirst try? (c :: s) = c :: subFirst try? s := by
  simp [subFirst, h]

theorem subFirst_cons_match {try? : List Char → Option (List Char × List Char)}
    {c : Char} {s r rem : List Char} (h : try? (c :: s) = some (r, rem)) :
    subFirst try? (c :: s) = r ++ rem := by
  simp [subFirst, h]

theorem subFirst_append_skip {try? : List Char → Option (List Char × List Char)}
    {a b : List Char} (h : ∀ i < a.length, try? (a.drop i ++ b) = none) :
    subFirst try? (a ++ b) = a ++ subFirst try? b := by
  induction a with
  | nil => simp
  | cons c a ih =>
    have h0 : try? (c :: (a ++ b)) = none := by
      have := h 0 (by simp)
      simpa using this
    have hint : ∀ i < a.length, try? (a.drop i ++ b) = none := by
      intro i hi
      have := h (i + 1) (by simpa using Nat.succ_lt_succ hi)
      simpa using this
    rw [List.cons_append, subFirst_cons_none h0, ih hint]
    simp

/-! ## Splice lemmas

These discharge the obligation that none of the scripts' patterns can match
at a position *inside* a spliced field value (a version string, a checksum,
a build-number digit string), given that the field's characters are drawn
from a restricted alphabet `A` and the pattern's literal head contains a
character outside `A` early enough. -/

theorem mem_take_getElem {α : Type} (l : List α) (j : Nat) (hj : j < l.length) :
    l[j] ∈ l.take (j + 1) := by
  induction l generalizing j with
  | nil => simp at hj
  | cons a t ih =>
    cases j with
    | zero => simp
    | succ n =>
      have hn : n < t.length := by simpa using hj
      simp only [List.take_succ_cons, List.getElem_cons_succ]
      exact List.mem_cons_of_mem a (ih n hn)

theorem matchLit_splice_none (lt : List Char) (A : Char → Prop) (j : Nat)
    (hj : j < lt.length) (hjA : ¬ A lt[j]) (q : Char)
    (hq : q ∉ lt.take (j + 1)) (r : List Char)
    (hr : ∀ c ∈ r, A c) (bs : List Char) :
    matchLit lt (r ++ q :: bs) = none := by
  rw [matchLit_eq_none_iff]
  intro rem heq
  have e1 : (r ++ q :: bs).take (j + 1) = lt.take (j + 1) := by
    rw [heq, List.take_append_of_le_length (by omega)]
  by_cases hcase : r.length ≤ j
  · -- the boundary character `q` would have to occur in `lt.take (j+1)`
    apply hq
    rw [← e1]
    have e2 : (r ++ q :: bs).take (j + 1) =
        r ++ (q :: bs).take (j + 1 - r.length) := by
      rw [List.take_append_eq_append_take, List.take_of_length_le (by omega)]
    rw [e2, show j + 1 - r.length = (j - r.length) + 1 from by omega,
      List.take_succ_cons]
    exact List.mem_append_right r (List.mem_cons_self _ _)
  · -- `lt[j] ∉ A` would have to be a character of `r`, all of them in `A`
    push_neg at hcase
    apply hjA
    have e4 : lt[j] ∈ lt.take (j + 1) := mem_take_getElem lt j hj
    rw [← e1, List.take_append_of_le_length (by omega)] at e4
    exact hr _ (List.mem_of_mem_take e4)

/-- Skip a spliced field: if the matcher returns `none` on every non-empty
suffix of the field (continued by the fixed context `b`), the global
substitution passes over the field unchanged. -/
theorem subAll_splice_skip {try? : List Char → Option (List Char × List Char)}
    {A : Char → Prop} {v b : List Char}
    (hnone : ∀ r, r ≠ [] → (∀ c ∈ r, A c) → try? (r ++ b) = none)
    (hv : ∀ c ∈ v, A c) :
    subAll try? (v ++ b) = v ++ subAll try? b := by
  apply subAll_append_skip
  intro i hi
  apply hnone
  · intro hnil
    have : (v.drop i).length = 0 := by rw [hnil]; rfl
    simp at this
    omega
  · intro c hc
    exact hv c (List.IsSuffix.subset (List.drop_suffix i v) hc)

theorem searchF_splice_skip {α : Type} {try? : List Char → Option α}
    {A : Char → Prop} {v b : List Char}
    (hnone : ∀ r, r ≠ [] → (∀ c ∈ r, A c) → try? (r ++ b) = none)
    (hv : ∀ c ∈ v, A c) :
    searchF try? (v ++ b) = searchF try? b := by
  apply searchF_append_skip
  intro i hi
  apply hnone
  · intro hnil
    have : (v.drop i).length = 0 := by rw [hnil]; rfl
    simp at this
    omega
  · intro c hc
    exact hv c (List.IsSuffix.subset (List.drop_suffix i v) hc)

theorem subFirst_splice_skip {try? : List Char → Option (List Char × List Char)}
    {A : Char → Prop} {v b : List Char}
    (hnone : ∀ r, r ≠ [] → (∀ c ∈ r, A c) → try? (r ++ b) = none)
    (hv : ∀ c ∈ v, A c) :
    subFirst try? (v ++ b) = v ++ subFirst try? b := by
  apply subFirst_append_skip
  intro i hi
  apply hnone
  · intro hnil
    have : (v.drop i).length = 0 := by rw [hnil]; rfl
    simp at this
    omega
  · intro c hc
    exact hv c (List.IsSuffix.subset (List.drop_suffix i v) hc)

/-- A match anywhere in the input rewrites and continues on the remainder
(general form of `subAll_cons_match`). -/
theorem subAll_match {try? : List Char → Option (List Char × List Char)}
    (hc : Consumes try?) {s r rem : List Char}
    (h : try? s = some (r, rem)) :
    subAll try? s = r ++ subAll try? rem := by
  cases s with
  | nil =>
    have := hc _ _ _ h
    simp at this
  | cons c cs => exact subAll_cons_match hc h

theorem searchF_found {α : Type} {try? : List Char → Option α}
    {s : List Char} {a : α} (hs : s ≠ []) (h : try? s = some a) :
    searchF try? s = some a := by
  cases s with
  | nil => exact absurd rfl hs
  | cons c cs => simp [searchF, h]

theorem subFirst_found {try? : List Char → Option (List Char × List Char)}
    {s r rem : List Char} (hs : s ≠ []) (h : try? s = some (r, rem)) :
    subFirst try? s = r ++ rem := by
  cases s with
  | nil => exact absurd rfl hs
  | cons c cs => simp [subFirst, h]

/-! ## takeWhile / dropWhile over a spliced field -/

theorem takeWhile_splice {p : Char → Bool} {v : List Char} {q : Char}
    {b : List Char} (hv : ∀ c ∈ v, p c = true) (hq : p q = false) :
    (v ++ q :: b).takeWhile p = v := by
  induction v with
  | nil => simp [List.takeWhile, hq]
  | cons c cs ih =>
    have hc : p c = true := hv c (List.mem_cons_self c cs)
    rw [List.cons_append, List.takeWhile_cons_of_pos hc,
      ih (fun d hd => hv d (List.mem_cons_of_mem c hd))]

theorem dropWhile_splice {p : Char → Bool} {v : List Char} {q : Char}
    {b : List Char} (hv : ∀ c ∈ v, p c = true) (hq : p q = false) :
    (v ++ q :: b).dropWhile p = q :: b := by
  induction v with
  | nil => simp [List.dropWhile, hq]
  | cons c cs ih =>
    have hc : p c = true := hv c (List.mem_cons_self c cs)
    rw [List.cons_append, List.dropWhile_cons_of_pos hc,
      ih (fun d hd => hv d (List.mem_cons_of_mem c hd))]

theorem length_dropWhile_le' (p : Char → Bool) (s : List Char) :
    (s.dropWhile p).length ≤ s.length := by
  induction s with
  | nil => simp [List.dropWhile]
  | cons c cs ih =>
    by_cases h : p c
    · rw [List.dropWhile_cons_of_pos h]
      exact Nat.le_succ_of_le ih
    · rw [List.dropWhile_cons_of_neg h]

/-! ## The concrete patterns used by the scripts

Each `try...` function attempts the corresponding Python regex at the
current position and, on success, returns the replacement text (with the
capture groups spliced back in as the script's replacement template does)
together with the remainder of the input after the match. -/

/-- `matchPat` variant that also returns the consumed text (needed to
rebuild `\g<1>` backreferences when the pattern contains wildcards). -/
def matchPatC : List Char → List Char → Option (List Char × List Char)
  | [], s => some ([], s)
  | _ :: _, [] => none
  | p :: ps, c :: cs =>
    if p = '.' then
      (if c = '\n' then none
       else (matchPatC ps cs).map (fun tr => (c :: tr.1, tr.2)))
    else if p = c then (matchPatC ps cs).map (fun tr => (c :: tr.1, tr.2))
    else none

/-- Pattern `number: \d+`, replacement `number: 0` (all five scripts). -/
def tryNumber (s : List Char) : Option (List Char × List Char) :=
  match matchLit (lit "number: ") s with
  | none => none
  | some s1 =>
    let ds := s1.takeWhile isDigitCh
    if ds = [] then none
    else some (lit "number: 0", s1.dropWhile isDigitCh)

/-- Pattern `version: "[^"]+"`, replacement `version: "{v}"`
(`update-claude-code.py` line 58, `update-ralph-orchestrator.py` line 77,
both with `count=1`). -/
def tryVerQ (v : List Char) (s : List Char) : Option (List Char × List Char) :=
  match matchLit (lit "version: \"") s with
  | none => none
  | some s1 =>
    let content := s1.takeWhile (fun c => c != '"')
    if content = [] then none
    else
      match s1.dropWhile (fun c => c != '"') with
      | '"' :: rest => some (lit "version: \"" ++ v ++ lit "\"", rest)
      | _ => none

/-- Search pattern `version: "([^"]+)"` returning the capture group
(the `current_version` extraction in the four non-claude scripts). -/
def tryVerG (s : List Char) : Option (List Char) :=
  match matchLit (lit "version: \"") s with
  | none => none
  | some s1 =>
    let content := s1.takeWhile (fun c => c != '"')
    if content = [] then none
    else
      match s1.dropWhile (fun c => c != '"') with
      | '"' :: _ => some content
      | _ => none

/-- Helper for the lazy part of `(package:.*?version:\s*)"[^"]+"`:
match `version:\s*"[^"]+"` at the current position, returning the
whitespace run, the quoted content and the remainder. -/
def tryVerAfter (s : List Char) : Option (List Char × List Char × List Char) :=
  match matchLit (lit "version:") s with
  | none => none
  | some s1 =>
    let ws := s1.takeWhile isSpaceCh
    match s1.dropWhile isSpaceCh with
    | '"' :: s2 =>
      let content := s2.takeWhile (fun c => c != '"')
      if content = [] then none
      else
        match s2.dropWhile (fun c => c != '"') with
        | '"' :: rest => some (ws, content, rest)
        | _ => none
    | _ => none

/-- The lazy scan `.*?` of the package-version pattern: find the first
position (in order) where `version:\s*"[^"]+"` completes, returning the
skipped characters as well. -/
def findVerAfter : List Char → Option (List Char × List Char × List Char × List Char)
  | [] => none
  | c :: rest =>
    match tryVerAfter (c :: rest) with
    | some (ws, content, rem) => some ([], ws, content, rem)
    | none =>
      match findVerAfter rest with
      | some (sk, ws, content, rem) => some (c :: sk, ws, content, rem)
      | none => none

/-- Pattern `(package:.*?version:\s*)"[^"]+"` with `re.DOTALL`,
replacement `\1"{v}"` (`update-devpod.py` line 101,
`update-devpod-prerelease.py` line 153, `update-iterfzf.py` line 64,
all with `count=1`). -/
def tryPkgVer (v : List Char) (s : List Char) : Option (List Char × List Char) :=
  match matchLit (lit "package:") s with
  | none => none
  | some s1 =>
    match findVerAfter s1 with
    | some (sk, ws, _, rem) =>
      some (lit "package:" ++ sk ++ lit "version:" ++ ws ++
        lit "\"" ++ v ++ lit "\"", rem)
    | none => none

/-- The pattern text
`https://github.com/skevetter/devpod/releases/download/v` shared by the
two devpod scripts' URL patterns.  The dots are *not* escaped in the
source, so they are regex wildcards (`matchPatC`). -/
def devpodUrlPrefix : List Char :=
  lit "https://github.com/skevetter/devpod/releases/download/v"

/-- An octal digit (for Python's replacement-template parser). -/
def isOctCh (c : Char) : Bool := '0' ≤ c && c ≤ '7'

/-- How Python parses a replacement template of the form `\1{mid}\2`
(the *unsafe* backreference style used only by `update-devpod.py`,
lines 107 and 124).  When `mid` starts with a digit the parser consumes
it into the group number: `\1` + `2.0.0` is read as group 12, which does
not exist (`re.error`, raised even when the pattern never matches); when
the first *three* digits `1 d d` are all octal, the template instead
denotes the literal character `chr(0o1dd)` and group 1 is lost. -/
inductive Backref1Kind where
  | group1 : Backref1Kind
  | octal (c : Char) (tl : List Char) : Backref1Kind
  | invalid : Backref1Kind
deriving DecidableEq

def backref1Kind (mid : List Char) : Backref1Kind :=
  match mid with
  | [] => .group1
  | c0 :: rest0 =>
    if c0.isDigit then
      match rest0 with
      | c1 :: rest1 =>
        if isOctCh c0 && isOctCh c1 then
          .octal (Char.ofNat (64 + 8 * (c0.toNat - 48) + (c1.toNat - 48))) rest1
        else .invalid
      | [] => .invalid
    else .group1

/-- `update-devpod.py` lines 105-109: pattern
`(https://github.com/skevetter/devpod/releases/download/v){current}(/)`,
with `current` interpolated *unescaped* (its dots are wildcards),
replacement template `\1{version}\2` interpreted per `Backref1Kind`. -/
def tryUrlD (cur new : List Char) (k : Backref1Kind) (s : List Char) :
    Option (List Char × List Char) :=
  match matchPatC devpodUrlPrefix s with
  | none => none
  | some (t1, s1) =>
    match matchPatC cur s1 with
    | none => none
    | some (_, s2) =>
      match s2 with
      | '/' :: rest =>
        match k with
        | .group1 => some (t1 ++ new ++ lit "/", rest)
        | .octal oc tl => some (oc :: (tl ++ lit "/"), rest)
        | .invalid => none
      | _ => none

/-- `update-devpod-prerelease.py` lines 157-161: same URL pattern but the
current version is `re.escape`d (matched literally); replacement
`\g<1>{url_version}\g<2>`. -/
def tryUrlP (cur new : List Char) (s : List Char) : Option (List Char × List Char) :=
  match matchPatC devpodUrlPrefix s with
  | none => none
  | some (t1, s1) =>
    match matchLit cur s1 with
    | none => none
    | some s2 =>
      match s2 with
      | '/' :: rest => some (t1 ++ new ++ lit "/", rest)
      | _ => none

/-- Pattern `(sha256:\s*)[\da-f]{64}(\s*#\s*\[{sel}\])`, replacement
`\1{checksum}\2` (`update-devpod.py` line 123,
`update-devpod-prerelease.py` line 175, `update-iterfzf.py` line 94). -/
def tryShaSel (sel c : List Char) (s : List Char) : Option (List Char × List Char) :=
  match matchLit (lit "sha256:") s with
  | none => none
  | some s1 =>
    let ws1 := s1.takeWhile isSpaceCh
    let s2 := s1.dropWhile isSpaceCh
    let hx := s2.takeWhile isHexCh
    if hx.length = 64 then
      let s3 := s2.dropWhile isHexCh
      let ws2 := s3.takeWhile isSpaceCh
      match s3.dropWhile isSpaceCh with
      | '#' :: s4 =>
        let ws3 := s4.takeWhile isSpaceCh
        match matchLit (lit "[" ++ sel ++ lit "]") (s4.dropWhile isSpaceCh) with
        | some rest =>
          some (lit "sha256:" ++ ws1 ++ c ++ ws2 ++ lit "#" ++ ws3 ++
            lit "[" ++ sel ++ lit "]", rest)
        | none => none
      | _ => none
    else none

/-- `update-devpod.py` lines 123-125: the same checksum pattern but with
the unsafe replacement template `\1{checksum}\2` (see `Backref1Kind`):
a checksum beginning with a letter behaves normally; one beginning with
two octal digits silently replaces group 1 by a single literal
character. -/
def tryShaSelD (sel c : List Char) (k : Backref1Kind) (s : List Char) :
    Option (List Char × List Char) :=
  match matchLit (lit "sha256:") s with
  | none => none
  | some s1 =>
    let ws1 := s1.takeWhile isSpaceCh
    let s2 := s1.dropWhile isSpaceCh
    let hx := s2.takeWhile isHexCh
    if hx.length = 64 then
      let s3 := s2.dropWhile isHexCh
      let ws2 := s3.takeWhile isSpaceCh
      match s3.dropWhile isSpaceCh with
      | '#' :: s4 =>
        let ws3 := s4.takeWhile isSpaceCh
        match matchLit (lit "[" ++ sel ++ lit "]") (s4.dropWhile isSpaceCh) with
        | some rest =>
          let g2 := ws2 ++ lit "#" ++ ws3 ++ lit "[" ++ sel ++ lit "]"
          match k with
          | .group1 => some (lit "sha256:" ++ ws1 ++ c ++ g2, rest)
          | .octal oc tl => some (oc :: (tl ++ g2), rest)
          | .invalid => none
        | none => none
      | _ => none
    else none

/-- Pattern `(# \[{sel}\]\s*\n\s*sha256:\s*)[a-f0-9]+`, replacement
`\1{checksum}` (`update-claude-code.py` lines 78-80).  The whitespace run
after the selector comment must contain a newline (for `\s*\n\s*`). -/
def tryShaCC (sel c : List Char) (s : List Char) : Option (List Char × List Char) :=
  match matchLit (lit "# [" ++ sel ++ lit "]") s with
  | none => none
  | some s1 =>
    let ws := s1.takeWhile isSpaceCh
    if '\n' ∈ ws then
      match matchLit (lit "sha256:") (s1.dropWhile isSpaceCh) with
      | none => none
      | some s2 =>
        let ws2 := s2.takeWhile isSpaceCh
        let s3 := s2.dropWhile isSpaceCh
        let hx := s3.takeWhile isHexCh
        if hx = [] then none
        else
          some (lit "# [" ++ sel ++ lit "]" ++ ws ++ lit "sha256:" ++ ws2 ++ c,
            s3.dropWhile isHexCh)
    else none

/-- The literal head of `update-claude-code.py`'s URL patterns
(every dot of the pattern is escaped in the source). -/
def ccUrlBase : List Char := lit "https://storage.googleapis.com/claude-code-dist-"

/-- `update-claude-code.py` lines 74-75: pattern
`(https://storage\.googleapis\.com/claude-code-dist-[^/]+/claude-code-releases/)[^/]+(/[^/]+/claude-code\.tar\.gz)`,
replacement `\g<1>{version}\g<2>`. -/
def tryUrlCCtar (new : List Char) (s : List Char) : Option (List Char × List Char) :=
  match matchLit ccUrlBase s with
  | none => none
  | some s1 =>
    let seg1 := s1.takeWhile (fun c => c != '/')
    if seg1 = [] then none
    else
      match matchLit (lit "/claude-code-releases/") (s1.dropWhile (fun c => c != '/')) with
      | none => none
      | some s2 =>
        let ver := s2.takeWhile (fun c => c != '/')
        if ver = [] then none
        else
          match s2.dropWhile (fun c => c != '/') with
          | '/' :: s4 =>
            let seg3 := s4.takeWhile (fun c => c != '/')
            if seg3 = [] then none
            else
              match matchLit (lit "/claude-code.tar.gz") (s4.dropWhile (fun c => c != '/')) with
              | some rest =>
                some (ccUrlBase ++ seg1 ++ lit "/claude-code-releases/" ++ new ++
                  lit "/" ++ seg3 ++ lit "/claude-code.tar.gz", rest)
              | none => none
          | _ => none

/-- `update-claude-code.py` lines 71-72: the `win32-x64` variant, pattern
`(https://storage\.googleapis\.com/claude-code-dist-[^/]+/claude-code-releases/)[^/]+(/win32-x64/claude-code\.zip)`. -/
def tryUrlCCzip (new : List Char) (s : List Char) : Option (List Char × List Char) :=
  match matchLit ccUrlBase s with
  | none => none
  | some s1 =>
    let seg1 := s1.takeWhile (fun c => c != '/')
    if seg1 = [] then none
    else
      match matchLit (lit "/claude-code-releases/") (s1.dropWhile (fun c => c != '/')) with
      | none => none
      | some s2 =>
        let ver := s2.takeWhile (fun c => c != '/')
        if ver = [] then none
        else
          match matchLit (lit "/win32-x64/claude-code.zip") (s2.dropWhile (fun c => c != '/')) with
          | some rest =>
            some (ccUrlBase ++ seg1 ++ lit "/claude-code-releases/" ++ new ++
              lit "/win32-x64/claude-code.zip", rest)
          | none => none

/-- `update-ralph-orchestrator.py` lines 80-84: pattern
`(https://github\.com/mikeyobrien/ralph-orchestrator/releases/download/v)[^/]+/`
(dots escaped), replacement `\g<1>{version}/`. -/
def ralphUrlPrefix : List Char :=
  lit "https://github.com/mikeyobrien/ralph-orchestrator/releases/download/v"

def tryUrlR (new : List Char) (s : List Char) : Option (List Char × List Char) :=
  match matchLit ralphUrlPrefix s with
  | none => none
  | some s1 =>
    let seg := s1.takeWhile (fun c => c != '/')
    if seg = [] then none
    else
      match s1.dropWhile (fun c => c != '/') with
      | '/' :: rest => some (ralphUrlPrefix ++ new ++ lit "/", rest)
      | _ => none

/-- `update-ralph-orchestrator.py` lines 92-96: pattern
`(if: {cond}\s+then:\s+url: [^\n]+\s+sha256: )[a-f0-9]+`, replacement
`\g<1>{sha256}`.  (`[^\n]+` is resolved greedily to the rest of the URL
line, as it is on documents whose `url:` line does not itself contain a
`sha256:` field.) -/
def tryShaR (cond c : List Char) (s : List Char) : Option (List Char × List Char) :=
  match matchLit (lit "if: " ++ cond) s with
  | none => none
  | some s1 =>
    let w1 := s1.takeWhile isSpaceCh
    if w1 = [] then none
    else
      match matchLit (lit "then:") (s1.dropWhile isSpaceCh) with
      | none => none
      | some s2 =>
        let w2 := s2.takeWhile isSpaceCh
        if w2 = [] then none
        else
          match matchLit (lit "url: ") (s2.dropWhile isSpaceCh) with
          | none => none
          | some s3 =>
            let ln := s3.takeWhile (fun c => c != '\n')
            if ln = [] then none
            else
              let s4 := s3.dropWhile (fun c => c != '\n')
              let w3 := s4.takeWhile isSpaceCh
              if w3 = [] then none
              else
                match matchLit (lit "sha256: ") (s4.dropWhile isSpaceCh) with
                | none => none
                | some s5 =>
                  let hx := s5.takeWhile isHexCh
                  if hx = [] then none
                  else
                    some (lit "if: " ++ cond ++ w1 ++ lit "then:" ++ w2 ++
                      lit "url: " ++ ln ++ w3 ++ lit "sha256: " ++ c,
                      s5.dropWhile isHexCh)

/-- `update-iterfzf.py` lines 89-91: pattern
`(-\s*url:\s*)https://[^\s]+(\s*#\s*\[{sel}\])`, replacement
`\g<1>{wheel_url}\g<2>`.  (`[^\s]+` is resolved greedily to the maximal
non-space run, as it is on documents where the URL is followed by
whitespace before the `#` comment.) -/
def tryUrlI (sel newUrl : List Char) (s : List Char) :
    Option (List Char × List Char) :=
  match matchLit (lit "-") s with
  | none => none
  | some s0 =>
    let w1 := s0.takeWhile isSpaceCh
    let s1 := s0.dropWhile isSpaceCh
    match matchLit (lit "url:") s1 with
    | none => none
    | some s2 =>
      let w2 := s2.takeWhile isSpaceCh
      let s3 := s2.dropWhile isSpaceCh
      match matchLit (lit "https://") s3 with
      | none => none
      | some s4 =>
        let run := s4.takeWhile (fun c => !(isSpaceCh c))
        if run = [] then none
        else
          let s5 := s4.dropWhile (fun c => !(isSpaceCh c))
          let w3 := s5.takeWhile isSpaceCh
          match s5.dropWhile isSpaceCh with
          | '#' :: s6 =>
            let w4 := s6.takeWhile isSpaceCh
            match matchLit (lit "[" ++ sel ++ lit "]") (s6.dropWhile isSpaceCh) with
            | some rest =>
              some (lit "-" ++ w1 ++ lit "url:" ++ w2 ++ newUrl ++ w3 ++
                lit "#" ++ w4 ++ lit "[" ++ sel ++ lit "]", rest)
            | none => none
          | _ => none

/-- Python `str.replace(pat, rep)` at one position: leftmost-match,
non-overlapping global replacement is `subAll (tryRepl pat rep)`
(`update-iterfzf.py` line 100). -/
def tryRepl (pat rep : List Char) (s : List Char) :
    Option (List Char × List Char) :=
  match matchLit pat s with
  | none => none
  | some rem => some (rep, rem)

/-! ## The per-script recipe rewriters

Each function is the pure text transformation performed by the script's
`update_recipe` between `read_text()` and `write_text()`. -/

/-- `PLATFORM_MAPPING` of `update-claude-code.py` (manifest platform name
to conda selector). -/
def ccPlatformMapping : List (String × List Char) :=
  [("linux-x64", lit "linux and x86_64"),
   ("linux-arm64", lit "linux and aarch64"),
   ("darwin-x64", lit "osx and x86_64"),
   ("darwin-arm64", lit "osx and arm64"),
   ("win32-x64", lit "win")]

/-- `update-claude-code.py` `update_recipe` (lines 55-84): version field
substitution (`count=1`), then for every manifest platform with a truthy
checksum a global URL substitution and a selector-scoped checksum
substitution, then an *unconditional* global `number: \d+` → `number: 0`
substitution. -/
def claudeUpdateRecipe (version : List Char)
    (manifest : List (String × Option (List Char))) (recipe : List Char) :
    List Char :=
  let r1 := subFirst (tryVerQ version) recipe
  let r2 := manifest.foldl (fun acc pd =>
    match ccPlatformMapping.lookup pd.1 with
    | none => acc
    | some selector =>
      match pd.2 with
      | none => acc
      | some chk =>
        if chk = [] then acc
        else
          let acc1 := if pd.1 = "win32-x64" then subAll (tryUrlCCzip version) acc
                      else subAll (tryUrlCCtar version) acc
          subAll (tryShaCC selector chk) acc1) r1
  subAll tryNumber r2

/-- `selector_map` shared by `update-devpod.py` and
`update-devpod-prerelease.py` (iteration order = insertion order). -/
def devpodSelectorMap : List (List Char × String) :=
  [(lit "linux and x86_64", "linux-64"),
   (lit "linux and aarch64", "linux-aarch64"),
   (lit "osx and x86_64", "osx-64"),
   (lit "osx and arm64", "osx-arm64"),
   (lit "win", "win-64")]

/-- The checksum loop of `update-devpod.py` (lines 120-126): platforms
with a non-empty checksum get a selector-scoped substitution; a checksum
whose unsafe template is an invalid group reference raises `re.error`
(modelled as `.error ()`), aborting the run before `write_text`. -/
def devpodShaFold (checksums : List (String × List Char)) (r2 : List Char) :
    Except Unit (List Char) :=
  devpodSelectorMap.foldl (fun acc sp =>
    match acc with
    | .error e => .error e
    | .ok t =>
      match checksums.lookup sp.2 with
      | none => .ok t
      | some c =>
        if c = [] then .ok t
        else
          match backref1Kind c with
          | .invalid => .error ()
          | k => .ok (subAll (tryShaSelD sp.1 c k) t)) (.ok r2)

/-- `update-devpod.py` `update_recipe` (lines 94-135): extract current
version, package-scoped version substitution, global URL substitution
(only if a current version was found; its unsafe replacement template
`\1{version}\2` raises `re.error` for an ordinary digit-initial version
such as `2.0.0`, aborting the run), selector-scoped checksum
substitutions for the platforms with a *non-empty* checksum, and a
build-number reset only when the version changed. -/
def devpodUpdateRecipe (version : List Char)
    (checksums : List (String × List Char)) (recipe : List Char) :
    Except Unit (List Char) :=
  let current := searchF tryVerG recipe
  let r1 := subFirst (tryPkgVer version) recipe
  let r2e : Except Unit (List Char) :=
    match current with
    | some cur =>
      match backref1Kind version with
      | .invalid => .error ()
      | k => .ok (subAll (tryUrlD cur version k) r1)
    | none => .ok r1
  match r2e with
  | .error e => .error e
  | .ok r2 =>
    match devpodShaFold checksums r2 with
    | .error e => .error e
    | .ok r3 =>
      .ok (if current = some version then r3 else subAll tryNumber r3)

/-- `version.replace("-", "_")` of `update-devpod-prerelease.py` line 143. -/
def underscoreOf (v : List Char) : List Char :=
  v.map (fun c => if c = '-' then '_' else c)

/-- `current_pkg_version.replace("_", "-")` of line 150. -/
def hyphenOf (v : List Char) : List Char :=
  v.map (fun c => if c = '_' then '-' else c)

/-- `update-devpod-prerelease.py` `update_recipe` (lines 140-187): like
devpod's, but the document version field receives the underscored form of
the resolved version while URLs receive the original (hyphenated) form,
and the URL pattern interpolates the current URL-form version escaped. -/
def preUpdateRecipe (version : List Char)
    (checksums : List (String × List Char)) (recipe : List Char) : List Char :=
  let pkgVersion := underscoreOf version
  let urlVersion := version
  let currentPkg := searchF tryVerG recipe
  let currentUrl := currentPkg.map hyphenOf
  let r1 := subFirst (tryPkgVer pkgVersion) recipe
  let r2 := match currentUrl with
    | some cu => subAll (tryUrlP cu urlVersion) r1
    | none => r1
  let r3 := devpodSelectorMap.foldl (fun acc sp =>
    match checksums.lookup sp.2 with
    | none => acc
    | some c => if c = [] then acc else subAll (tryShaSel sp.1 c) acc) r2
  if currentPkg = some pkgVersion then r3 else subAll tryNumber r3

/-- `update-ralph-orchestrator.py` `update_recipe` (lines 70-105). -/
def ralphUpdateRecipe (version : List Char)
    (checksums : List (List Char × List Char)) (recipe : List Char) : List Char :=
  let current := searchF tryVerG recipe
  let r1 := subFirst (tryVerQ version) recipe
  let r2 := subAll (tryUrlR version) r1
  let r3 := checksums.foldl (fun acc p => subAll (tryShaR p.1 p.2) acc) r2
  if current = some version then r3 else subAll tryNumber r3

/-- `selector_map` of `update-iterfzf.py` (lines 67-73, iteration order =
insertion order). -/
def iterfzfSelectorMap : List (List Char × String) :=
  [(lit "linux and x86_64", "linux-64"),
   (lit "linux and aarch64", "linux-aarch64"),
   (lit "osx and x86_64", "osx-64"),
   (lit "osx and arm64", "osx-arm64"),
   (lit "win and x86_64", "win-64")]

/-- `update-iterfzf.py` `update_recipe` (lines 51-109): extract current
version, package-scoped version substitution (`count=1`), then per
selector a selector-scoped URL substitution and checksum substitution for
the platforms with a resolved wheel, then the global
`iterfzf-{current}` → `iterfzf-{version}` string replacement (only when a
current version was found), and a build-number reset only when the
version changed.  `wheels` maps each conda platform to the
`(wheel_url, sha256)` pair of `get_wheel_info(urls, PLATFORM_MAP[p])`
(`PLATFORM_MAP` carries every one of the five platforms, so the
`if not platform_tag: continue` guard never fires); an absent entry
models "no wheel found", which is skipped with a warning. -/
def iterfzfUpdateRecipe (version : List Char)
    (wheels : List (String × (List Char × List Char))) (recipe : List Char) :
    List Char :=
  let current := searchF tryVerG recipe
  let r1 := subFirst (tryPkgVer version) recipe
  let r2 := iterfzfSelectorMap.foldl (fun acc sp =>
    match wheels.lookup sp.2 with
    | none => acc
    | some wi =>
      subAll (tryShaSel sp.1 wi.2) (subAll (tryUrlI sp.1 wi.1) acc)) r1
  let r3 := match current with
    | some cur =>
      subAll (tryRepl (lit "iterfzf-" ++ cur) (lit "iterfzf-" ++ version)) r2
    | none => r2
  if current = some version then r3 else subAll tryNumber r3

/-! ## Control-flow models

Network interaction is modelled by passing the upstream responses as
parameters: `none` models an unreachable endpoint or an undecodable
response (anything that raises inside the `try` blocks of the scripts).
A script run is a function returning the final recipe-file state together
with a success flag; `exit` paths (`sys.exit(1)`) return the file
unchanged with the flag `false`. -/

/-- Python `str.strip()` (ASCII whitespace). -/
def stripCh (s : List Char) : List Char :=
  ((s.dropWhile isSpaceCh).reverse.dropWhile isSpaceCh).reverse

/-- Python `str.lstrip("v")`: remove every leading `'v'`. -/
def lstripV (s : List Char) : List Char := s.dropWhile (fun c => c = 'v')

/-- `update-claude-code.py` `get_version` (lines 28-38): an explicit
argument is returned as-is; otherwise the `stable` endpoint body,
stripped, is the version; an unreachable endpoint is fatal. -/
def claudeGetVersion (versionArg : Option (List Char))
    (stableResp : Option (List Char)) : Except Unit (List Char) :=
  match versionArg with
  | some v => .ok v
  | none =>
    match stableResp with
    | some body => .ok (stripCh body)
    | none => .error ()

/-- `update-claude-code.py` `main` + `get_manifest` + `update_recipe`
as a pure run: result is (recipe file after the run, success flag). -/
def claudeMain (versionArg : Option (List Char))
    (stableResp : Option (List Char))
    (manifestResp : List Char → Option (List (String × Option (List Char))))
    (file : Option (List Char)) : Option (List Char) × Bool :=
  match claudeGetVersion versionArg stableResp with
  | .error _ => (file, false)
  | .ok version =>
    match manifestResp version with
    | none => (file, false)
    | some manifest =>
      match file with
      | none => (file, false)
      | some text => (some (claudeUpdateRecipe version manifest text), true)

/-- `update-devpod.py` `get_version` (lines 43-49): with an explicit
argument, return `(arg, None)` without any fetch; otherwise the latest
release gives `tag_name.lstrip("v")` and the asset map. -/
def devpodGetVersion (versionArg : Option (List Char))
    (latestResp : Option (List Char × List (String × List Char))) :
    Except Unit (List Char × Option (List (String × List Char))) :=
  match versionArg with
  | some v => .ok (v, none)
  | none =>
    match latestResp with
    | none => .error ()
    | some rel => .ok (lstripV rel.1, some rel.2)

/-- `PLATFORM_BINARIES` shared by the two devpod scripts. -/
def devpodPlatformBinaries : List (String × String) :=
  [("linux-64", "devpod-linux-amd64"),
   ("linux-aarch64", "devpod-linux-arm64"),
   ("osx-64", "devpod-darwin-amd64"),
   ("osx-arm64", "devpod-darwin-arm64"),
   ("win-64", "devpod-windows-amd64.exe")]

/-- `update-devpod.py` `get_checksums` (lines 66-85) with
`download_and_hash` (lines 52-63): `hashOf url = none` models a failed
download (the script then records the empty string); a platform whose
binary is absent from the asset map is recorded with an empty checksum. -/
def devpodGetChecksums (version : List Char)
    (assets : Option (List (String × List Char)))
    (hashOf : List Char → Option (List Char)) : List (String × List Char) :=
  let as : List (String × List Char) :=
    match assets with
    | some a => a
    | none =>
      devpodPlatformBinaries.map (fun pb =>
        (pb.2, lit "https://github.com/skevetter/devpod/releases/download/v" ++
          version ++ lit "/" ++ lit pb.2))
  devpodPlatformBinaries.foldl (fun cs pb =>
    match as.lookup pb.2 with
    | some url =>
      cs ++ [(pb.1, match hashOf url with | some h => h | none => [])]
    | none => cs ++ [(pb.1, [])]) []

/-- `update-devpod.py` `main` as a pure run. -/
def devpodMain (versionArg : Option (List Char))
    (latestResp : Option (List Char × List (String × List Char)))
    (hashOf : List Char → Option (List Char))
    (file : Option (List Char)) : Option (List Char) × Bool :=
  match devpodGetVersion versionArg latestResp with
  | .error _ => (file, false)
  | .ok va =>
    let checksums := devpodGetChecksums va.1 va.2 hashOf
    match file with
    | none => (file, false)
    | some text =>
      match devpodUpdateRecipe va.1 checksums text with
      | .error _ => (file, false)
      | .ok out => (some out, true)

/-- A GitHub release entry as consumed by
`update-devpod-prerelease.py`: tag, prerelease flag, asset map. -/
structure GhRelease where
  tag : List Char
  prerelease : Bool
  assets : List (String × List Char)
deriving DecidableEq

/-- `get_latest_prerelease` (lines 33-56): the first entry of the list
that is marked prerelease *and* has a non-empty asset list; `none` inside
`ok` when no such entry exists; a fetch failure is fatal. -/
def preGetLatestPrerelease (resp : Option (List GhRelease)) :
    Except Unit (Option (List Char × List (String × List Char))) :=
  match resp with
  | none => .error ()
  | some releases =>
    match releases.find? (fun r => r.prerelease && !r.assets.isEmpty) with
    | some r => .ok (some (lstripV r.tag, r.assets))
    | none => .ok none

/-- `get_latest_release_fallback` (lines 59-75): the first entry of the
list regardless of prerelease status. -/
def preGetLatestReleaseFallback (resp : Option (List GhRelease)) :
    Except Unit (Option (List Char × List (String × List Char))) :=
  match resp with
  | none => .error ()
  | some releases =>
    match releases.head? with
    | some r => .ok (some (lstripV r.tag, r.assets))
    | none => .ok none

/-- `update-devpod-prerelease.py` `get_version` (lines 78-91). -/
def preGetVersion (versionArg : Option (List Char))
    (resp : Option (List GhRelease)) :
    Except Unit (Option (List Char) × Option (List (String × List Char))) :=
  match versionArg with
  | some v => .ok (some v, none)
  | none =>
    match preGetLatestPrerelease resp with
    | .error _ => .error ()
    | .ok (some va) =>
      if va.1 ≠ [] ∧ va.2 ≠ [] then .ok (some va.1, some va.2)
      else
        match preGetLatestReleaseFallback resp with
        | .error _ => .error ()
        | .ok (some vb) => .ok (some vb.1, some vb.2)
        | .ok none => .ok (none, none)
    | .ok none =>
      match preGetLatestReleaseFallback resp with
      | .error _ => .error ()
      | .ok (some vb) => .ok (some vb.1, some vb.2)
      | .ok none => .ok (none, none)

/-- `update-devpod-prerelease.py` `get_checksums` (lines 96-139) with
`download_and_hash`: same logic as `update-devpod.py`'s (a failed
download degrades to an empty checksum; a platform whose binary is
absent from the asset map is recorded with an empty checksum). -/
def preGetChecksums (version : List Char)
    (assets : Option (List (String × List Char)))
    (hashOf : List Char → Option (List Char)) : List (String × List Char) :=
  let as : List (String × List Char) :=
    match assets with
    | some a => a
    | none =>
      devpodPlatformBinaries.map (fun pb =>
        (pb.2, lit "https://github.com/skevetter/devpod/releases/download/v" ++
          version ++ lit "/" ++ lit pb.2))
  devpodPlatformBinaries.foldl (fun cs pb =>
    match as.lookup pb.2 with
    | some url =>
      cs ++ [(pb.1, match hashOf url with | some h => h | none => [])]
    | none => cs ++ [(pb.1, [])]) []

/-- `update-devpod-prerelease.py` `main` (lines 189-210) as a pure run:
an unresolvable version (`if not version: sys.exit(1)`) and a missing
recipe file are fatal with the file untouched. -/
def preMain (versionArg : Option (List Char)) (resp : Option (List GhRelease))
    (hashOf : List Char → Option (List Char))
    (file : Option (List Char)) : Option (List Char) × Bool :=
  match preGetVersion versionArg resp with
  | .error _ => (file, false)
  | .ok (none, _) => (file, false)
  | .ok (some version, assets) =>
    match file with
    | none => (file, false)
    | some text =>
      (some (preUpdateRecipe version (preGetChecksums version assets hashOf)
        text), true)

/-- `update-iterfzf.py` `main` version resolution (lines 117-129): an
explicit argument is used as the version verbatim (the per-version
package-index fetch only supplies the wheel list); otherwise the index's
current-info version is used. -/
def iterfzfResolve (versionArg : Option (List Char))
    (perVersionUrls : List Char → Option (List (String × List Char)))
    (latestResp : Option (List Char × List (String × List Char))) :
    Except Unit (List Char × List (String × List Char)) :=
  match versionArg with
  | some v =>
    match perVersionUrls v with
    | none => .error ()
    | some urls => .ok (v, urls)
  | none =>
    match latestResp with
    | none => .error ()
    | some vu => .ok (vu.1, vu.2)

/-- `update-iterfzf.py` `main` (lines 112-136) as a pure run: with an
explicit argument the per-version package-index fetch must succeed
(`sys.exit(1)` otherwise), without one the latest-release fetch must;
a missing recipe file is fatal inside `update_recipe`.  The responses
carry, per conda platform, the resolved `(wheel_url, sha256)` pairs (the
`get_wheel_info` view of the index's `urls` list). -/
def iterfzfMain (versionArg : Option (List Char))
    (perVersionWheels :
      List Char → Option (List (String × (List Char × List Char))))
    (latestResp : Option (List Char × List (String × (List Char × List Char))))
    (file : Option (List Char)) : Option (List Char) × Bool :=
  match versionArg with
  | some v =>
    match perVersionWheels v with
    | none => (file, false)
    | some wheels =>
      match file with
      | none => (file, false)
      | some text => (some (iterfzfUpdateRecipe v wheels text), true)
  | none =>
    match latestResp with
    | none => (file, false)
    | some vw =>
      match file with
      | none => (file, false)
      | some text => (some (iterfzfUpdateRecipe vw.1 vw.2 text), true)

/-- `update-ralph-orchestrator.py` `get_latest_release` (lines 27-48):
even with an explicit version argument the GitHub API is queried (at the
tag-specific URL), and the returned version is the *response's*
`tag_name` with leading `v`s stripped. -/
def ralphGetLatestRelease (versionArg : Option (List Char))
    (fetch : List Char → Option (List Char × List (String × List Char))) :
    Except Unit (List Char × List (String × List Char)) :=
  let apiUrl : List Char :=
    match versionArg with
    | some v =>
      let tag := if v.head? = some 'v' then v else 'v' :: v
      lit "https://api.github.com/repos/mikeyobrien/ralph-orchestrator/releases/tags/" ++ tag
    | none =>
      lit "https://api.github.com/repos/mikeyobrien/ralph-orchestrator/releases/latest"
  match fetch apiUrl with
  | none => .error ()
  | some rel => .ok (lstripV rel.1, rel.2)

/-- First whitespace-delimited token of a string (`content.split()[0]`);
`none` when there is no token (Python raises `IndexError`). -/
def firstTok (s : List Char) : Option (List Char) :=
  let t := (s.dropWhile isSpaceCh).takeWhile (fun c => !(isSpaceCh c))
  if t = [] then none else some t

/-- `update-ralph-orchestrator.py` `get_sha256` (lines 51-61): any
failure (fetch error *or* empty response body) hits the
`except`/`sys.exit(1)` path and is fatal. -/
def ralphGetSha256 (resp : Option (List Char)) : Except Unit (List Char) :=
  match resp with
  | none => .error ()
  | some content =>
    match firstTok (stripCh content) with
    | some t => .ok t
    | none => .error ()

/-- `PLATFORM_ASSETS` of `update-ralph-orchestrator.py`. -/
def ralphPlatformAssets : List (List Char × String) :=
  [(lit "linux and x86_64", "ralph-cli-x86_64-unknown-linux-gnu.tar.xz"),
   (lit "linux and aarch64", "ralph-cli-aarch64-unknown-linux-gnu.tar.xz"),
   (lit "osx and x86_64", "ralph-cli-x86_64-apple-darwin.tar.xz"),
   (lit "osx and arm64", "ralph-cli-aarch64-apple-darwin.tar.xz")]

/-- The checksum-collection loop of `main` (lines 118-127): a platform
whose asset is absent is skipped with a warning (non-fatal), but a
failing `.sha256` fetch terminates the whole run via `get_sha256`. -/
def ralphCollectChecksums (assets : List (String × List Char))
    (shaFetch : List Char → Option (List Char)) :
    Except Unit (List (List Char × List Char)) :=
  ralphPlatformAssets.foldl (fun acc ca =>
    match acc with
    | .error e => .error e
    | .ok cs =>
      match assets.lookup ca.2 with
      | none => .ok cs
      | some url =>
        match ralphGetSha256 (shaFetch (url ++ lit ".sha256")) with
        | .error _ => .error ()
        | .ok sha => .ok (cs ++ [(ca.1, sha)])) (.ok [])

/-- `update-ralph-orchestrator.py` `main` as a pure run (lines 108-136):
note the `if not checksums: sys.exit(1)` guard *before* `update_recipe`. -/
def ralphMain (versionArg : Option (List Char))
    (fetch : List Char → Option (List Char × List (String × List Char)))
    (shaFetch : List Char → Option (List Char))
    (file : Option (List Char)) : Option (List Char) × Bool :=
  match ralphGetLatestRelease versionArg fetch with
  | .error _ => (file, false)
  | .ok va =>
    match ralphCollectChecksums va.2 shaFetch with
    | .error _ => (file, false)
    | .ok checksums =>
      if checksums = [] then (file, false)
      else
        match file with
        | none => (file, false)
        | some text => (some (ralphUpdateRecipe va.1 checksums text), true)

/-! ## Lemmas about `matchPatC` -/

theorem matchPatC_append (p q s : List Char) :
    matchPatC (p ++ q) s =
      (matchPatC p s).bind (fun tr =>
        (matchPatC q tr.2).map (fun tr2 => (tr.1 ++ tr2.1, tr2.2))) := by
  induction p generalizing s with
  | nil =>
    simp only [List.nil_append, matchPatC, Option.some_bind]
    cases matchPatC q s with
    | none => rfl
    | some tr => rfl
  | cons a ps ih =>
    cases s with
    | nil => simp [matchPatC]
    | cons c cs =>
      by_cases hd : a = '.'
      · subst hd
        by_cases hn : c = '\n'
        · simp [matchPatC, hn]
        · simp only [List.cons_append, matchPatC, if_pos rfl, if_neg hn]
          cases hm : matchPatC ps cs with
          | none => simp [ih cs, hm]
          | some tr =>
            cases hm2 : matchPatC q tr.2 with
            | none => simp [ih cs, hm, hm2]
            | some tr2 => simp [ih cs, hm, hm2]
      · by_cases hac : a = c
        · subst hac
          simp only [List.cons_append, matchPatC, if_neg hd, if_pos rfl]
          cases hm : matchPatC ps cs with
          | none => simp [ih cs, hm]
          | some tr =>
            cases hm2 : matchPatC q tr.2 with
            | none => simp [ih cs, hm, hm2]
            | some tr2 => simp [ih cs, hm, hm2]
        · simp [matchPatC, hd, hac]

theorem matchPatC_eq_matchLit {p : List Char} (hp : '.' ∉ p) (s : List Char) :
    matchPatC p s = (matchLit p s).map (fun r => (p, r)) := by
  induction p generalizing s with
  | nil => simp [matchPatC, matchLit]
  | cons a ps ih =>
    cases s with
    | nil => simp [matchPatC, matchLit]
    | cons c cs =>
      have ha : a ≠ '.' := fun h => hp (h ▸ List.mem_cons_self a ps)
      have hps : '.' ∉ ps := fun h => hp (List.mem_cons_of_mem a h)
      by_cases hac : a = c
      · subst hac
        simp only [matchPatC, if_neg ha, if_pos rfl, matchLit, ih hps]
        cases matchLit ps cs with
        | none => rfl
        | some r => rfl
      · simp [matchPatC, matchLit, ha, hac]

/-- A pattern text matches its own text (dots match themselves as long as
the pattern has no newline). -/
theorem matchPatC_self {p : List Char} (hp : '\n' ∉ p) (rest : List Char) :
    matchPatC p (p ++ rest) = some (p, rest) := by
  induction p with
  | nil => simp [matchPatC]
  | cons a ps ih =>
    have ha : a ≠ '\n' := fun h => hp (h ▸ List.mem_cons_self a ps)
    have hps : '\n' ∉ ps := fun h => hp (List.mem_cons_of_mem a h)
    by_cases hd : a = '.'
    · subst hd
      simp [matchPatC, ha, ih hps]
    · simp [matchPatC, hd, ih hps]

theorem length_of_matchPatC {p s t rem : List Char}
    (h : matchPatC p s = some (t, rem)) : rem.length + p.length = s.length := by
  induction p generalizing s t rem with
  | nil =>
    simp [matchPatC] at h
    simp [h]
  | cons a ps ih =>
    cases s with
    | nil => simp [matchPatC] at h
    | cons c cs =>
      by_cases hd : a = '.'
      · subst hd
        by_cases hn : c = '\n'
        · simp [matchPatC, hn] at h
        · cases hm : matchPatC ps cs with
          | none => simp [matchPatC, hn, hm] at h
          | some tr =>
            obtain ⟨t', r'⟩ := tr
            simp [matchPatC, hn, hm] at h
            have := ih hm
            simp [List.length_cons, ← h.2]
            omega
      · by_cases hac : a = c
        · subst hac
          cases hm : matchPatC ps cs with
          | none => simp [matchPatC, hd, hm] at h
          | some tr =>
            obtain ⟨t', r'⟩ := tr
            simp [matchPatC, hd, hm] at h
            have := ih hm
            simp [List.length_cons, ← h.2]
            omega
        · simp [matchPatC, hd, hac] at h

/-- The devpod URL pattern head is `https:` followed by the rest; a failure
on the literal, dot-free head refutes the whole pattern. -/
theorem matchPatC_urlPrefix_none {s : List Char}
    (h : matchLit (lit "https:") s = none) :
    matchPatC devpodUrlPrefix s = none := by
  have hsplit : devpodUrlPrefix =
      lit "https:" ++ lit "//github.com/skevetter/devpod/releases/download/v" := by
    rfl
  rw [hsplit, matchPatC_append,
    matchPatC_eq_matchLit (by decide) s, h]
  rfl

/-! ## Failure of each pattern when its literal head fails -/

theorem tryNumber_none {s : List Char}
    (h : matchLit (lit "number: ") s = none) : tryNumber s = none := by
  simp only [tryNumber, h]

theorem tryVerQ_none {v s : List Char}
    (h : matchLit (lit "version: \"") s = none) : tryVerQ v s = none := by
  simp only [tryVerQ, h]

theorem tryVerG_none {s : List Char}
    (h : matchLit (lit "version: \"") s = none) : tryVerG s = none := by
  simp only [tryVerG, h]

theorem tryVerAfter_none {s : List Char}
    (h : matchLit (lit "version:") s = none) : tryVerAfter s = none := by
  simp only [tryVerAfter, h]

theorem tryPkgVer_none {v s : List Char}
    (h : matchLit (lit "package:") s = none) : tryPkgVer v s = none := by
  simp only [tryPkgVer, h]

theorem tryShaSel_none {sel c s : List Char}
    (h : matchLit (lit "sha256:") s = none) : tryShaSel sel c s = none := by
  simp only [tryShaSel, h]

theorem tryShaSelD_none {sel c s : List Char} {k : Backref1Kind}
    (h : matchLit (lit "sha256:") s = none) : tryShaSelD sel c k s = none := by
  simp only [tryShaSelD, h]

theorem tryShaCC_none {sel c s : List Char}
    (h : matchLit (lit "# [" ++ sel ++ lit "]") s = none) :
    tryShaCC sel c s = none := by
  simp only [tryShaCC, h]

theorem tryUrlCCtar_none {new s : List Char}
    (h : matchLit ccUrlBase s = none) : tryUrlCCtar new s = none := by
  simp only [tryUrlCCtar, h]

theorem tryUrlCCzip_none {new s : List Char}
    (h : matchLit ccUrlBase s = none) : tryUrlCCzip new s = none := by
  simp only [tryUrlCCzip, h]

theorem tryUrlP_none {cur new s : List Char}
    (h : matchLit (lit "https:") s = none) : tryUrlP cur new s = none := by
  simp only [tryUrlP, matchPatC_urlPrefix_none h]

theorem tryUrlD_none {cur new s : List Char} {k : Backref1Kind}
    (h : matchLit (lit "https:") s = none) : tryUrlD cur new k s = none := by
  simp only [tryUrlD, matchPatC_urlPrefix_none h]

theorem tryUrlR_none {new s : List Char}
    (h : matchLit ralphUrlPrefix s = none) : tryUrlR new s = none := by
  simp only [tryUrlR, h]

theorem tryShaR_none {cond c s : List Char}
    (h : matchLit (lit "if: " ++ cond) s = none) : tryShaR cond c s = none := by
  simp only [tryShaR, h]

theorem tryUrlI_none {sel w s : List Char}
    (h : matchLit (lit "-") s = none) : tryUrlI sel w s = none := by
  simp only [tryUrlI, h]

theorem tryRepl_none {pat rep s : List Char}
    (h : matchLit pat s = none) : tryRepl pat rep s = none := by
  simp only [tryRepl, h]

/-- Build the `subAll_splice_skip` side condition out of a literal-head
failure: inside a spliced field whose characters satisfy `A`, a pattern
whose literal head `lt` has a `¬A` character at index `j` — with the
splice's boundary character `q` absent from `lt.take (j+1)` — can never
match. -/
theorem splice_hnone_of_lit {try? : List Char → Option (List Char × List Char)}
    {lt : List Char} (hstart : ∀ s, matchLit lt s = none → try? s = none)
    (A : Char → Bool) (j : Nat) (hj : j < lt.length) (hjA : A lt[j] = false)
    (q : Char) (hq : q ∉ lt.take (j + 1)) (bs : List Char) :
    ∀ r, r ≠ [] → (∀ c ∈ r, A c = true) → try? (r ++ q :: bs) = none := by
  intro r _ hr
  exact hstart _ (matchLit_splice_none lt (fun c => A c = true) j hj
    (by simp [hjA]) q hq r hr bs)

/-- Same, for searches (`α`-valued matchers). -/
theorem splice_hnoneS_of_lit {α : Type} {try? : List Char → Option α}
    {lt : List Char} (hstart : ∀ s, matchLit lt s = none → try? s = none)
    (A : Char → Bool) (j : Nat) (hj : j < lt.length) (hjA : A lt[j] = false)
    (q : Char) (hq : q ∉ lt.take (j + 1)) (bs : List Char) :
    ∀ r, r ≠ [] → (∀ c ∈ r, A c = true) → try? (r ++ q :: bs) = none := by
  intro r _ hr
  exact hstart _ (matchLit_splice_none lt (fun c => A c = true) j hj
    (by simp [hjA]) q hq r hr bs)

/-! ## Field alphabets -/

/-- Characters allowed in a version string (both document form and URL
form): alphanumerics, dot, hyphen, underscore. -/
def isVerCh (c : Char) : Bool := c.isAlphanum || c = '.' || c = '-' || c = '_'

/-- Characters allowed in free-form text fields (summaries, comments):
the version alphabet plus the space. -/
def isJunkCh (c : Char) : Bool := isVerCh c || c = ' '

theorem verCh_of_hexCh {c : Char} (h : isHexCh c = true) : isVerCh c = true := by
  simp only [isHexCh, Bool.or_eq_true, Bool.and_eq_true, decide_eq_true_eq] at h
  rcases h with h | h
  · simp [isVerCh, Char.isAlphanum, h]
  · have h1 : c.isLower = true := by
      have ha : (97 : UInt32) ≤ c.val := h.1
      have hb : c.val ≤ (102 : UInt32) := h.2
      simp only [Char.isLower, Bool.and_eq_true, decide_eq_true_eq]
      exact ⟨ha, UInt32.le_trans hb (by decide)⟩
    simp [isVerCh, Char.isAlphanum, Char.isAlpha, h1]

theorem junkCh_of_verCh {c : Char} (h : isVerCh c = true) : isJunkCh c = true := by
  simp [isJunkCh, h]

theorem verCh_of_digit {c : Char} (h : isDigitCh c = true) : isVerCh c = true := by
  simp only [isDigitCh] at h
  simp [isVerCh, Char.isAlphanum, h]

/-! ## Every pattern consumes input when it matches -/

theorem consumes_tryNumber : Consumes tryNumber := by
  intro s r rem h
  simp only [tryNumber] at h
  split at h
  · exact absurd h (by simp)
  · rename_i s1 hm
    split at h
    · exact absurd h (by simp)
    · simp only [Option.some.injEq, Prod.mk.injEq] at h
      have h1 := length_of_matchLit hm
      have h2 := length_dropWhile_le' isDigitCh s1
      rw [h.2] at h2
      simp [lit] at h1
      omega

theorem consumes_tryShaSel (sel c : List Char) : Consumes (tryShaSel sel c) := by
  intro s r rem h
  simp only [tryShaSel] at h
  split at h
  · exact absurd h (by simp)
  · rename_i s1 hm
    split at h
    · split at h
      · rename_i c4 s4 hm3
        split at h
        · rename_i rest hm4
          simp only [Option.some.injEq, Prod.mk.injEq] at h
          have h1 := length_of_matchLit hm
          have h2 := length_dropWhile_le' isSpaceCh s1
          have h3 := length_dropWhile_le' isHexCh (s1.dropWhile isSpaceCh)
          have h4 : (List.dropWhile isSpaceCh
              (List.dropWhile isHexCh (s1.dropWhile isSpaceCh))).length ≤
              (List.dropWhile isHexCh (s1.dropWhile isSpaceCh)).length :=
            length_dropWhile_le' _ _
          rw [hm3] at h4
          have h5 := length_dropWhile_le' isSpaceCh s4
          have h6 := length_of_matchLit hm4
          have h7 : 0 < (lit "[" ++ sel ++ lit "]").length := by simp [lit]
          rw [h.2] at h6
          simp only [List.length_cons] at h4
          simp [lit] at h1
          omega
        · exact absurd h (by simp)
      · exact absurd h (by simp)
    · exact absurd h (by simp)

theorem consumes_tryShaSelD (sel c : List Char) (k : Backref1Kind) :
    Consumes (tryShaSelD sel c k) := by
  intro s r rem h
  simp only [tryShaSelD] at h
  split at h
  · exact absurd h (by simp)
  · rename_i s1 hm
    split at h
    · split at h
      · rename_i c4 s4 hm3
        split at h
        · rename_i rest hm4
          have h1 := length_of_matchLit hm
          have h2 := length_dropWhile_le' isSpaceCh s1
          have h3 := length_dropWhile_le' isHexCh (s1.dropWhile isSpaceCh)
          have h4 : (List.dropWhile isSpaceCh
              (List.dropWhile isHexCh (s1.dropWhile isSpaceCh))).length ≤
              (List.dropWhile isHexCh (s1.dropWhile isSpaceCh)).length :=
            length_dropWhile_le' _ _
          rw [hm3] at h4
          have h5 := length_dropWhile_le' isSpaceCh s4
          have h6 := length_of_matchLit hm4
          have h7 : 0 < (lit "[" ++ sel ++ lit "]").length := by simp [lit]
          simp only [List.length_cons] at h4
          simp [lit] at h1
          split at h
          · simp only [Option.some.injEq, Prod.mk.injEq] at h
            rw [h.2] at h6
            omega
          · simp only [Option.some.injEq, Prod.mk.injEq] at h
            rw [h.2] at h6
            omega
          · exact absurd h (by simp)
        · exact absurd h (by simp)
      · exact absurd h (by simp)
    · exact absurd h (by simp)

theorem consumes_tryShaCC (sel c : List Char) : Consumes (tryShaCC sel c) := by
  intro s r rem h
  simp only [tryShaCC] at h
  split at h
  · exact absurd h (by simp)
  · rename_i s1 hm
    split at h
    · split at h
      · exact absurd h (by simp)
      · rename_i s2 hm2
        split at h
        · exact absurd h (by simp)
        · simp only [Option.some.injEq, Prod.mk.injEq] at h
          have h1 := length_of_matchLit hm
          have h2 := length_dropWhile_le' isSpaceCh s1
          have h3 := length_of_matchLit hm2
          have h4 := length_dropWhile_le' isSpaceCh s2
          have h5 := length_dropWhile_le' isHexCh (s2.dropWhile isSpaceCh)
          have h6 : 0 < (lit "# [" ++ sel ++ lit "]").length := by simp [lit]
          have h7 : 0 < (lit "sha256:").length := by simp [lit]
          rw [h.2] at h5
          omega
    · exact absurd h (by simp)

theorem consumes_tryUrlCCtar (new : List Char) : Consumes (tryUrlCCtar new) := by
  intro s r rem h
  simp only [tryUrlCCtar] at h
  split at h
  · exact absurd h (by simp)
  · rename_i s1 hm
    split at h
    · exact absurd h (by simp)
    · split at h
      · exact absurd h (by simp)
      · rename_i s2 hm2
        split at h
        · exact absurd h (by simp)
        · split at h
          · rename_i c4 s4 hm3
            split at h
            · exact absurd h (by simp)
            · split at h
              · rename_i rest hm4
                simp only [Option.some.injEq, Prod.mk.injEq] at h
                have h1 := length_of_matchLit hm
                have h2 := length_dropWhile_le' (fun c => c != '/') s1
                have h3 := length_of_matchLit hm2
                have h4 := length_dropWhile_le' (fun c => c != '/') s2
                rw [hm3] at h4
                have h5 := length_dropWhile_le' (fun c => c != '/') s4
                have h6 := length_of_matchLit hm4
                have h7 : 0 < (lit "/claude-code.tar.gz").length := by simp [lit]
                have h8 : 0 < ccUrlBase.length := by simp [ccUrlBase, lit]
                rw [h.2] at h6
                simp only [List.length_cons] at h4
                omega
              · exact absurd h (by simp)
          · exact absurd h (by simp)

theorem consumes_tryUrlP (cur new : List Char) : Consumes (tryUrlP cur new) := by
  intro s r rem h
  simp only [tryUrlP] at h
  split at h
  · exact absurd h (by simp)
  · rename_i t1 s1 hm
    split at h
    · exact absurd h (by simp)
    · rename_i s2 hm2
      split at h
      · simp only [Option.some.injEq, Prod.mk.injEq] at h
        have h1 := length_of_matchPatC hm
        have h2 := length_of_matchLit hm2
        have h3 : 0 < devpodUrlPrefix.length := by simp [devpodUrlPrefix, lit]
        rw [h.2] at h2
        simp only [List.length_cons] at h2
        omega
      · exact absurd h (by simp)

theorem consumes_tryUrlD (cur new : List Char) (k : Backref1Kind) :
    Consumes (tryUrlD cur new k) := by
  intro s r rem h
  simp only [tryUrlD] at h
  split at h
  · exact absurd h (by simp)
  · rename_i t1 s1 hm
    split at h
    · exact absurd h (by simp)
    · rename_i t2 s2 hm2
      split at h
      · split at h
        · simp only [Option.some.injEq, Prod.mk.injEq] at h
          have h1 := length_of_matchPatC hm
          have h2 := length_of_matchPatC hm2
          have h3 : 0 < devpodUrlPrefix.length := by simp [devpodUrlPrefix, lit]
          rw [h.2] at h2
          simp only [List.length_cons] at h2
          omega
        · simp only [Option.some.injEq, Prod.mk.injEq] at h
          have h1 := length_of_matchPatC hm
          have h2 := length_of_matchPatC hm2
          have h3 : 0 < devpodUrlPrefix.length := by simp [devpodUrlPrefix, lit]
          rw [h.2] at h2
          simp only [List.length_cons] at h2
          omega
        · exact absurd h (by simp)
      · exact absurd h (by simp)

/-! ## Walking a template document

A characterisation of one substitution over a template document is proved
by walking the document left to right: concrete segments are skipped
(`SegSkip`, every position refuted definitionally), spliced field values
are skipped by the alphabet argument (`..._splice_at`), and the match
sites are evaluated by the site lemmas further below. -/

/-- Every position inside the concrete segment `a` refutes the matcher,
whatever follows. -/
def SegSkip {α : Type} (try? : List Char → Option α) (a : List Char) : Prop :=
  ∀ i, i < a.length → ∀ b, try? (a.drop i ++ b) = none

theorem segSkip_nil {α : Type} (try? : List Char → Option α) :
    SegSkip try? [] := by
  intro i hi
  simp at hi

theorem segSkip_cons {α : Type} {try? : List Char → Option α} {c : Char}
    {a : List Char} (h0 : ∀ b, try? (c :: (a ++ b)) = none)
    (h1 : SegSkip try? a) : SegSkip try? (c :: a) := by
  intro i hi b
  cases i with
  | zero => simpa using h0 b
  | succ n =>
    have := h1 n (by simpa using hi) b
    simpa using this

theorem subAll_segskip {try? : List Char → Option (List Char × List Char)}
    {a : List Char} (h : SegSkip try? a) (b : List Char) :
    subAll try? (a ++ b) = a ++ subAll try? b :=
  subAll_append_skip (fun i hi => h i hi b)

theorem subAll_segskip_total {try? : List Char → Option (List Char × List Char)}
    {a : List Char} (h : SegSkip try? a) : subAll try? a = a := by
  have h2 := subAll_segskip h []
  rw [subAll_nil] at h2
  simpa using h2

/-- `subAll_segskip` with the segment's first character exposed as a cons,
matching the shapes that arise after a splice step. -/
theorem subAll_segskip_cons {try? : List Char → Option (List Char × List Char)}
    {c : Char} {a : List Char} (h : SegSkip try? (c :: a)) (b : List Char) :
    subAll try? (c :: (a ++ b)) = c :: (a ++ subAll try? b) := by
  have h2 := subAll_segskip h b
  simpa using h2

theorem subAll_segskip_cons_total {try? : List Char → Option (List Char × List Char)}
    {c : Char} {a : List Char} (h : SegSkip try? (c :: a)) :
    subAll try? (c :: a) = c :: a := subAll_segskip_total h

theorem subFirst_segskip {try? : List Char → Option (List Char × List Char)}
    {a : List Char} (h : SegSkip try? a) (b : List Char) :
    subFirst try? (a ++ b) = a ++ subFirst try? b :=
  subFirst_append_skip (fun i hi => h i hi b)

theorem subFirst_segskip_cons {try? : List Char → Option (List Char × List Char)}
    {c : Char} {a : List Char} (h : SegSkip try? (c :: a)) (b : List Char) :
    subFirst try? (c :: (a ++ b)) = c :: (a ++ subFirst try? b) := by
  have h2 := subFirst_segskip h b
  simpa using h2

theorem subFirst_segskip_total {try? : List Char → Option (List Char × List Char)}
    {a : List Char} (h : SegSkip try? a) : subFirst try? a = a := by
  have h2 : ∀ (s : List Char), SegSkip try? s → subFirst try? s = s := by
    intro s
    induction s with
    | nil => intro _; rfl
    | cons c cs ih =>
      intro hs
      have h0 : try? (c :: cs) = none := by
        have := hs 0 (by simp) []
        simpa using this
      rw [subFirst_cons_none h0, ih]
      intro i hi b
      have := hs (i + 1) (by simpa using Nat.succ_lt_succ hi) b
      simpa using this
  exact h2 a h

theorem searchF_segskip {α : Type} {try? : List Char → Option α}
    {a : List Char} (h : SegSkip try? a) (b : List Char) :
    searchF try? (a ++ b) = searchF try? b :=
  searchF_append_skip (fun i hi => h i hi b)

theorem searchF_segskip_cons {α : Type} {try? : List Char → Option α}
    {c : Char} {a : List Char} (h : SegSkip try? (c :: a)) (b : List Char) :
    searchF try? (c :: (a ++ b)) = searchF try? b := by
  have h2 := searchF_segskip h b
  simpa using h2

/-- Splice skip for `subAll`, with the boundary character exposed as the
head of the tail. -/
theorem subAll_splice_cons {try? : List Char → Option (List Char × List Char)}
    {lt : List Char} (hstart : ∀ s, matchLit lt s = none → try? s = none)
    (A : Char → Bool) (j : Nat) (hj : j < lt.length) (hjA : A lt[j] = false)
    (q : Char) (hq : q ∉ lt.take (j + 1)) {v tl : List Char}
    (hv : ∀ c ∈ v, A c = true) :
    subAll try? (v ++ (q :: tl)) = v ++ subAll try? (q :: tl) :=
  subAll_splice_skip (splice_hnone_of_lit hstart A j hj hjA q hq tl) hv

theorem subFirst_splice_cons {try? : List Char → Option (List Char × List Char)}
    {lt : List Char} (hstart : ∀ s, matchLit lt s = none → try? s = none)
    (A : Char → Bool) (j : Nat) (hj : j < lt.length) (hjA : A lt[j] = false)
    (q : Char) (hq : q ∉ lt.take (j + 1)) {v tl : List Char}
    (hv : ∀ c ∈ v, A c = true) :
    subFirst try? (v ++ (q :: tl)) = v ++ subFirst try? (q :: tl) :=
  subFirst_splice_skip (splice_hnone_of_lit hstart A j hj hjA q hq tl) hv

theorem searchF_splice_cons {α : Type} {try? : List Char → Option α}
    {lt : List Char} (hstart : ∀ s, matchLit lt s = none → try? s = none)
    (A : Char → Bool) (j : Nat) (hj : j < lt.length) (hjA : A lt[j] = false)
    (q : Char) (hq : q ∉ lt.take (j + 1)) {v tl : List Char}
    (hv : ∀ c ∈ v, A c = true) :
    searchF try? (v ++ (q :: tl)) = searchF try? (q :: tl) :=
  searchF_splice_skip (splice_hnoneS_of_lit hstart A j hj hjA q hq tl) hv

/-! ## Skip lemmas for the inner lazy scan `findVerAfter` -/

theorem findVerAfter_cons_none {c : Char} {s : List Char}
    (h : tryVerAfter (c :: s) = none) :
    findVerAfter (c :: s) =
      (findVerAfter s).map (fun t => (c :: t.1, t.2)) := by
  simp only [findVerAfter, h]
  cases findVerAfter s with
  | none => rfl
  | some t => rfl

theorem findVerAfter_found {s : List Char}
    {ws content rem : List Char} (hs : s ≠ [])
    (h : tryVerAfter s = some (ws, content, rem)) :
    findVerAfter s = some ([], ws, content, rem) := by
  cases s with
  | nil => exact absurd rfl hs
  | cons c cs => simp [findVerAfter, h]

theorem findVerAfter_segskip {a : List Char} (h : SegSkip tryVerAfter a)
    (b : List Char) :
    findVerAfter (a ++ b) =
      (findVerAfter b).map (fun t => (a ++ t.1, t.2)) := by
  induction a with
  | nil =>
    cases hb : findVerAfter b with
    | none => simp [hb]
    | some t => simp [hb]
  | cons c a ih =>
    have h0 : tryVerAfter (c :: (a ++ b)) = none := by
      have := h 0 (by simp) b
      simpa using this
    have hint : SegSkip tryVerAfter a := by
      intro i hi b'
      have := h (i + 1) (by simpa using Nat.succ_lt_succ hi) b'
      simpa using this
    rw [List.cons_append, findVerAfter_cons_none h0, ih hint]
    cases findVerAfter b with
    | none => rfl
    | some t => rfl

/-! ## Character class side conditions for the field alphabets -/

theorem bne_of_verCh {q : Char} (hq : isVerCh q = false) :
    ∀ c : Char, isVerCh c = true → (c != q) = true := by
  intro c hc
  have : c ≠ q := by
    intro h
    rw [h, hq] at hc
    exact Bool.noConfusion hc
  simpa using this

theorem not_space_of_verCh {c : Char} (hc : isVerCh c = true) :
    isSpaceCh c = false := by
  have h1 : isVerCh ' ' = false := by decide
  have h2 : isVerCh '\t' = false := by decide
  have h3 : isVerCh '\n' = false := by decide
  have h4 : isVerCh '\r' = false := by decide
  have h5 : isVerCh '\x0c' = false := by decide
  have h6 : isVerCh '\x0b' = false := by decide
  simp only [isSpaceCh, Bool.or_eq_false_iff, decide_eq_false_iff_not]
  refine ⟨⟨⟨⟨⟨?_, ?_⟩, ?_⟩, ?_⟩, ?_⟩, ?_⟩ <;>
    (intro h; subst h) <;> simp_all

/-! ## Well-formed field values -/

/-- A well-formed version string: non-empty, over the version alphabet. -/
def VerStr (v : List Char) : Prop := v ≠ [] ∧ ∀ c ∈ v, isVerCh c = true

/-- A well-formed SHA-256 digest: 64 lower-case hex characters. -/
def Hex64 (c : List Char) : Prop := c.length = 64 ∧ ∀ ch ∈ c, isHexCh ch = true

/-- A well-formed build number rendering: a non-empty digit string. -/
def DigStr (d : List Char) : Prop := d ≠ [] ∧ ∀ c ∈ d, isDigitCh c = true

/-- Free-form text over the comment alphabet. -/
def JunkStr (j : List Char) : Prop := ∀ c ∈ j, isJunkCh c = true

/-- The PyPI release-number alphabet used by the iterfzf versions
(digits and dots, as in `1.4.0.54.3`). -/
def isPyCh (c : Char) : Bool := c.isDigit || c = '.'

/-- A well-formed iterfzf version: non-empty, over digits and dots. -/
def PyStr (v : List Char) : Prop := v ≠ [] ∧ ∀ c ∈ v, isPyCh c = true

theorem verCh_of_pyCh {c : Char} (h : isPyCh c = true) : isVerCh c = true := by
  simp only [isPyCh, Bool.or_eq_true, decide_eq_true_eq] at h
  rcases h with h | h
  · exact verCh_of_digit (by simpa [isDigitCh] using h)
  · subst h
    decide

instance (v : List Char) : Decidable (VerStr v) := by
  unfold VerStr
  infer_instance

instance (c : List Char) : Decidable (Hex64 c) := by
  unfold Hex64
  infer_instance

instance (d : List Char) : Decidable (DigStr d) := by
  unfold DigStr
  infer_instance

instance (j : List Char) : Decidable (JunkStr j) := by
  unfold JunkStr
  infer_instance

instance (v : List Char) : Decidable (PyStr v) := by
  unfold PyStr
  infer_instance

theorem verStr_of_hex64 {c : List Char} (h : Hex64 c) :
    ∀ ch ∈ c, isVerCh ch = true :=
  fun ch hm => verCh_of_hexCh (h.2 ch hm)

theorem verStr_of_digStr {d : List Char} (h : DigStr d) :
    ∀ c ∈ d, isVerCh c = true :=
  fun c hm => verCh_of_digit (h.2 c hm)

theorem junk_of_ver {v : List Char} (h : ∀ c ∈ v, isVerCh c = true) :
    ∀ c ∈ v, isJunkCh c = true :=
  fun c hm => junkCh_of_verCh (h c hm)

theorem not_space_of_hexCh {c : Char} (hc : isHexCh c = true) :
    isSpaceCh c = false :=
  not_space_of_verCh (verCh_of_hexCh hc)

theorem not_hex_of_space {c : Char} (hc : isSpaceCh c = true) :
    isHexCh c = false := by
  cases hh : isHexCh c with
  | false => rfl
  | true =>
    rw [not_space_of_hexCh hh] at hc
    exact Bool.noConfusion hc

/-! ## The devpod / devpod-prerelease recipe family

`renderD v u c1 c2 ds j` is the recipe document for the two devpod
packages: package version field `v`, URL version segment `u` in both
`osx` source blocks, per-block checksums `c1` (`osx and x86_64`) and
`c2` (`osx and arm64`), build number `ds`, and a trailing free-form
comment `j`. -/

def renderD (v u c1 c2 ds j : List Char) : List Char :=
  lit "package:" ++ (lit "\n  name: devpod\n  " ++ (lit "version: \"" ++ (v ++
  ('"' :: (lit "\n\nsource:\n  - if: osx and x86_64\n    then:\n      url: " ++
  (devpodUrlPrefix ++ (u ++
  ('/' :: (lit "devpod-darwin-amd64\n      " ++ (lit "sha256: " ++ (c1 ++
  (' ' :: (lit " # [" ++ (lit "osx and x86_64" ++
  (']' :: (lit "\n  - if: osx and arm64\n    then:\n      url: " ++
  (devpodUrlPrefix ++ (u ++
  ('/' :: (lit "devpod-darwin-arm64\n      " ++ (lit "sha256: " ++ (c2 ++
  (' ' :: (lit " # [" ++ (lit "osx and arm64" ++
  (']' :: (lit "\n\nbuild:\n  " ++ (lit "number: " ++ (ds ++
  ('\n' :: (lit "\nabout:\n  summary: " ++ (j ++
  ['\n']))))))))))))))))))))))))))))))))

/-! ## Site lemmas: each pattern evaluated at its match site -/

theorem matchLit_append_same (x y z : List Char) :
    matchLit (x ++ y) (x ++ z) = matchLit y z := by
  induction x with
  | nil => simp
  | cons c cs ih => simp [matchLit, ih]

theorem takeWhile_stop {p : Char → Bool} {x : List Char} (y : List Char)
    (hne : x ≠ []) (hx : ∀ ch ∈ x, p ch = false) :
    (x ++ y).takeWhile p = [] := by
  cases x with
  | nil => exact absurd rfl hne
  | cons c cs =>
    rw [List.cons_append,
      List.takeWhile_cons_of_neg (by simp [hx c (List.mem_cons_self c cs)])]

theorem dropWhile_stop {p : Char → Bool} {x : List Char} (y : List Char)
    (hne : x ≠ []) (hx : ∀ ch ∈ x, p ch = false) :
    (x ++ y).dropWhile p = x ++ y := by
  cases x with
  | nil => exact absurd rfl hne
  | cons c cs =>
    rw [List.cons_append,
      List.dropWhile_cons_of_neg (by simp [hx c (List.mem_cons_self c cs)])]

/-- `re.search(r'version: "([^\"]+)"', ...)` at the version field. -/
theorem tryVerG_site {v : List Char} (hne : v ≠ [])
    (hv : ∀ c ∈ v, isVerCh c = true) {b : List Char} (tl : List Char)
    (hb : b = '"' :: tl) :
    tryVerG (lit "version: \"" ++ (v ++ b)) = some v := by
  subst hb
  have h1 : (v ++ '"' :: tl).takeWhile (fun c => c != '"') = v :=
    takeWhile_splice (fun c hc => bne_of_verCh (by decide) c (hv c hc)) (by simp)
  have h2 : (v ++ '"' :: tl).dropWhile (fun c => c != '"') = '"' :: tl :=
    dropWhile_splice (fun c hc => bne_of_verCh (by decide) c (hv c hc)) (by simp)
  simp only [tryVerG, matchLit_self_append, h1, h2, if_neg hne]

/-- The `version: "[^\"]+"` substitution at the version field. -/
theorem tryVerQ_site {w v : List Char} (hne : v ≠ [])
    (hv : ∀ c ∈ v, isVerCh c = true) {b : List Char} (tl : List Char)
    (hb : b = '"' :: tl) :
    tryVerQ w (lit "version: \"" ++ (v ++ b)) =
      some (lit "version: \"" ++ (w ++ ['"']), tl) := by
  subst hb
  have h1 : (v ++ '"' :: tl).takeWhile (fun c => c != '"') = v :=
    takeWhile_splice (fun c hc => bne_of_verCh (by decide) c (hv c hc)) (by simp)
  have h2 : (v ++ '"' :: tl).dropWhile (fun c => c != '"') = '"' :: tl :=
    dropWhile_splice (fun c hc => bne_of_verCh (by decide) c (hv c hc)) (by simp)
  simp only [tryVerQ, matchLit_self_append, h1, h2, if_neg hne]
  rfl

/-- The inner `version:\s*"[^\"]+"` of the package-scoped pattern at the
version field. -/
theorem tryVerAfter_site {v : List Char} (hne : v ≠ [])
    (hv : ∀ c ∈ v, isVerCh c = true) {b : List Char} (tl : List Char)
    (hb : b = '"' :: tl) :
    tryVerAfter (lit "version: \"" ++ (v ++ b)) = some ([' '], v, tl) := by
  subst hb
  have hsplit : lit "version: \"" ++ (v ++ '"' :: tl) =
      lit "version:" ++ (' ' :: '"' :: (v ++ '"' :: tl)) := rfl
  rw [hsplit]
  have h1 : (v ++ '"' :: tl).takeWhile (fun c => c != '"') = v :=
    takeWhile_splice (fun c hc => bne_of_verCh (by decide) c (hv c hc)) (by simp)
  have h2 : (v ++ '"' :: tl).dropWhile (fun c => c != '"') = '"' :: tl :=
    dropWhile_splice (fun c hc => bne_of_verCh (by decide) c (hv c hc)) (by simp)
  simp only [tryVerAfter, matchLit_self_append]
  have h3 : List.takeWhile isSpaceCh (' ' :: '"' :: (v ++ '"' :: tl)) = [' '] := by
    rw [List.takeWhile_cons_of_pos (by decide),
      List.takeWhile_cons_of_neg (by decide)]
  have h4 : List.dropWhile isSpaceCh (' ' :: '"' :: (v ++ '"' :: tl)) =
      '"' :: (v ++ '"' :: tl) := by
    rw [List.dropWhile_cons_of_pos (by decide),
      List.dropWhile_cons_of_neg (by decide)]
  rw [h3, h4]
  simp only [h1, h2, if_neg hne]

/-- The package-scoped version substitution at the head of the devpod
family documents. -/
theorem tryPkgVer_site {w v : List Char} (hne : v ≠ [])
    (hv : ∀ c ∈ v, isVerCh c = true) {b : List Char} (tl : List Char)
    (hb : b = '"' :: tl) :
    tryPkgVer w (lit "package:" ++
        (lit "\n  name: devpod\n  " ++ (lit "version: \"" ++ (v ++ b)))) =
      some (lit "package:\n  name: devpod\n  version: \"" ++ (w ++ ['"']), tl) := by
  subst hb
  simp only [tryPkgVer, matchLit_self_append]
  have hseg : SegSkip tryVerAfter (lit "\n  name: devpod\n  ") := by
    repeat first
    | exact segSkip_nil _
    | refine segSkip_cons (fun b => rfl) ?_
  rw [findVerAfter_segskip hseg,
    findVerAfter_found (by exact List.cons_ne_nil _ _)
      (tryVerAfter_site hne hv tl rfl)]
  rfl

/-- The devpod-prerelease URL substitution at a URL site whose version
segment equals the interpolated (escaped) current version. -/
theorem tryUrlP_site {u w : List Char} {b : List Char} (tl : List Char)
    (hb : b = '/' :: tl) :
    tryUrlP u w (devpodUrlPrefix ++ (u ++ b)) =
      some (devpodUrlPrefix ++ (w ++ ['/']), tl) := by
  subst hb
  rw [show devpodUrlPrefix ++ (u ++ '/' :: tl) =
    devpodUrlPrefix ++ ((u ++ '/' :: tl) : List Char) from rfl]
  simp only [tryUrlP,
    matchPatC_self (by decide : ('\n' : Char) ∉ devpodUrlPrefix) (u ++ '/' :: tl),
    matchLit_self_append]
  rfl

/-- The selector-scoped checksum substitution at the checksum line whose
trailing comment carries the *same* selector. -/
theorem tryShaSel_site {sel c cNew : List Char}
    (hhex : ∀ ch ∈ c, isHexCh ch = true) (hlen : c.length = 64) (hne : c ≠ [])
    {b : List Char} (tl : List Char)
    (hb : b = ' ' :: (lit " # [" ++ (sel ++ (']' :: tl)))) :
    tryShaSel sel cNew (lit "sha256: " ++ (c ++ b)) =
      some (lit "sha256: " ++ (cNew ++ (' ' :: (lit " # [" ++ (sel ++ [']'])))),
        tl) := by
  subst hb
  have hsplit : lit "sha256: " ++ (c ++ (' ' :: (lit " # [" ++ (sel ++ (']' :: tl))))) =
      lit "sha256:" ++ (' ' :: (c ++ (' ' :: (lit " # [" ++ (sel ++ (']' :: tl)))))) :=
    rfl
  rw [hsplit]
  simp only [tryShaSel, matchLit_self_append]
  have hnospace : ∀ ch ∈ c, isSpaceCh ch = false :=
    fun ch hm => not_space_of_hexCh (hhex ch hm)
  have h1 : List.takeWhile isSpaceCh
      (' ' :: (c ++ (' ' :: (lit " # [" ++ (sel ++ (']' :: tl)))))) = [' '] := by
    rw [List.takeWhile_cons_of_pos (by decide),
      takeWhile_stop _ hne hnospace]
  have h2 : List.dropWhile isSpaceCh
      (' ' :: (c ++ (' ' :: (lit " # [" ++ (sel ++ (']' :: tl)))))) =
      c ++ (' ' :: (lit " # [" ++ (sel ++ (']' :: tl)))) := by
    rw [List.dropWhile_cons_of_pos (by decide),
      dropWhile_stop _ hne hnospace]
  rw [h1, h2]
  have h3 : List.takeWhile isHexCh
      (c ++ (' ' :: (lit " # [" ++ (sel ++ (']' :: tl))))) = c :=
    takeWhile_splice hhex (by decide)
  have h4 : List.dropWhile isHexCh
      (c ++ (' ' :: (lit " # [" ++ (sel ++ (']' :: tl))))) =
      ' ' :: (lit " # [" ++ (sel ++ (']' :: tl))) :=
    dropWhile_splice hhex (by decide)
  rw [h3, h4, if_pos hlen]
  have h5 : List.takeWhile isSpaceCh
      (' ' :: (lit " # [" ++ (sel ++ (']' :: tl)))) = [' ', ' '] := rfl
  have h6 : List.dropWhile isSpaceCh
      (' ' :: (lit " # [" ++ (sel ++ (']' :: tl)))) =
      '#' :: (' ' :: ('[' :: (sel ++ (']' :: tl)))) := rfl
  have h7 : List.takeWhile isSpaceCh (' ' :: ('[' :: (sel ++ (']' :: tl)))) =
      [' '] := rfl
  have h8 : List.dropWhile isSpaceCh (' ' :: ('[' :: (sel ++ (']' :: tl)))) =
      '[' :: (sel ++ (']' :: tl)) := rfl
  have h9 : matchLit (lit "[" ++ sel ++ lit "]") ('[' :: (sel ++ (']' :: tl))) =
      some tl := by
    rw [show ('[' :: (sel ++ (']' :: tl)) : List Char) =
      lit "[" ++ (sel ++ (']' :: tl)) from rfl]
    rw [show lit "[" ++ sel ++ lit "]" = lit "[" ++ (sel ++ lit "]") from rfl]
    rw [matchLit_append_same (lit "[") (sel ++ lit "]") (sel ++ (']' :: tl)),
      matchLit_append_same sel (lit "]") (']' :: tl)]
    rfl
  simp only [h5, h6, h7, h8, h9]
  simp only [List.append_assoc, List.cons_append]
  rfl

/-- The selector-scoped checksum substitution refuses a checksum line
whose trailing comment carries a *different* selector. -/
theorem tryShaSel_wrongsite {sel sel' c cNew : List Char}
    (hhex : ∀ ch ∈ c, isHexCh ch = true) (hlen : c.length = 64) (hne : c ≠ [])
    {b : List Char} (tl : List Char)
    (hb : b = ' ' :: (lit " # [" ++ (sel' ++ (']' :: tl))))
    (hw : matchLit (lit "[" ++ sel ++ lit "]")
      ('[' :: (sel' ++ (']' :: tl))) = none) :
    tryShaSel sel cNew (lit "sha256: " ++ (c ++ b)) = none := by
  subst hb
  have hsplit : lit "sha256: " ++ (c ++ (' ' :: (lit " # [" ++ (sel' ++ (']' :: tl))))) =
      lit "sha256:" ++ (' ' :: (c ++ (' ' :: (lit " # [" ++ (sel' ++ (']' :: tl)))))) :=
    rfl
  rw [hsplit]
  simp only [tryShaSel, matchLit_self_append]
  have hnospace : ∀ ch ∈ c, isSpaceCh ch = false :=
    fun ch hm => not_space_of_hexCh (hhex ch hm)
  have h1 : List.takeWhile isSpaceCh
      (' ' :: (c ++ (' ' :: (lit " # [" ++ (sel' ++ (']' :: tl)))))) = [' '] := by
    rw [List.takeWhile_cons_of_pos (by decide),
      takeWhile_stop _ hne hnospace]
  have h2 : List.dropWhile isSpaceCh
      (' ' :: (c ++ (' ' :: (lit " # [" ++ (sel' ++ (']' :: tl)))))) =
      c ++ (' ' :: (lit " # [" ++ (sel' ++ (']' :: tl)))) := by
    rw [List.dropWhile_cons_of_pos (by decide),
      dropWhile_stop _ hne hnospace]
  rw [h1, h2]
  have h3 : List.takeWhile isHexCh
      (c ++ (' ' :: (lit " # [" ++ (sel' ++ (']' :: tl))))) = c :=
    takeWhile_splice hhex (by decide)
  have h4 : List.dropWhile isHexCh
      (c ++ (' ' :: (lit " # [" ++ (sel' ++ (']' :: tl))))) =
      ' ' :: (lit " # [" ++ (sel' ++ (']' :: tl))) :=
    dropWhile_splice hhex (by decide)
  rw [h3, h4, if_pos hlen]
  have h6 : List.dropWhile isSpaceCh
      (' ' :: (lit " # [" ++ (sel' ++ (']' :: tl)))) =
      '#' :: (' ' :: ('[' :: (sel' ++ (']' :: tl)))) := rfl
  have h8 : List.dropWhile isSpaceCh (' ' :: ('[' :: (sel' ++ (']' :: tl)))) =
      '[' :: (sel' ++ (']' :: tl)) := rfl
  simp only [h6, h8, hw]

/-- The `number: \d+` substitution at the build-number field. -/
theorem tryNumber_site {ds : List Char} (hne : ds ≠ [])
    (hds : ∀ c ∈ ds, isDigitCh c = true) {b : List Char} (tl : List Char)
    (hb : b = '\n' :: tl) :
    tryNumber (lit "number: " ++ (ds ++ b)) =
      some (lit "number: 0", '\n' :: tl) := by
  subst hb
  have h1 : (ds ++ '\n' :: tl).takeWhile isDigitCh = ds :=
    takeWhile_splice hds (by decide)
  have h2 : (ds ++ '\n' :: tl).dropWhile isDigitCh = '\n' :: tl :=
    dropWhile_splice hds (by decide)
  simp only [tryNumber, matchLit_self_append, h1, h2, if_neg hne]

theorem matchLit_append_none {a s : List Char} (b : List Char)
    (h : matchLit a s = none) : matchLit (a ++ b) s = none := by
  cases hm : matchLit (a ++ b) s with
  | none => rfl
  | some r =>
    have hs := matchLit_eq_some_iff.mp hm
    have : matchLit a s = some (b ++ r) := by
      rw [matchLit_eq_some_iff, hs, List.append_assoc]
    rw [h] at this
    exact Option.noConfusion this

/-- Literal-head failure premises packaged for the splice lemmas. -/
theorem tryNumber_hstart :
    ∀ s, matchLit (lit "number: ") s = none → tryNumber s = none :=
  fun _ h => tryNumber_none h

theorem tryVerG_hstart :
    ∀ s, matchLit (lit "version: \"") s = none → tryVerG s = none :=
  fun _ h => tryVerG_none h

theorem tryVerQ_hstart (v : List Char) :
    ∀ s, matchLit (lit "version: \"") s = none → tryVerQ v s = none :=
  fun _ h => tryVerQ_none h

theorem tryPkgVer_hstart (v : List Char) :
    ∀ s, matchLit (lit "package:") s = none → tryPkgVer v s = none :=
  fun _ h => tryPkgVer_none h

theorem tryShaSel_hstart (sel c : List Char) :
    ∀ s, matchLit (lit "sha256:") s = none → tryShaSel sel c s = none :=
  fun _ h => tryShaSel_none h

theorem tryUrlP_hstart (cur new : List Char) :
    ∀ s, matchLit (lit "https:") s = none → tryUrlP cur new s = none :=
  fun _ h => tryUrlP_none h

theorem tryUrlD_hstart (cur new : List Char) (k : Backref1Kind) :
    ∀ s, matchLit (lit "https:") s = none → tryUrlD cur new k s = none :=
  fun _ h => tryUrlD_none h

theorem tryShaCC_hstart (sel c : List Char) :
    ∀ s, matchLit (lit "# [") s = none → tryShaCC sel c s = none := by
  intro s h
  apply tryShaCC_none
  rw [show lit "# [" ++ sel ++ lit "]" = lit "# [" ++ (sel ++ lit "]") from
    List.append_assoc _ _ _]
  exact matchLit_append_none _ h

theorem tryUrlCCtar_hstart (new : List Char) :
    ∀ s, matchLit (lit "https:") s = none → tryUrlCCtar new s = none := by
  intro s h
  apply tryUrlCCtar_none
  rw [show ccUrlBase =
    lit "https:" ++ lit "//storage.googleapis.com/claude-code-dist-" from rfl]
  exact matchLit_append_none _ h

/-! ## Characterisation of each substitution over the devpod family -/

/-- `re.search(r'version: "([^\"]+)"')` finds the package version field. -/
theorem renderD_search {v : List Char} (u c1 c2 ds j : List Char)
    (hne : v ≠ []) (hv : ∀ c ∈ v, isVerCh c = true) :
    searchF tryVerG (renderD v u c1 c2 ds j) = some v := by
  unfold renderD
  have hs1 : SegSkip tryVerG (lit "package:") := by
    repeat first
    | exact segSkip_nil _
    | refine segSkip_cons (fun b => rfl) ?_
  have hs2 : SegSkip tryVerG (lit "\n  name: devpod\n  ") := by
    repeat first
    | exact segSkip_nil _
    | refine segSkip_cons (fun b => rfl) ?_
  rw [searchF_segskip hs1, searchF_segskip hs2]
  exact searchF_found (by exact List.cons_ne_nil _ _) (tryVerG_site hne hv _ rfl)

/-- The package-scoped version substitution rewrites exactly the version
field of the devpod family. -/
theorem renderD_pkgver (w : List Char) {v : List Char} (u c1 c2 ds j : List Char)
    (hne : v ≠ []) (hv : ∀ c ∈ v, isVerCh c = true) :
    subFirst (tryPkgVer w) (renderD v u c1 c2 ds j) =
      renderD w u c1 c2 ds j := by
  unfold renderD
  rw [subFirst_found (by exact List.cons_ne_nil _ _) (tryPkgVer_site hne hv _ rfl)]
  simp only [List.append_assoc, List.cons_append, List.singleton_append]
  rfl

/-- The devpod-prerelease URL substitution rewrites the version segment of
both platform URLs and nothing else. -/
theorem renderD_urlP {u : List Char} (u' : List Char) {v c1 c2 ds j : List Char}
    (hv : ∀ c ∈ v, isVerCh c = true)
    (hc1 : ∀ c ∈ c1, isHexCh c = true) (hc2 : ∀ c ∈ c2, isHexCh c = true)
    (hds : ∀ c ∈ ds, isDigitCh c = true) (hj : ∀ c ∈ j, isJunkCh c = true) :
    subAll (tryUrlP u u') (renderD v u c1 c2 ds j) =
      renderD v u' c1 c2 ds j := by
  have hcon := consumes_tryUrlP u u'
  have hs1 : SegSkip (tryUrlP u u') (lit "package:") := by
    repeat first
    | exact segSkip_nil _
    | refine segSkip_cons (fun b => rfl) ?_
  have hs2 : SegSkip (tryUrlP u u') (lit "\n  name: devpod\n  ") := by
    repeat first
    | exact segSkip_nil _
    | refine segSkip_cons (fun b => rfl) ?_
  have hs3 : SegSkip (tryUrlP u u') (lit "version: \"") := by
    repeat first
    | exact segSkip_nil _
    | refine segSkip_cons (fun b => rfl) ?_
  have hs4 : SegSkip (tryUrlP u u')
      ('"' :: lit "\n\nsource:\n  - if: osx and x86_64\n    then:\n      url: ") := by
    repeat first
    | exact segSkip_nil _
    | refine segSkip_cons (fun b => rfl) ?_
  have hs5 : SegSkip (tryUrlP u u') (lit "devpod-darwin-amd64\n      ") := by
    repeat first
    | exact segSkip_nil _
    | refine segSkip_cons (fun b => rfl) ?_
  have hs6 : SegSkip (tryUrlP u u') (lit "sha256: ") := by
    repeat first
    | exact segSkip_nil _
    | refine segSkip_cons (fun b => rfl) ?_
  have hs7 : SegSkip (tryUrlP u u') (' ' :: lit " # [") := by
    repeat first
    | exact segSkip_nil _
    | refine segSkip_cons (fun b => rfl) ?_
  have hs8 : SegSkip (tryUrlP u u') (lit "osx and x86_64") := by
    repeat first
    | exact segSkip_nil _
    | refine segSkip_cons (fun b => rfl) ?_
  have hs9 : SegSkip (tryUrlP u u')
      (']' :: lit "\n  - if: osx and arm64\n    then:\n      url: ") := by
    repeat first
    | exact segSkip_nil _
    | refine segSkip_cons (fun b => rfl) ?_
  have hs10 : SegSkip (tryUrlP u u') (lit "devpod-darwin-arm64\n      ") := by
    repeat first
    | exact segSkip_nil _
    | refine segSkip_cons (fun b => rfl) ?_
  have hs11 : SegSkip (tryUrlP u u') (lit "osx and arm64") := by
    repeat first
    | exact segSkip_nil _
    | refine segSkip_cons (fun b => rfl) ?_
  have hs12 : SegSkip (tryUrlP u u') (']' :: lit "\n\nbuild:\n  ") := by
    repeat first
    | exact segSkip_nil _
    | refine segSkip_cons (fun b => rfl) ?_
  have hs13 : SegSkip (tryUrlP u u') (lit "number: ") := by
    repeat first
    | exact segSkip_nil _
    | refine segSkip_cons (fun b => rfl) ?_
  have hs14 : SegSkip (tryUrlP u u') ('\n' :: lit "\nabout:\n  summary: ") := by
    repeat first
    | exact segSkip_nil _
    | refine segSkip_cons (fun b => rfl) ?_
  have hs15 : SegSkip (tryUrlP u u') ['\n'] := by
    repeat first
    | exact segSkip_nil _
    | refine segSkip_cons (fun b => rfl) ?_
  have hver : ∀ c ∈ c1, isVerCh c = true := fun c hc => verCh_of_hexCh (hc1 c hc)
  have hver2 : ∀ c ∈ c2, isVerCh c = true := fun c hc => verCh_of_hexCh (hc2 c hc)
  have hdsv : ∀ c ∈ ds, isVerCh c = true := fun c hc => verCh_of_digit (hds c hc)
  unfold renderD
  rw [subAll_segskip hs1, subAll_segskip hs2, subAll_segskip hs3]
  rw [subAll_splice_cons (tryUrlP_hstart u u') isVerCh 5 (by decide) (by decide)
    '"' (by decide) hv]
  rw [subAll_segskip_cons hs4]
  rw [subAll_match hcon (tryUrlP_site _ rfl)]
  rw [subAll_segskip hs5, subAll_segskip hs6]
  rw [subAll_splice_cons (tryUrlP_hstart u u') isVerCh 5 (by decide) (by decide)
    ' ' (by decide) hver]
  rw [subAll_segskip_cons hs7, subAll_segskip hs8]
  rw [subAll_segskip_cons hs9]
  rw [subAll_match hcon (tryUrlP_site _ rfl)]
  rw [subAll_segskip hs10, subAll_segskip hs6]
  rw [subAll_splice_cons (tryUrlP_hstart u u') isVerCh 5 (by decide) (by decide)
    ' ' (by decide) hver2]
  rw [subAll_segskip_cons hs7, subAll_segskip hs11]
  rw [subAll_segskip_cons hs12, subAll_segskip hs13]
  rw [subAll_splice_cons (tryUrlP_hstart u u') isVerCh 5 (by decide) (by decide)
    '\n' (by decide) hdsv]
  rw [subAll_segskip_cons hs14]
  rw [subAll_splice_cons (tryUrlP_hstart u u') isJunkCh 5 (by decide) (by decide)
    '\n' (by decide) hj]
  rw [subAll_segskip_total hs15]
  simp only [List.append_assoc, List.cons_append, List.singleton_append]
  rfl

theorem hex64_ne_nil {c : List Char} (h : Hex64 c) : c ≠ [] := by
  intro hc
  rw [hc] at h
  simp [Hex64] at h

/-- The devpod URL substitution (unescaped current version, valid `\1`
template) at a URL site whose version segment equals the current
version. -/
theorem tryUrlD_site {u w : List Char} (hu : ∀ c ∈ u, isVerCh c = true)
    {b : List Char} (tl : List Char) (hb : b = '/' :: tl) :
    tryUrlD u w .group1 (devpodUrlPrefix ++ (u ++ b)) =
      some (devpodUrlPrefix ++ (w ++ ['/']), tl) := by
  subst hb
  have hnl : '\n' ∉ u := fun hm => absurd (hu '\n' hm) (by decide)
  rw [show devpodUrlPrefix ++ (u ++ '/' :: tl) =
    devpodUrlPrefix ++ ((u ++ '/' :: tl) : List Char) from rfl]
  simp only [tryUrlD,
    matchPatC_self (by decide : ('\n' : Char) ∉ devpodUrlPrefix) (u ++ '/' :: tl),
    matchPatC_self hnl ('/' :: tl)]
  rfl

/-- For a checksum whose `\1{checksum}\2` template parses as a normal
group-1 reference, `update-devpod.py`'s checksum substitution coincides
with the safe `\g<1>` one. -/
theorem tryShaSelD_group1 (sel c : List Char) :
    tryShaSelD sel c .group1 = tryShaSel sel c := by
  funext s
  simp only [tryShaSelD, tryShaSel]
  repeat' split
  all_goals try rfl
  all_goals simp [List.append_assoc]

/-- The devpod URL substitution (with a group-1 template) rewrites the
version segment of both platform URLs of the devpod family and nothing
else. -/
theorem renderD_urlD {u : List Char} (u' : List Char) {v c1 c2 ds j : List Char}
    (hv : ∀ c ∈ v, isVerCh c = true) (hu : ∀ c ∈ u, isVerCh c = true)
    (hc1 : ∀ c ∈ c1, isHexCh c = true) (hc2 : ∀ c ∈ c2, isHexCh c = true)
    (hds : ∀ c ∈ ds, isDigitCh c = true) (hj : ∀ c ∈ j, isJunkCh c = true) :
    subAll (tryUrlD u u' .group1) (renderD v u c1 c2 ds j) =
      renderD v u' c1 c2 ds j := by
  have hcon := consumes_tryUrlD u u' .group1
  have hs1 : SegSkip (tryUrlD u u' .group1) (lit "package:") := by
    repeat first
    | exact segSkip_nil _
    | refine segSkip_cons (fun b => rfl) ?_
  have hs2 : SegSkip (tryUrlD u u' .group1) (lit "\n  name: devpod\n  ") := by
    repeat first
    | exact segSkip_nil _
    | refine segSkip_cons (fun b => rfl) ?_
  have hs3 : SegSkip (tryUrlD u u' .group1) (lit "version: \"") := by
    repeat first
    | exact segSkip_nil _
    | refine segSkip_cons (fun b => rfl) ?_
  have hs4 : SegSkip (tryUrlD u u' .group1)
      ('"' :: lit "\n\nsource:\n  - if: osx and x86_64\n    then:\n      url: ") := by
    repeat first
    | exact segSkip_nil _
    | refine segSkip_cons (fun b => rfl) ?_
  have hs5 : SegSkip (tryUrlD u u' .group1) (lit "devpod-darwin-amd64\n      ") := by
    repeat first
    | exact segSkip_nil _
    | refine segSkip_cons (fun b => rfl) ?_
  have hs6 : SegSkip (tryUrlD u u' .group1) (lit "sha256: ") := by
    repeat first
    | exact segSkip_nil _
    | refine segSkip_cons (fun b => rfl) ?_
  have hs7 : SegSkip (tryUrlD u u' .group1) (' ' :: lit " # [") := by
    repeat first
    | exact segSkip_nil _
    | refine segSkip_cons (fun b => rfl) ?_
  have hs8 : SegSkip (tryUrlD u u' .group1) (lit "osx and x86_64") := by
    repeat first
    | exact segSkip_nil _
    | refine segSkip_cons (fun b => rfl) ?_
  have hs9 : SegSkip (tryUrlD u u' .group1)
      (']' :: lit "\n  - if: osx and arm64\n    then:\n      url: ") := by
    repeat first
    | exact segSkip_nil _
    | refine segSkip_cons (fun b => rfl) ?_
  have hs10 : SegSkip (tryUrlD u u' .group1) (lit "devpod-darwin-arm64\n      ") := by
    repeat first
    | exact segSkip_nil _
    | refine segSkip_cons (fun b => rfl) ?_
  have hs11 : SegSkip (tryUrlD u u' .group1) (lit "osx and arm64") := by
    repeat first
    | exact segSkip_nil _
    | refine segSkip_cons (fun b => rfl) ?_
  have hs12 : SegSkip (tryUrlD u u' .group1) (']' :: lit "\n\nbuild:\n  ") := by
    repeat first
    | exact segSkip_nil _
    | refine segSkip_cons (fun b => rfl) ?_
  have hs13 : SegSkip (tryUrlD u u' .group1) (lit "number: ") := by
    repeat first
    | exact segSkip_nil _
    | refine segSkip_cons (fun b => rfl) ?_
  have hs14 : SegSkip (tryUrlD u u' .group1) ('\n' :: lit "\nabout:\n  summary: ") := by
    repeat first
    | exact segSkip_nil _
    | refine segSkip_cons (fun b => rfl) ?_
  have hs15 : SegSkip (tryUrlD u u' .group1) ['\n'] := by
    repeat first
    | exact segSkip_nil _
    | refine segSkip_cons (fun b => rfl) ?_
  have hver : ∀ c ∈ c1, isVerCh c = true := fun c hc => verCh_of_hexCh (hc1 c hc)
  have hver2 : ∀ c ∈ c2, isVerCh c = true := fun c hc => verCh_of_hexCh (hc2 c hc)
  have hdsv : ∀ c ∈ ds, isVerCh c = true := fun c hc => verCh_of_digit (hds c hc)
  unfold renderD
  rw [subAll_segskip hs1, subAll_segskip hs2, subAll_segskip hs3]
  rw [subAll_splice_cons (tryUrlD_hstart u u' .group1) isVerCh 5 (by decide)
    (by decide) '"' (by decide) hv]
  rw [subAll_segskip_cons hs4]
  rw [subAll_match hcon (tryUrlD_site hu _ rfl)]
  rw [subAll_segskip hs5, subAll_segskip hs6]
  rw [subAll_splice_cons (tryUrlD_hstart u u' .group1) isVerCh 5 (by decide)
    (by decide) ' ' (by decide) hver]
  rw [subAll_segskip_cons hs7, subAll_segskip hs8]
  rw [subAll_segskip_cons hs9]
  rw [subAll_match hcon (tryUrlD_site hu _ rfl)]
  rw [subAll_segskip hs10, subAll_segskip hs6]
  rw [subAll_splice_cons (tryUrlD_hstart u u' .group1) isVerCh 5 (by decide)
    (by decide) ' ' (by decide) hver2]
  rw [subAll_segskip_cons hs7, subAll_segskip hs11]
  rw [subAll_segskip_cons hs12, subAll_segskip hs13]
  rw [subAll_splice_cons (tryUrlD_hstart u u' .group1) isVerCh 5 (by decide)
    (by decide) '\n' (by decide) hdsv]
  rw [subAll_segskip_cons hs14]
  rw [subAll_splice_cons (tryUrlD_hstart u u' .group1) isJunkCh 5 (by decide)
    (by decide) '\n' (by decide) hj]
  rw [subAll_segskip_total hs15]
  simp only [List.append_assoc, List.cons_append, List.singleton_append]
  rfl

/-- The selector-scoped checksum substitution walks over an entire
checksum line carrying a *different* trailing selector comment without
touching it. -/
theorem subAll_shaLine_wrong {sel cNew sel' : List Char} {c R : List Char}
    (hhex : ∀ ch ∈ c, isHexCh ch = true) (hlen : c.length = 64) (hne : c ≠ [])
    (hsel : SegSkip (tryShaSel sel cNew) sel')
    (hw : ∀ t, matchLit (lit "[" ++ sel ++ lit "]")
      ('[' :: (sel' ++ (']' :: t))) = none) :
    subAll (tryShaSel sel cNew)
        (lit "sha256: " ++ (c ++ (' ' :: (lit " # [" ++ (sel' ++ (']' :: R)))))) =
      lit "sha256: " ++ (c ++ (' ' :: (lit " # [" ++ (sel' ++
        (']' :: subAll (tryShaSel sel cNew) R))))) := by
  have h0 : tryShaSel sel cNew
      (lit "sha256: " ++ (c ++ (' ' :: (lit " # [" ++ (sel' ++ (']' :: R)))))) =
      none :=
    tryShaSel_wrongsite hhex hlen hne _ rfl (hw R)
  have hsplit : (lit "sha256: " ++
        (c ++ (' ' :: (lit " # [" ++ (sel' ++ (']' :: R))))) : List Char) =
      's' :: (lit "ha256: " ++
        (c ++ (' ' :: (lit " # [" ++ (sel' ++ (']' :: R)))))) := rfl
  rw [hsplit]
  have h0' : tryShaSel sel cNew ('s' :: (lit "ha256: " ++
      (c ++ (' ' :: (lit " # [" ++ (sel' ++ (']' :: R))))))) = none := h0
  rw [subAll_cons_none h0']
  have hseg1 : SegSkip (tryShaSel sel cNew) (lit "ha256: ") := by
    repeat first
    | exact segSkip_nil _
    | refine segSkip_cons (fun b => rfl) ?_
  rw [subAll_segskip hseg1]
  rw [subAll_splice_cons (tryShaSel_hstart sel cNew) isHexCh 0 (by decide)
    (by decide) ' ' (by decide) hhex]
  have hsk7 : SegSkip (tryShaSel sel cNew) (' ' :: lit " # [") := by
    repeat first
    | exact segSkip_nil _
    | refine segSkip_cons (fun b => rfl) ?_
  rw [subAll_segskip_cons hsk7]
  rw [subAll_segskip hsel]
  have h9 : tryShaSel sel cNew (']' :: R) = none := rfl
  rw [subAll_cons_none h9]
  rfl

/-- The `osx and x86_64` checksum substitution rewrites exactly the first
checksum field of the devpod family. -/
theorem renderD_sha1 (cN : List Char) {v u c1 c2 ds j : List Char}
    (hv : ∀ c ∈ v, isVerCh c = true) (hu : ∀ c ∈ u, isVerCh c = true)
    (hc1 : Hex64 c1) (hc2 : Hex64 c2)
    (hds : ∀ c ∈ ds, isDigitCh c = true) (hj : ∀ c ∈ j, isJunkCh c = true) :
    subAll (tryShaSel (lit "osx and x86_64") cN) (renderD v u c1 c2 ds j) =
      renderD v u cN c2 ds j := by
  have hcon := consumes_tryShaSel (lit "osx and x86_64") cN
  have hdsv : ∀ c ∈ ds, isVerCh c = true := fun c hc => verCh_of_digit (hds c hc)
  have hs1 : SegSkip (tryShaSel (lit "osx and x86_64") cN) (lit "package:") := by
    repeat first
    | exact segSkip_nil _
    | refine segSkip_cons (fun b => rfl) ?_
  have hs2 : SegSkip (tryShaSel (lit "osx and x86_64") cN)
      (lit "\n  name: devpod\n  ") := by
    repeat first
    | exact segSkip_nil _
    | refine segSkip_cons (fun b => rfl) ?_
  have hs3 : SegSkip (tryShaSel (lit "osx and x86_64") cN) (lit "version: \"") := by
    repeat first
    | exact segSkip_nil _
    | refine segSkip_cons (fun b => rfl) ?_
  have hs4 : SegSkip (tryShaSel (lit "osx and x86_64") cN)
      ('"' :: lit "\n\nsource:\n  - if: osx and x86_64\n    then:\n      url: ") := by
    repeat first
    | exact segSkip_nil _
    | refine segSkip_cons (fun b => rfl) ?_
  have hsU : SegSkip (tryShaSel (lit "osx and x86_64") cN) devpodUrlPrefix := by
    repeat first
    | exact segSkip_nil _
    | refine segSkip_cons (fun b => rfl) ?_
  have hs5 : SegSkip (tryShaSel (lit "osx and x86_64") cN)
      ('/' :: lit "devpod-darwin-amd64\n      ") := by
    repeat first
    | exact segSkip_nil _
    | refine segSkip_cons (fun b => rfl) ?_
  have hs9 : SegSkip (tryShaSel (lit "osx and x86_64") cN)
      (lit "\n  - if: osx and arm64\n    then:\n      url: ") := by
    repeat first
    | exact segSkip_nil _
    | refine segSkip_cons (fun b => rfl) ?_
  have hs10 : SegSkip (tryShaSel (lit "osx and x86_64") cN)
      ('/' :: lit "devpod-darwin-arm64\n      ") := by
    repeat first
    | exact segSkip_nil _
    | refine segSkip_cons (fun b => rfl) ?_
  have hsArm : SegSkip (tryShaSel (lit "osx and x86_64") cN)
      (lit "osx and arm64") := by
    repeat first
    | exact segSkip_nil _
    | refine segSkip_cons (fun b => rfl) ?_
  have hs12 : SegSkip (tryShaSel (lit "osx and x86_64") cN)
      (lit "\n\nbuild:\n  ") := by
    repeat first
    | exact segSkip_nil _
    | refine segSkip_cons (fun b => rfl) ?_
  have hs13 : SegSkip (tryShaSel (lit "osx and x86_64") cN) (lit "number: ") := by
    repeat first
    | exact segSkip_nil _
    | refine segSkip_cons (fun b => rfl) ?_
  have hs14 : SegSkip (tryShaSel (lit "osx and x86_64") cN)
      ('\n' :: lit "\nabout:\n  summary: ") := by
    repeat first
    | exact segSkip_nil _
    | refine segSkip_cons (fun b => rfl) ?_
  have hs15 : SegSkip (tryShaSel (lit "osx and x86_64") cN) ['\n'] := by
    repeat first
    | exact segSkip_nil _
    | refine segSkip_cons (fun b => rfl) ?_
  unfold renderD
  rw [subAll_segskip hs1, subAll_segskip hs2, subAll_segskip hs3]
  rw [subAll_splice_cons (tryShaSel_hstart (lit "osx and x86_64") cN) isVerCh 6
    (by decide) (by decide) '"' (by decide) hv]
  rw [subAll_segskip_cons hs4, subAll_segskip hsU]
  rw [subAll_splice_cons (tryShaSel_hstart (lit "osx and x86_64") cN) isVerCh 6
    (by decide) (by decide) '/' (by decide) hu]
  rw [subAll_segskip_cons hs5]
  rw [subAll_match hcon (tryShaSel_site hc1.2 hc1.1 (hex64_ne_nil hc1) _ rfl)]
  rw [subAll_segskip hs9, subAll_segskip hsU]
  rw [subAll_splice_cons (tryShaSel_hstart (lit "osx and x86_64") cN) isVerCh 6
    (by decide) (by decide) '/' (by decide) hu]
  rw [subAll_segskip_cons hs10]
  rw [subAll_shaLine_wrong hc2.2 hc2.1 (hex64_ne_nil hc2) hsArm (fun t => rfl)]
  rw [subAll_segskip hs12, subAll_segskip hs13]
  rw [subAll_splice_cons (tryShaSel_hstart (lit "osx and x86_64") cN) isVerCh 6
    (by decide) (by decide) '\n' (by decide) hdsv]
  rw [subAll_segskip_cons hs14]
  rw [subAll_splice_cons (tryShaSel_hstart (lit "osx and x86_64") cN) isJunkCh 6
    (by decide) (by decide) '\n' (by decide) hj]
  rw [subAll_segskip_total hs15]
  simp only [List.append_assoc, List.cons_append, List.singleton_append]
  rfl

/-- The `osx and arm64` checksum substitution rewrites exactly the second
checksum field of the devpod family. -/
theorem renderD_sha2 (cN : List Char) {v u c1 c2 ds j : List Char}
    (hv : ∀ c ∈ v, isVerCh c = true) (hu : ∀ c ∈ u, isVerCh c = true)
    (hc1 : Hex64 c1) (hc2 : Hex64 c2)
    (hds : ∀ c ∈ ds, isDigitCh c = true) (hj : ∀ c ∈ j, isJunkCh c = true) :
    subAll (tryShaSel (lit "osx and arm64") cN) (renderD v u c1 c2 ds j) =
      renderD v u c1 cN ds j := by
  have hcon := consumes_tryShaSel (lit "osx and arm64") cN
  have hdsv : ∀ c ∈ ds, isVerCh c = true := fun c hc => verCh_of_digit (hds c hc)
  have hs1 : SegSkip (tryShaSel (lit "osx and arm64") cN) (lit "package:") := by
    repeat first
    | exact segSkip_nil _
    | refine segSkip_cons (fun b => rfl) ?_
  have hs2 : SegSkip (tryShaSel (lit "osx and arm64") cN)
      (lit "\n  name: devpod\n  ") := by
    repeat first
    | exact segSkip_nil _
    | refine segSkip_cons (fun b => rfl) ?_
  have hs3 : SegSkip (tryShaSel (lit "osx and arm64") cN) (lit "version: \"") := by
    repeat first
    | exact segSkip_nil _
    | refine segSkip_cons (fun b => rfl) ?_
  have hs4 : SegSkip (tryShaSel (lit "osx and arm64") cN)
      ('"' :: lit "\n\nsource:\n  - if: osx and x86_64\n    then:\n      url: ") := by
    repeat first
    | exact segSkip_nil _
    | refine segSkip_cons (fun b => rfl) ?_
  have hsU : SegSkip (tryShaSel (lit "osx and arm64") cN) devpodUrlPrefix := by
    repeat first
    | exact segSkip_nil _
    | refine segSkip_cons (fun b => rfl) ?_
  have hs5 : SegSkip (tryShaSel (lit "osx and arm64") cN)
      ('/' :: lit "devpod-darwin-amd64\n      ") := by
    repeat first
    | exact segSkip_nil _
    | refine segSkip_cons (fun b => rfl) ?_
  have hsX86 : SegSkip (tryShaSel (lit "osx and arm64") cN)
      (lit "osx and x86_64") := by
    repeat first
    | exact segSkip_nil _
    | refine segSkip_cons (fun b => rfl) ?_
  have hs9 : SegSkip (tryShaSel (lit "osx and arm64") cN)
      (lit "\n  - if: osx and arm64\n    then:\n      url: ") := by
    repeat first
    | exact segSkip_nil _
    | refine segSkip_cons (fun b => rfl) ?_
  have hs10 : SegSkip (tryShaSel (lit "osx and arm64") cN)
      ('/' :: lit "devpod-darwin-arm64\n      ") := by
    repeat first
    | exact segSkip_nil _
    | refine segSkip_cons (fun b => rfl) ?_
  have hs12 : SegSkip (tryShaSel (lit "osx and arm64") cN)
      (lit "\n\nbuild:\n  ") := by
    repeat first
    | exact segSkip_nil _
    | refine segSkip_cons (fun b => rfl) ?_
  have hs13 : SegSkip (tryShaSel (lit "osx and arm64") cN) (lit "number: ") := by
    repeat first
    | exact segSkip_nil _
    | refine segSkip_cons (fun b => rfl) ?_
  have hs14 : SegSkip (tryShaSel (lit "osx and arm64") cN)
      ('\n' :: lit "\nabout:\n  summary: ") := by
    repeat first
    | exact segSkip_nil _
    | refine segSkip_cons (fun b => rfl) ?_
  have hs15 : SegSkip (tryShaSel (lit "osx and arm64") cN) ['\n'] := by
    repeat first
    | exact segSkip_nil _
    | refine segSkip_cons (fun b => rfl) ?_
  unfold renderD
  rw [subAll_segskip hs1, subAll_segskip hs2, subAll_segskip hs3]
  rw [subAll_splice_cons (tryShaSel_hstart (lit "osx and arm64") cN) isVerCh 6
    (by decide) (by decide) '"' (by decide) hv]
  rw [subAll_segskip_cons hs4, subAll_segskip hsU]
  rw [subAll_splice_cons (tryShaSel_hstart (lit "osx and arm64") cN) isVerCh 6
    (by decide) (by decide) '/' (by decide) hu]
  rw [subAll_segskip_cons hs5]
  rw [subAll_shaLine_wrong hc1.2 hc1.1 (hex64_ne_nil hc1) hsX86 (fun t => rfl)]
  rw [subAll_segskip hs9, subAll_segskip hsU]
  rw [subAll_splice_cons (tryShaSel_hstart (lit "osx and arm64") cN) isVerCh 6
    (by decide) (by decide) '/' (by decide) hu]
  rw [subAll_segskip_cons hs10]
  rw [subAll_match hcon (tryShaSel_site hc2.2 hc2.1 (hex64_ne_nil hc2) _ rfl)]
  rw [subAll_segskip hs12, subAll_segskip hs13]
  rw [subAll_splice_cons (tryShaSel_hstart (lit "osx and arm64") cN) isVerCh 6
    (by decide) (by decide) '\n' (by decide) hdsv]
  rw [subAll_segskip_cons hs14]
  rw [subAll_splice_cons (tryShaSel_hstart (lit "osx and arm64") cN) isJunkCh 6
    (by decide) (by decide) '\n' (by decide) hj]
  rw [subAll_segskip_total hs15]
  simp only [List.append_assoc, List.cons_append, List.singleton_append]
  rfl

/-- The global `number: \d+` → `number: 0` substitution rewrites exactly
the build-number field of the devpod family. -/
theorem renderD_number {v u c1 c2 ds j : List Char}
    (hv : ∀ c ∈ v, isVerCh c = true) (hu : ∀ c ∈ u, isVerCh c = true)
    (hc1 : ∀ c ∈ c1, isHexCh c = true) (hc2 : ∀ c ∈ c2, isHexCh c = true)
    (hne : ds ≠ []) (hds : ∀ c ∈ ds, isDigitCh c = true)
    (hj : ∀ c ∈ j, isJunkCh c = true) :
    subAll tryNumber (renderD v u c1 c2 ds j) =
      renderD v u c1 c2 (lit "0") j := by
  have hcon := consumes_tryNumber
  have hc1v : ∀ c ∈ c1, isVerCh c = true := fun c hc => verCh_of_hexCh (hc1 c hc)
  have hc2v : ∀ c ∈ c2, isVerCh c = true := fun c hc => verCh_of_hexCh (hc2 c hc)
  have hs1 : SegSkip tryNumber (lit "package:") := by
    repeat first
    | exact segSkip_nil _
    | refine segSkip_cons (fun b => rfl) ?_
  have hs2 : SegSkip tryNumber (lit "\n  name: devpod\n  ") := by
    repeat first
    | exact segSkip_nil _
    | refine segSkip_cons (fun b => rfl) ?_
  have hs3 : SegSkip tryNumber (lit "version: \"") := by
    repeat first
    | exact segSkip_nil _
    | refine segSkip_cons (fun b => rfl) ?_
  have hs4 : SegSkip tryNumber
      ('"' :: lit "\n\nsource:\n  - if: osx and x86_64\n    then:\n      url: ") := by
    repeat first
    | exact segSkip_nil _
    | refine segSkip_cons (fun b => rfl) ?_
  have hsU : SegSkip tryNumber devpodUrlPrefix := by
    repeat first
    | exact segSkip_nil _
    | refine segSkip_cons (fun b => rfl) ?_
  have hs5 : SegSkip tryNumber ('/' :: lit "devpod-darwin-amd64\n      ") := by
    repeat first
    | exact segSkip_nil _
    | refine segSkip_cons (fun b => rfl) ?_
  have hs6 : SegSkip tryNumber (lit "sha256: ") := by
    repeat first
    | exact segSkip_nil _
    | refine segSkip_cons (fun b => rfl) ?_
  have hs7 : SegSkip tryNumber (' ' :: lit " # [") := by
    repeat first
    | exact segSkip_nil _
    | refine segSkip_cons (fun b => rfl) ?_
  have hs8 : SegSkip tryNumber (lit "osx and x86_64") := by
    repeat first
    | exact segSkip_nil _
    | refine segSkip_cons (fun b => rfl) ?_
  have hs9 : SegSkip tryNumber
      (']' :: lit "\n  - if: osx and arm64\n    then:\n      url: ") := by
    repeat first
    | exact segSkip_nil _
    | refine segSkip_cons (fun b => rfl) ?_
  have hs10 : SegSkip tryNumber ('/' :: lit "devpod-darwin-arm64\n      ") := by
    repeat first
    | exact segSkip_nil _
    | refine segSkip_cons (fun b => rfl) ?_
  have hs11 : SegSkip tryNumber (lit "osx and arm64") := by
    repeat first
    | exact segSkip_nil _
    | refine segSkip_cons (fun b => rfl) ?_
  have hs12 : SegSkip tryNumber (']' :: lit "\n\nbuild:\n  ") := by
    repeat first
    | exact segSkip_nil _
    | refine segSkip_cons (fun b => rfl) ?_
  have hs14 : SegSkip tryNumber ('\n' :: lit "\nabout:\n  summary: ") := by
    repeat first
    | exact segSkip_nil _
    | refine segSkip_cons (fun b => rfl) ?_
  have hs15 : SegSkip tryNumber ['\n'] := by
    repeat first
    | exact segSkip_nil _
    | refine segSkip_cons (fun b => rfl) ?_
  unfold renderD
  rw [subAll_segskip hs1, subAll_segskip hs2, subAll_segskip hs3]
  rw [subAll_splice_cons tryNumber_hstart isVerCh 6
    (by decide) (by decide) '"' (by decide) hv]
  rw [subAll_segskip_cons hs4, subAll_segskip hsU]
  rw [subAll_splice_cons tryNumber_hstart isVerCh 6
    (by decide) (by decide) '/' (by decide) hu]
  rw [subAll_segskip_cons hs5, subAll_segskip hs6]
  rw [subAll_splice_cons tryNumber_hstart isVerCh 6
    (by decide) (by decide) ' ' (by decide) hc1v]
  rw [subAll_segskip_cons hs7, subAll_segskip hs8]
  rw [subAll_segskip_cons hs9, subAll_segskip hsU]
  rw [subAll_splice_cons tryNumber_hstart isVerCh 6
    (by decide) (by decide) '/' (by decide) hu]
  rw [subAll_segskip_cons hs10, subAll_segskip hs6]
  rw [subAll_splice_cons tryNumber_hstart isVerCh 6
    (by decide) (by decide) ' ' (by decide) hc2v]
  rw [subAll_segskip_cons hs7, subAll_segskip hs11]
  rw [subAll_segskip_cons hs12]
  rw [subAll_match hcon (tryNumber_site hne hds _ rfl)]
  rw [subAll_segskip_cons hs14]
  rw [subAll_splice_cons tryNumber_hstart isJunkCh 6
    (by decide) (by decide) '\n' (by decide) hj]
  rw [subAll_segskip_total hs15]
  rfl

/-! ## The hyphen/underscore version duality -/

theorem verCh_underscoreOf {v : List Char} (h : ∀ c ∈ v, isVerCh c = true) :
    ∀ c ∈ underscoreOf v, isVerCh c = true := by
  intro c hc
  simp only [underscoreOf, List.mem_map] at hc
  obtain ⟨a, ha, rfl⟩ := hc
  by_cases hd : a = '-'
  · rw [if_pos hd]
    decide
  · rw [if_neg hd]
    exact h a ha

theorem verCh_hyphenOf {v : List Char} (h : ∀ c ∈ v, isVerCh c = true) :
    ∀ c ∈ hyphenOf v, isVerCh c = true := by
  intro c hc
  simp only [hyphenOf, List.mem_map] at hc
  obtain ⟨a, ha, rfl⟩ := hc
  by_cases hd : a = '_'
  · rw [if_pos hd]
    decide
  · rw [if_neg hd]
    exact h a ha

theorem underscoreOf_ne_nil {v : List Char} (h : v ≠ []) :
    underscoreOf v ≠ [] := by
  cases v with
  | nil => exact absurd rfl h
  | cons a as => simp [underscoreOf]

/-- For a version without underscores, the URL form of the document form
recovers the original resolved version. -/
theorem hyphenOf_underscoreOf {ver : List Char} (h : ∀ c ∈ ver, c ≠ '_') :
    hyphenOf (underscoreOf ver) = ver := by
  induction ver with
  | nil => rfl
  | cons a as ih =>
    have ha : a ≠ '_' := h a (List.mem_cons_self a as)
    have hrest : ∀ c ∈ as, c ≠ '_' := fun c hc => h c (List.mem_cons_of_mem a hc)
    by_cases hd : a = '-'
    · subst hd
      simp only [underscoreOf, hyphenOf, List.map_cons] at *
      rw [ih hrest]
      rfl
    · simp only [underscoreOf, hyphenOf, List.map_cons] at *
      rw [if_neg hd, if_neg ha, ih hrest]

/-! ## The end-to-end characterisation of the devpod-prerelease rewriter -/

/-- `update-devpod-prerelease.py` `update_recipe` on a well-formed devpod
recipe document whose URL version matches the document version: the
document version field becomes the underscored resolved version, both
URLs the hyphenated (original) resolved version, each checksum is
overwritten exactly when its platform resolved to a non-empty digest, and
the build number resets to `0` exactly when the document version
changed. -/
theorem preUpdateRecipe_renderD (version o1 o2 : List Char)
    {v c1 c2 ds j : List Char}
    (hver : VerStr version) (hv : VerStr v)
    (hc1 : Hex64 c1) (hc2 : Hex64 c2) (hds : DigStr ds) (hj : JunkStr j)
    (ho1 : o1 ≠ [] → Hex64 o1) (ho2 : o2 ≠ [] → Hex64 o2) :
    preUpdateRecipe version [("osx-64", o1), ("osx-arm64", o2)]
        (renderD v (hyphenOf v) c1 c2 ds j) =
      renderD (underscoreOf version) version
        (if o1 = [] then c1 else o1) (if o2 = [] then c2 else o2)
        (if v = underscoreOf version then ds else lit "0") j := by
  obtain ⟨hvne, hvch⟩ := hv
  obtain ⟨hverne, hverch⟩ := hver
  have hu : ∀ c ∈ hyphenOf v, isVerCh c = true := verCh_hyphenOf hvch
  have hpv : ∀ c ∈ underscoreOf version, isVerCh c = true :=
    verCh_underscoreOf hverch
  have hsearch : searchF tryVerG (renderD v (hyphenOf v) c1 c2 ds j) = some v :=
    renderD_search (hyphenOf v) c1 c2 ds j hvne hvch
  have hpkg : subFirst (tryPkgVer (underscoreOf version))
      (renderD v (hyphenOf v) c1 c2 ds j) =
      renderD (underscoreOf version) (hyphenOf v) c1 c2 ds j :=
    renderD_pkgver (underscoreOf version) (hyphenOf v) c1 c2 ds j hvne hvch
  have hurl : subAll (tryUrlP (hyphenOf v) version)
      (renderD (underscoreOf version) (hyphenOf v) c1 c2 ds j) =
      renderD (underscoreOf version) version c1 c2 ds j :=
    renderD_urlP version hpv hc1.2 hc2.2 hds.2 hj
  by_cases h1 : o1 = []
  · by_cases h2 : o2 = []
    · subst h1; subst h2
      simp only [preUpdateRecipe, hsearch, Option.map_some', hpkg, hurl]
      simp [devpodSelectorMap, List.lookup]
      by_cases h3 : v = underscoreOf version
      · rw [if_pos (by rw [h3]), if_pos h3]
      · rw [if_neg (by simpa using h3), if_neg h3]
        exact renderD_number hpv hverch hc1.2 hc2.2 hds.1 hds.2 hj
    · have hx2 : Hex64 o2 := ho2 h2
      have hsha2 : subAll (tryShaSel (lit "osx and arm64") o2)
          (renderD (underscoreOf version) version c1 c2 ds j) =
          renderD (underscoreOf version) version c1 o2 ds j :=
        renderD_sha2 o2 hpv hverch hc1 hc2 hds.2 hj
      subst h1
      simp only [preUpdateRecipe, hsearch, Option.map_some', hpkg, hurl]
      simp [devpodSelectorMap, List.lookup, h2, hsha2]
      by_cases h3 : v = underscoreOf version
      · rw [if_pos (by rw [h3]), if_pos h3]
      · rw [if_neg (by simpa using h3), if_neg h3]
        exact renderD_number hpv hverch hc1.2 hx2.2 hds.1 hds.2 hj
  · have hx1 : Hex64 o1 := ho1 h1
    have hsha1 : subAll (tryShaSel (lit "osx and x86_64") o1)
        (renderD (underscoreOf version) version c1 c2 ds j) =
        renderD (underscoreOf version) version o1 c2 ds j :=
      renderD_sha1 o1 hpv hverch hc1 hc2 hds.2 hj
    by_cases h2 : o2 = []
    · subst h2
      simp only [preUpdateRecipe, hsearch, Option.map_some', hpkg, hurl]
      simp [devpodSelectorMap, List.lookup, h1, hsha1]
      by_cases h3 : v = underscoreOf version
      · rw [if_pos (by rw [h3]), if_pos h3]
      · rw [if_neg (by simpa using h3), if_neg h3]
        exact renderD_number hpv hverch hx1.2 hc2.2 hds.1 hds.2 hj
    · have hx2 : Hex64 o2 := ho2 h2
      have hsha2 : subAll (tryShaSel (lit "osx and arm64") o2)
          (renderD (underscoreOf version) version o1 c2 ds j) =
          renderD (underscoreOf version) version o1 o2 ds j :=
        renderD_sha2 o2 hpv hverch hx1 hc2 hds.2 hj
      simp only [preUpdateRecipe, hsearch, Option.map_some', hpkg, hurl]
      simp [devpodSelectorMap, List.lookup, h1, h2, hsha1, hsha2]
      by_cases h3 : v = underscoreOf version
      · rw [if_pos (by rw [h3]), if_pos h3]
      · rw [if_neg (by simpa using h3), if_neg h3]
        exact renderD_number hpv hverch hx1.2 hx2.2 hds.1 hds.2 hj

/-! ## The end-to-end characterisation of the devpod rewriter -/

/-- `update-devpod.py` `update_recipe` on a well-formed devpod recipe
document whose URL version matches the document version, for a version
and checksums whose unsafe `\1…\2` templates parse as normal group-1
references (versions or digests starting with a letter; a digit-initial
version such as `2.0.0` instead raises `re.error` and aborts the run):
the version field and both URL segments become the resolved version,
each checksum is overwritten exactly when its platform resolved to a
non-empty digest, and the build number resets to `0` exactly when the
document version changed. -/
theorem devpodUpdateRecipe_renderD (version o1 o2 : List Char)
    {v c1 c2 ds j : List Char}
    (hver : VerStr version) (hkver : backref1Kind version = .group1)
    (hv : VerStr v)
    (hc1 : Hex64 c1) (hc2 : Hex64 c2) (hds : DigStr ds) (hj : JunkStr j)
    (ho1 : o1 ≠ [] → Hex64 o1) (ho2 : o2 ≠ [] → Hex64 o2)
    (hk1 : o1 ≠ [] → backref1Kind o1 = .group1)
    (hk2 : o2 ≠ [] → backref1Kind o2 = .group1) :
    devpodUpdateRecipe version [("osx-64", o1), ("osx-arm64", o2)]
        (renderD v v c1 c2 ds j) =
      .ok (renderD version version
        (if o1 = [] then c1 else o1) (if o2 = [] then c2 else o2)
        (if v = version then ds else lit "0") j) := by
  obtain ⟨hvne, hvch⟩ := hv
  obtain ⟨hverne, hverch⟩ := hver
  have hsearch : searchF tryVerG (renderD v v c1 c2 ds j) = some v :=
    renderD_search v c1 c2 ds j hvne hvch
  have hpkg : subFirst (tryPkgVer version) (renderD v v c1 c2 ds j) =
      renderD version v c1 c2 ds j :=
    renderD_pkgver version v c1 c2 ds j hvne hvch
  have hurl : subAll (tryUrlD v version .group1)
      (renderD version v c1 c2 ds j) =
      renderD version version c1 c2 ds j :=
    renderD_urlD version hverch hvch hc1.2 hc2.2 hds.2 hj
  by_cases h1 : o1 = []
  · by_cases h2 : o2 = []
    · subst h1; subst h2
      simp only [devpodUpdateRecipe, hsearch, hkver, hpkg, hurl]
      simp [devpodShaFold, devpodSelectorMap, List.lookup]
      by_cases h3 : v = version
      · rw [if_pos (by rw [h3]), if_pos h3]
      · rw [if_neg (by simpa using h3), if_neg h3]
        exact renderD_number hverch hverch hc1.2 hc2.2 hds.1 hds.2 hj
    · have hx2 : Hex64 o2 := ho2 h2
      have hsha2 : subAll (tryShaSel (lit "osx and arm64") o2)
          (renderD version version c1 c2 ds j) =
          renderD version version c1 o2 ds j :=
        renderD_sha2 o2 hverch hverch hc1 hc2 hds.2 hj
      subst h1
      simp only [devpodUpdateRecipe, hsearch, hkver, hpkg, hurl]
      simp [devpodShaFold, devpodSelectorMap, List.lookup, h2, hk2 h2,
        tryShaSelD_group1, hsha2]
      by_cases h3 : v = version
      · rw [if_pos (by rw [h3]), if_pos h3]
      · rw [if_neg (by simpa using h3), if_neg h3]
        exact renderD_number hverch hverch hc1.2 hx2.2 hds.1 hds.2 hj
  · have hx1 : Hex64 o1 := ho1 h1
    have hsha1 : subAll (tryShaSel (lit "osx and x86_64") o1)
        (renderD version version c1 c2 ds j) =
        renderD version version o1 c2 ds j :=
      renderD_sha1 o1 hverch hverch hc1 hc2 hds.2 hj
    by_cases h2 : o2 = []
    · subst h2
      simp only [devpodUpdateRecipe, hsearch, hkver, hpkg, hurl]
      simp [devpodShaFold, devpodSelectorMap, List.lookup, h1, hk1 h1,
        tryShaSelD_group1, hsha1]
      by_cases h3 : v = version
      · rw [if_pos (by rw [h3]), if_pos h3]
      · rw [if_neg (by simpa using h3), if_neg h3]
        exact renderD_number hverch hverch hx1.2 hc2.2 hds.1 hds.2 hj
    · have hx2 : Hex64 o2 := ho2 h2
      have hsha2 : subAll (tryShaSel (lit "osx and arm64") o2)
          (renderD version version o1 c2 ds j) =
          renderD version version o1 o2 ds j :=
        renderD_sha2 o2 hverch hverch hx1 hc2 hds.2 hj
      simp only [devpodUpdateRecipe, hsearch, hkver, hpkg, hurl]
      simp [devpodShaFold, devpodSelectorMap, List.lookup, h1, h2, hk1 h1,
        hk2 h2, tryShaSelD_group1, hsha1, hsha2]
      by_cases h3 : v = version
      · rw [if_pos (by rw [h3]), if_pos h3]
      · rw [if_neg (by simpa using h3), if_neg h3]
        exact renderD_number hverch hverch hx1.2 hx2.2 hds.1 hds.2 hj

/-! ## The claude-code recipe family

`renderC v u c1 c2 ds j` is the claude-code recipe document restricted to
the two `osx` platforms: package version `v`, URL version segment `u` in
both source URLs, per-platform checksums `c1` / `c2` (each on a
`sha256:` line below a `# [selector]` comment), build number `ds` and a
trailing free-form comment `j`. -/

/-- The distribution id segment of the claude-code storage bucket
(matched by the pattern's `[^/]+`). -/
def ccDist : List Char := lit "86c565f3-f756-42ad-8dfa-d59b1c096819"

def renderC (v u c1 c2 ds j : List Char) : List Char :=
  lit "package:" ++ (lit "\n  name: claude-code\n  " ++ (lit "version: \"" ++ (v ++
  ('"' :: (lit "\n\nsource:\n  - if: osx and x86_64\n    then:\n      url: " ++
  (ccUrlBase ++ (ccDist ++ ('/' :: (lit "claude-code-releases/" ++ (u ++
  ('/' :: (lit "darwin-x64/claude-code.tar.gz\n      " ++ (lit "# [" ++
  (lit "osx and x86_64" ++ (']' :: (lit "\n      sha256: " ++ (c1 ++
  ('\n' :: (lit "  - if: osx and arm64\n    then:\n      url: " ++
  (ccUrlBase ++ (ccDist ++ ('/' :: (lit "claude-code-releases/" ++ (u ++
  ('/' :: (lit "darwin-arm64/claude-code.tar.gz\n      " ++ (lit "# [" ++
  (lit "osx and arm64" ++ (']' :: (lit "\n      sha256: " ++ (c2 ++
  ('\n' :: (lit "\nbuild:\n  " ++ (lit "number: " ++ (ds ++
  ('\n' :: (lit "\nabout:\n  summary: " ++ (j ++
  ['\n']))))))))))))))))))))))))))))))))))))))

/-- The claude-code `tar.gz` URL substitution at the `darwin-x64` URL. -/
theorem tryUrlCCtar_site1 (w : List Char) {u : List Char} (hune : u ≠ [])
    (hu : ∀ c ∈ u, isVerCh c = true) {b : List Char} (tl : List Char)
    (hb : b = '/' :: (lit "darwin-x64/claude-code.tar.gz\n      " ++ tl)) :
    tryUrlCCtar w (ccUrlBase ++ (ccDist ++
        ('/' :: (lit "claude-code-releases/" ++ (u ++ b))))) =
      some (ccUrlBase ++ ccDist ++ lit "/claude-code-releases/" ++ w ++
        lit "/" ++ lit "darwin-x64" ++ lit "/claude-code.tar.gz",
        lit "\n      " ++ tl) := by
  subst hb
  simp only [tryUrlCCtar, matchLit_self_append]
  have hbne : ∀ c ∈ ccDist, (c != '/') = true := by decide
  have h1 : List.takeWhile (fun c => c != '/') (ccDist ++
      ('/' :: (lit "claude-code-releases/" ++ (u ++
        ('/' :: (lit "darwin-x64/claude-code.tar.gz\n      " ++ tl)))))) =
      ccDist := takeWhile_splice hbne (by decide)
  have h2 : List.dropWhile (fun c => c != '/') (ccDist ++
      ('/' :: (lit "claude-code-releases/" ++ (u ++
        ('/' :: (lit "darwin-x64/claude-code.tar.gz\n      " ++ tl)))))) =
      '/' :: (lit "claude-code-releases/" ++ (u ++
        ('/' :: (lit "darwin-x64/claude-code.tar.gz\n      " ++ tl)))) :=
    dropWhile_splice hbne (by decide)
  rw [h1, h2, if_neg (by decide : ¬(ccDist = []))]
  have h3 : matchLit (lit "/claude-code-releases/")
      ('/' :: (lit "claude-code-releases/" ++ (u ++
        ('/' :: (lit "darwin-x64/claude-code.tar.gz\n      " ++ tl))))) =
      some (u ++ ('/' :: (lit "darwin-x64/claude-code.tar.gz\n      " ++ tl))) := by
    rw [show ('/' :: (lit "claude-code-releases/" ++ (u ++
        ('/' :: (lit "darwin-x64/claude-code.tar.gz\n      " ++ tl)))) : List Char) =
      lit "/claude-code-releases/" ++ (u ++
        ('/' :: (lit "darwin-x64/claude-code.tar.gz\n      " ++ tl))) from rfl]
    exact matchLit_self_append _ _
  simp only [h3]
  have hbu : ∀ c ∈ u, (c != '/') = true :=
    fun c hc => bne_of_verCh (by decide) c (hu c hc)
  have h4 : List.takeWhile (fun c => c != '/') (u ++
      ('/' :: (lit "darwin-x64/claude-code.tar.gz\n      " ++ tl))) = u :=
    takeWhile_splice hbu (by decide)
  have h5 : List.dropWhile (fun c => c != '/') (u ++
      ('/' :: (lit "darwin-x64/claude-code.tar.gz\n      " ++ tl))) =
      '/' :: (lit "darwin-x64/claude-code.tar.gz\n      " ++ tl) :=
    dropWhile_splice hbu (by decide)
  rw [h4, if_neg hune]
  simp only [h5]
  have hsplit : lit "darwin-x64/claude-code.tar.gz\n      " ++ tl =
      lit "darwin-x64" ++ ('/' :: (lit "claude-code.tar.gz\n      " ++ tl)) := rfl
  rw [hsplit]
  have hbp : ∀ c ∈ lit "darwin-x64", (c != '/') = true := by decide
  have h6 : List.takeWhile (fun c => c != '/') (lit "darwin-x64" ++
      ('/' :: (lit "claude-code.tar.gz\n      " ++ tl))) = lit "darwin-x64" :=
    takeWhile_splice hbp (by decide)
  have h7 : List.dropWhile (fun c => c != '/') (lit "darwin-x64" ++
      ('/' :: (lit "claude-code.tar.gz\n      " ++ tl))) =
      '/' :: (lit "claude-code.tar.gz\n      " ++ tl) :=
    dropWhile_splice hbp (by decide)
  rw [h6, if_neg (by decide : ¬(lit "darwin-x64" = []))]
  simp only [h7]
  have h8 : matchLit (lit "/claude-code.tar.gz")
      ('/' :: (lit "claude-code.tar.gz\n      " ++ tl)) =
      some (lit "\n      " ++ tl) := rfl
  simp only [h8]

/-- The claude-code `tar.gz` URL substitution at the `darwin-arm64` URL. -/
theorem tryUrlCCtar_site2 (w : List Char) {u : List Char} (hune : u ≠ [])
    (hu : ∀ c ∈ u, isVerCh c = true) {b : List Char} (tl : List Char)
    (hb : b = '/' :: (lit "darwin-arm64/claude-code.tar.gz\n      " ++ tl)) :
    tryUrlCCtar w (ccUrlBase ++ (ccDist ++
        ('/' :: (lit "claude-code-releases/" ++ (u ++ b))))) =
      some (ccUrlBase ++ ccDist ++ lit "/claude-code-releases/" ++ w ++
        lit "/" ++ lit "darwin-arm64" ++ lit "/claude-code.tar.gz",
        lit "\n      " ++ tl) := by
  subst hb
  simp only [tryUrlCCtar, matchLit_self_append]
  have hbne : ∀ c ∈ ccDist, (c != '/') = true := by decide
  have h1 : List.takeWhile (fun c => c != '/') (ccDist ++
      ('/' :: (lit "claude-code-releases/" ++ (u ++
        ('/' :: (lit "darwin-arm64/claude-code.tar.gz\n      " ++ tl)))))) =
      ccDist := takeWhile_splice hbne (by decide)
  have h2 : List.dropWhile (fun c => c != '/') (ccDist ++
      ('/' :: (lit "claude-code-releases/" ++ (u ++
        ('/' :: (lit "darwin-arm64/claude-code.tar.gz\n      " ++ tl)))))) =
      '/' :: (lit "claude-code-releases/" ++ (u ++
        ('/' :: (lit "darwin-arm64/claude-code.tar.gz\n      " ++ tl)))) :=
    dropWhile_splice hbne (by decide)
  rw [h1, h2, if_neg (by decide : ¬(ccDist = []))]
  have h3 : matchLit (lit "/claude-code-releases/")
      ('/' :: (lit "claude-code-releases/" ++ (u ++
        ('/' :: (lit "darwin-arm64/claude-code.tar.gz\n      " ++ tl))))) =
      some (u ++ ('/' :: (lit "darwin-arm64/claude-code.tar.gz\n      " ++ tl))) := by
    rw [show ('/' :: (lit "claude-code-releases/" ++ (u ++
        ('/' :: (lit "darwin-arm64/claude-code.tar.gz\n      " ++ tl)))) : List Char) =
      lit "/claude-code-releases/" ++ (u ++
        ('/' :: (lit "darwin-arm64/claude-code.tar.gz\n      " ++ tl))) from rfl]
    exact matchLit_self_append _ _
  simp only [h3]
  have hbu : ∀ c ∈ u, (c != '/') = true :=
    fun c hc => bne_of_verCh (by decide) c (hu c hc)
  have h4 : List.takeWhile (fun c => c != '/') (u ++
      ('/' :: (lit "darwin-arm64/claude-code.tar.gz\n      " ++ tl))) = u :=
    takeWhile_splice hbu (by decide)
  have h5 : List.dropWhile (fun c => c != '/') (u ++
      ('/' :: (lit "darwin-arm64/claude-code.tar.gz\n      " ++ tl))) =
      '/' :: (lit "darwin-arm64/claude-code.tar.gz\n      " ++ tl) :=
    dropWhile_splice hbu (by decide)
  rw [h4, if_neg hune]
  simp only [h5]
  have hsplit : lit "darwin-arm64/claude-code.tar.gz\n      " ++ tl =
      lit "darwin-arm64" ++ ('/' :: (lit "claude-code.tar.gz\n      " ++ tl)) := rfl
  rw [hsplit]
  have hbp : ∀ c ∈ lit "darwin-arm64", (c != '/') = true := by decide
  have h6 : List.takeWhile (fun c => c != '/') (lit "darwin-arm64" ++
      ('/' :: (lit "claude-code.tar.gz\n      " ++ tl))) = lit "darwin-arm64" :=
    takeWhile_splice hbp (by decide)
  have h7 : List.dropWhile (fun c => c != '/') (lit "darwin-arm64" ++
      ('/' :: (lit "claude-code.tar.gz\n      " ++ tl))) =
      '/' :: (lit "claude-code.tar.gz\n      " ++ tl) :=
    dropWhile_splice hbp (by decide)
  rw [h6, if_neg (by decide : ¬(lit "darwin-arm64" = []))]
  simp only [h7]
  have h8 : matchLit (lit "/claude-code.tar.gz")
      ('/' :: (lit "claude-code.tar.gz\n      " ++ tl)) =
      some (lit "\n      " ++ tl) := rfl
  simp only [h8]

/-- The claude-code selector-comment checksum substitution at the
checksum line whose comment carries the *same* selector. -/
theorem tryShaCC_site {sel cN c : List Char}
    (hhex : ∀ ch ∈ c, isHexCh ch = true) (hne : c ≠ [])
    {b : List Char} (tl : List Char)
    (hb : b = ']' :: (lit "\n      sha256: " ++ (c ++ ('\n' :: tl)))) :
    tryShaCC sel cN (lit "# [" ++ (sel ++ b)) =
      some (lit "# [" ++ sel ++ lit "]" ++ lit "\n      " ++ lit "sha256:" ++
        [' '] ++ cN, '\n' :: tl) := by
  subst hb
  simp only [tryShaCC]
  have h9 : matchLit (lit "# [" ++ sel ++ lit "]")
      (lit "# [" ++ (sel ++ (']' :: (lit "\n      sha256: " ++ (c ++ ('\n' :: tl)))))) =
      some (lit "\n      sha256: " ++ (c ++ ('\n' :: tl))) := by
    rw [show lit "# [" ++ sel ++ lit "]" = lit "# [" ++ (sel ++ lit "]") from
      List.append_assoc _ _ _]
    rw [matchLit_append_same (lit "# [") (sel ++ lit "]")
      (sel ++ (']' :: (lit "\n      sha256: " ++ (c ++ ('\n' :: tl))))),
      matchLit_append_same sel (lit "]")
        (']' :: (lit "\n      sha256: " ++ (c ++ ('\n' :: tl))))]
    rfl
  simp only [h9]
  have h1 : List.takeWhile isSpaceCh
      (lit "\n      sha256: " ++ (c ++ ('\n' :: tl))) = lit "\n      " := rfl
  have h2 : List.dropWhile isSpaceCh
      (lit "\n      sha256: " ++ (c ++ ('\n' :: tl))) =
      lit "sha256: " ++ (c ++ ('\n' :: tl)) := rfl
  rw [h1, h2, if_pos (by decide : ('\n' : Char) ∈ lit "\n      ")]
  have h3 : matchLit (lit "sha256:") (lit "sha256: " ++ (c ++ ('\n' :: tl))) =
      some (' ' :: (c ++ ('\n' :: tl))) := rfl
  simp only [h3]
  have hnospace : ∀ ch ∈ c, isSpaceCh ch = false :=
    fun ch hm => not_space_of_hexCh (hhex ch hm)
  have h4 : List.takeWhile isSpaceCh (' ' :: (c ++ ('\n' :: tl))) = [' '] := by
    rw [List.takeWhile_cons_of_pos (by decide), takeWhile_stop _ hne hnospace]
  have h5 : List.dropWhile isSpaceCh (' ' :: (c ++ ('\n' :: tl))) =
      c ++ ('\n' :: tl) := by
    rw [List.dropWhile_cons_of_pos (by decide), dropWhile_stop _ hne hnospace]
  rw [h4, h5]
  have h6 : List.takeWhile isHexCh (c ++ ('\n' :: tl)) = c :=
    takeWhile_splice hhex (by decide)
  have h7 : List.dropWhile isHexCh (c ++ ('\n' :: tl)) = '\n' :: tl :=
    dropWhile_splice hhex (by decide)
  rw [h6, h7, if_neg hne]

/-- The claude-code checksum substitution walks over an entire checksum
line carrying a *different* selector comment without touching it. -/
theorem subAll_ccShaLine_wrong {sel cNew sel' : List Char} {c R : List Char}
    (hhex : ∀ ch ∈ c, isHexCh ch = true)
    (hsel : SegSkip (tryShaCC sel cNew) sel')
    (hw : ∀ t, tryShaCC sel cNew (lit "# [" ++ (sel' ++ (']' :: t))) = none) :
    subAll (tryShaCC sel cNew)
        (lit "# [" ++ (sel' ++ (']' :: (lit "\n      sha256: " ++
          (c ++ ('\n' :: R)))))) =
      lit "# [" ++ (sel' ++ (']' :: (lit "\n      sha256: " ++
        (c ++ ('\n' :: subAll (tryShaCC sel cNew) R))))) := by
  have h0 : tryShaCC sel cNew (lit "# [" ++ (sel' ++ (']' ::
      (lit "\n      sha256: " ++ (c ++ ('\n' :: R)))))) = none := hw _
  have hsplit : (lit "# [" ++ (sel' ++ (']' ::
        (lit "\n      sha256: " ++ (c ++ ('\n' :: R))))) : List Char) =
      '#' :: (lit " [" ++ (sel' ++ (']' ::
        (lit "\n      sha256: " ++ (c ++ ('\n' :: R)))))) := rfl
  rw [hsplit]
  have h0' : tryShaCC sel cNew ('#' :: (lit " [" ++ (sel' ++ (']' ::
      (lit "\n      sha256: " ++ (c ++ ('\n' :: R))))))) = none := h0
  rw [subAll_cons_none h0']
  have hseg1 : SegSkip (tryShaCC sel cNew) (lit " [") := by
    repeat first
    | exact segSkip_nil _
    | refine segSkip_cons (fun b => rfl) ?_
  rw [subAll_segskip hseg1, subAll_segskip hsel]
  have h2 : tryShaCC sel cNew (']' ::
      (lit "\n      sha256: " ++ (c ++ ('\n' :: R)))) = none := rfl
  rw [subAll_cons_none h2]
  have hseg2 : SegSkip (tryShaCC sel cNew) (lit "\n      sha256: ") := by
    repeat first
    | exact segSkip_nil _
    | refine segSkip_cons (fun b => rfl) ?_
  rw [subAll_segskip hseg2]
  rw [subAll_splice_cons (tryShaCC_hstart sel cNew) isHexCh 0 (by decide)
    (by decide) '\n' (by decide) hhex]
  have h3 : tryShaCC sel cNew ('\n' :: R) = none := rfl
  rw [subAll_cons_none h3]
  rfl

/-- The first-occurrence `version: "[^\"]+"` substitution rewrites exactly
the version field of the claude-code family. -/
theorem renderC_verQ (w : List Char) {v : List Char} (u c1 c2 ds j : List Char)
    (hne : v ≠ []) (hv : ∀ c ∈ v, isVerCh c = true) :
    subFirst (tryVerQ w) (renderC v u c1 c2 ds j) =
      renderC w u c1 c2 ds j := by
  have hs1 : SegSkip (tryVerQ w) (lit "package:") := by
    repeat first
    | exact segSkip_nil _
    | refine segSkip_cons (fun b => rfl) ?_
  have hs2 : SegSkip (tryVerQ w) (lit "\n  name: claude-code\n  ") := by
    repeat first
    | exact segSkip_nil _
    | refine segSkip_cons (fun b => rfl) ?_
  unfold renderC
  rw [subFirst_segskip hs1, subFirst_segskip hs2]
  rw [subFirst_found (by exact List.cons_ne_nil _ _) (tryVerQ_site hne hv _ rfl)]
  simp only [List.append_assoc, List.cons_append, List.singleton_append]
  rfl

/-- The claude-code `tar.gz` URL substitution rewrites the version
segment of *both* platform URLs (it is global and version-keyed, not
selector-scoped) and nothing else. -/
theorem renderC_url (w : List Char) {v u c1 c2 ds j : List Char}
    (hv : ∀ c ∈ v, isVerCh c = true) (hune : u ≠ [])
    (hu : ∀ c ∈ u, isVerCh c = true)
    (hc1 : ∀ c ∈ c1, isHexCh c = true) (hc2 : ∀ c ∈ c2, isHexCh c = true)
    (hds : ∀ c ∈ ds, isDigitCh c = true) (hj : ∀ c ∈ j, isJunkCh c = true) :
    subAll (tryUrlCCtar w) (renderC v u c1 c2 ds j) =
      renderC v w c1 c2 ds j := by
  have hcon := consumes_tryUrlCCtar w
  have hc1v : ∀ c ∈ c1, isVerCh c = true := fun c hc => verCh_of_hexCh (hc1 c hc)
  have hc2v : ∀ c ∈ c2, isVerCh c = true := fun c hc => verCh_of_hexCh (hc2 c hc)
  have hdsv : ∀ c ∈ ds, isVerCh c = true := fun c hc => verCh_of_digit (hds c hc)
  have hs1 : SegSkip (tryUrlCCtar w) (lit "package:") := by
    repeat first
    | exact segSkip_nil _
    | refine segSkip_cons (fun b => rfl) ?_
  have hs2 : SegSkip (tryUrlCCtar w) (lit "\n  name: claude-code\n  ") := by
    repeat first
    | exact segSkip_nil _
    | refine segSkip_cons (fun b => rfl) ?_
  have hs3 : SegSkip (tryUrlCCtar w) (lit "version: \"") := by
    repeat first
    | exact segSkip_nil _
    | refine segSkip_cons (fun b => rfl) ?_
  have hs4 : SegSkip (tryUrlCCtar w)
      ('"' :: lit "\n\nsource:\n  - if: osx and x86_64\n    then:\n      url: ") := by
    repeat first
    | exact segSkip_nil _
    | refine segSkip_cons (fun b => rfl) ?_
  have hs15 : SegSkip (tryUrlCCtar w) (lit "\n      ") := by
    repeat first
    | exact segSkip_nil _
    | refine segSkip_cons (fun b => rfl) ?_
  have hs7 : SegSkip (tryUrlCCtar w) (lit "# [") := by
    repeat first
    | exact segSkip_nil _
    | refine segSkip_cons (fun b => rfl) ?_
  have hs8 : SegSkip (tryUrlCCtar w) (lit "osx and x86_64") := by
    repeat first
    | exact segSkip_nil _
    | refine segSkip_cons (fun b => rfl) ?_
  have hs8b : SegSkip (tryUrlCCtar w) (lit "osx and arm64") := by
    repeat first
    | exact segSkip_nil _
    | refine segSkip_cons (fun b => rfl) ?_
  have hs9 : SegSkip (tryUrlCCtar w) (']' :: lit "\n      sha256: ") := by
    repeat first
    | exact segSkip_nil _
    | refine segSkip_cons (fun b => rfl) ?_
  have hs10 : SegSkip (tryUrlCCtar w)
      ('\n' :: lit "  - if: osx and arm64\n    then:\n      url: ") := by
    repeat first
    | exact segSkip_nil _
    | refine segSkip_cons (fun b => rfl) ?_
  have hs11 : SegSkip (tryUrlCCtar w) ('\n' :: lit "\nbuild:\n  ") := by
    repeat first
    | exact segSkip_nil _
    | refine segSkip_cons (fun b => rfl) ?_
  have hs12 : SegSkip (tryUrlCCtar w) (lit "number: ") := by
    repeat first
    | exact segSkip_nil _
    | refine segSkip_cons (fun b => rfl) ?_
  have hs13 : SegSkip (tryUrlCCtar w) ('\n' :: lit "\nabout:\n  summary: ") := by
    repeat first
    | exact segSkip_nil _
    | refine segSkip_cons (fun b => rfl) ?_
  have hs14 : SegSkip (tryUrlCCtar w) ['\n'] := by
    repeat first
    | exact segSkip_nil _
    | refine segSkip_cons (fun b => rfl) ?_
  unfold renderC
  rw [subAll_segskip hs1, subAll_segskip hs2, subAll_segskip hs3]
  rw [subAll_splice_cons (tryUrlCCtar_hstart w) isVerCh 5 (by decide)
    (by decide) '"' (by decide) hv]
  rw [subAll_segskip_cons hs4]
  rw [subAll_match hcon (tryUrlCCtar_site1 w hune hu _ rfl)]
  rw [subAll_segskip hs15, subAll_segskip hs7, subAll_segskip hs8]
  rw [subAll_segskip_cons hs9]
  rw [subAll_splice_cons (tryUrlCCtar_hstart w) isVerCh 5 (by decide)
    (by decide) '\n' (by decide) hc1v]
  rw [subAll_segskip_cons hs10]
  rw [subAll_match hcon (tryUrlCCtar_site2 w hune hu _ rfl)]
  rw [subAll_segskip hs15, subAll_segskip hs7, subAll_segskip hs8b]
  rw [subAll_segskip_cons hs9]
  rw [subAll_splice_cons (tryUrlCCtar_hstart w) isVerCh 5 (by decide)
    (by decide) '\n' (by decide) hc2v]
  rw [subAll_segskip_cons hs11, subAll_segskip hs12]
  rw [subAll_splice_cons (tryUrlCCtar_hstart w) isVerCh 5 (by decide)
    (by decide) '\n' (by decide) hdsv]
  rw [subAll_segskip_cons hs13]
  rw [subAll_splice_cons (tryUrlCCtar_hstart w) isJunkCh 5 (by decide)
    (by decide) '\n' (by decide) hj]
  rw [subAll_segskip_total hs14]
  simp only [List.append_assoc, List.cons_append, List.singleton_append]
  rfl

/-- The `osx and x86_64` claude-code checksum substitution rewrites
exactly the first checksum field of the claude-code family. -/
theorem renderC_sha1 (cN : List Char) {v u c1 c2 ds j : List Char}
    (hv : ∀ c ∈ v, isVerCh c = true) (hu : ∀ c ∈ u, isVerCh c = true)
    (hc1 : Hex64 c1) (hc2 : Hex64 c2)
    (hds : ∀ c ∈ ds, isDigitCh c = true) (hj : ∀ c ∈ j, isJunkCh c = true) :
    subAll (tryShaCC (lit "osx and x86_64") cN) (renderC v u c1 c2 ds j) =
      renderC v u cN c2 ds j := by
  have hcon := consumes_tryShaCC (lit "osx and x86_64") cN
  have hdsv : ∀ c ∈ ds, isVerCh c = true := fun c hc => verCh_of_digit (hds c hc)
  have hs1 : SegSkip (tryShaCC (lit "osx and x86_64") cN) (lit "package:") := by
    repeat first
    | exact segSkip_nil _
    | refine segSkip_cons (fun b => rfl) ?_
  have hs2 : SegSkip (tryShaCC (lit "osx and x86_64") cN)
      (lit "\n  name: claude-code\n  ") := by
    repeat first
    | exact segSkip_nil _
    | refine segSkip_cons (fun b => rfl) ?_
  have hs3 : SegSkip (tryShaCC (lit "osx and x86_64") cN) (lit "version: \"") := by
    repeat first
    | exact segSkip_nil _
    | refine segSkip_cons (fun b => rfl) ?_
  have hs4 : SegSkip (tryShaCC (lit "osx and x86_64") cN)
      ('"' :: lit "\n\nsource:\n  - if: osx and x86_64\n    then:\n      url: ") := by
    repeat first
    | exact segSkip_nil _
    | refine segSkip_cons (fun b => rfl) ?_
  have hsB : SegSkip (tryShaCC (lit "osx and x86_64") cN) ccUrlBase := by
    repeat first
    | exact segSkip_nil _
    | refine segSkip_cons (fun b => rfl) ?_
  have hsD : SegSkip (tryShaCC (lit "osx and x86_64") cN) ccDist := by
    repeat first
    | exact segSkip_nil _
    | refine segSkip_cons (fun b => rfl) ?_
  have hs5 : SegSkip (tryShaCC (lit "osx and x86_64") cN)
      ('/' :: lit "claude-code-releases/") := by
    repeat first
    | exact segSkip_nil _
    | refine segSkip_cons (fun b => rfl) ?_
  have hs6 : SegSkip (tryShaCC (lit "osx and x86_64") cN)
      ('/' :: lit "darwin-x64/claude-code.tar.gz\n      ") := by
    repeat first
    | exact segSkip_nil _
    | refine segSkip_cons (fun b => rfl) ?_
  have hs6b : SegSkip (tryShaCC (lit "osx and x86_64") cN)
      ('/' :: lit "darwin-arm64/claude-code.tar.gz\n      ") := by
    repeat first
    | exact segSkip_nil _
    | refine segSkip_cons (fun b => rfl) ?_
  have hs10 : SegSkip (tryShaCC (lit "osx and x86_64") cN)
      ('\n' :: lit "  - if: osx and arm64\n    then:\n      url: ") := by
    repeat first
    | exact segSkip_nil _
    | refine segSkip_cons (fun b => rfl) ?_
  have hsArm : SegSkip (tryShaCC (lit "osx and x86_64") cN)
      (lit "osx and arm64") := by
    repeat first
    | exact segSkip_nil _
    | refine segSkip_cons (fun b => rfl) ?_
  have hs11b : SegSkip (tryShaCC (lit "osx and x86_64") cN)
      (lit "\nbuild:\n  ") := by
    repeat first
    | exact segSkip_nil _
    | refine segSkip_cons (fun b => rfl) ?_
  have hs12 : SegSkip (tryShaCC (lit "osx and x86_64") cN) (lit "number: ") := by
    repeat first
    | exact segSkip_nil _
    | refine segSkip_cons (fun b => rfl) ?_
  have hs13 : SegSkip (tryShaCC (lit "osx and x86_64") cN)
      ('\n' :: lit "\nabout:\n  summary: ") := by
    repeat first
    | exact segSkip_nil _
    | refine segSkip_cons (fun b => rfl) ?_
  have hs14 : SegSkip (tryShaCC (lit "osx and x86_64") cN) ['\n'] := by
    repeat first
    | exact segSkip_nil _
    | refine segSkip_cons (fun b => rfl) ?_
  unfold renderC
  rw [subAll_segskip hs1, subAll_segskip hs2, subAll_segskip hs3]
  rw [subAll_splice_cons (tryShaCC_hstart (lit "osx and x86_64") cN) isVerCh 0
    (by decide) (by decide) '"' (by decide) hv]
  rw [subAll_segskip_cons hs4, subAll_segskip hsB, subAll_segskip hsD]
  rw [subAll_segskip_cons hs5]
  rw [subAll_splice_cons (tryShaCC_hstart (lit "osx and x86_64") cN) isVerCh 0
    (by decide) (by decide) '/' (by decide) hu]
  rw [subAll_segskip_cons hs6]
  rw [subAll_match hcon (tryShaCC_site hc1.2 (hex64_ne_nil hc1) _ rfl)]
  rw [subAll_segskip_cons hs10, subAll_segskip hsB, subAll_segskip hsD]
  rw [subAll_segskip_cons hs5]
  rw [subAll_splice_cons (tryShaCC_hstart (lit "osx and x86_64") cN) isVerCh 0
    (by decide) (by decide) '/' (by decide) hu]
  rw [subAll_segskip_cons hs6b]
  rw [subAll_ccShaLine_wrong hc2.2 hsArm (fun t => rfl)]
  rw [subAll_segskip hs11b, subAll_segskip hs12]
  rw [subAll_splice_cons (tryShaCC_hstart (lit "osx and x86_64") cN) isVerCh 0
    (by decide) (by decide) '\n' (by decide) hdsv]
  rw [subAll_segskip_cons hs13]
  rw [subAll_splice_cons (tryShaCC_hstart (lit "osx and x86_64") cN) isJunkCh 0
    (by decide) (by decide) '\n' (by decide) hj]
  rw [subAll_segskip_total hs14]
  simp only [List.append_assoc, List.cons_append, List.singleton_append]
  rfl

/-- The `osx and arm64` claude-code checksum substitution rewrites
exactly the second checksum field of the claude-code family. -/
theorem renderC_sha2 (cN : List Char) {v u c1 c2 ds j : List Char}
    (hv : ∀ c ∈ v, isVerCh c = true) (hu : ∀ c ∈ u, isVerCh c = true)
    (hc1 : Hex64 c1) (hc2 : Hex64 c2)
    (hds : ∀ c ∈ ds, isDigitCh c = true) (hj : ∀ c ∈ j, isJunkCh c = true) :
    subAll (tryShaCC (lit "osx and arm64") cN) (renderC v u c1 c2 ds j) =
      renderC v u c1 cN ds j := by
  have hcon := consumes_tryShaCC (lit "osx and arm64") cN
  have hdsv : ∀ c ∈ ds, isVerCh c = true := fun c hc => verCh_of_digit (hds c hc)
  have hs1 : SegSkip (tryShaCC (lit "osx and arm64") cN) (lit "package:") := by
    repeat first
    | exact segSkip_nil _
    | refine segSkip_cons (fun b => rfl) ?_
  have hs2 : SegSkip (tryShaCC (lit "osx and arm64") cN)
      (lit "\n  name: claude-code\n  ") := by
    repeat first
    | exact segSkip_nil _
    | refine segSkip_cons (fun b => rfl) ?_
  have hs3 : SegSkip (tryShaCC (lit "osx and arm64") cN) (lit "version: \"") := by
    repeat first
    | exact segSkip_nil _
    | refine segSkip_cons (fun b => rfl) ?_
  have hs4 : SegSkip (tryShaCC (lit "osx and arm64") cN)
      ('"' :: lit "\n\nsource:\n  - if: osx and x86_64\n    then:\n      url: ") := by
    repeat first
    | exact segSkip_nil _
    | refine segSkip_cons (fun b => rfl) ?_
  have hsB : SegSkip (tryShaCC (lit "osx and arm64") cN) ccUrlBase := by
    repeat first
    | exact segSkip_nil _
    | refine segSkip_cons (fun b => rfl) ?_
  have hsD : SegSkip (tryShaCC (lit "osx and arm64") cN) ccDist := by
    repeat first
    | exact segSkip_nil _
    | refine segSkip_cons (fun b => rfl) ?_
  have hs5 : SegSkip (tryShaCC (lit "osx and arm64") cN)
      ('/' :: lit "claude-code-releases/") := by
    repeat first
    | exact segSkip_nil _
    | refine segSkip_cons (fun b => rfl) ?_
  have hs6 : SegSkip (tryShaCC (lit "osx and arm64") cN)
      ('/' :: lit "darwin-x64/claude-code.tar.gz\n      ") := by
    repeat first
    | exact segSkip_nil _
    | refine segSkip_cons (fun b => rfl) ?_
  have hs6b : SegSkip (tryShaCC (lit "osx and arm64") cN)
      ('/' :: lit "darwin-arm64/claude-code.tar.gz\n      ") := by
    repeat first
    | exact segSkip_nil _
    | refine segSkip_cons (fun b => rfl) ?_
  have hs10 : SegSkip (tryShaCC (lit "osx and arm64") cN)
      (lit "  - if: osx and arm64\n    then:\n      url: ") := by
    repeat first
    | exact segSkip_nil _
    | refine segSkip_cons (fun b => rfl) ?_
  have hsX86 : SegSkip (tryShaCC (lit "osx and arm64") cN)
      (lit "osx and x86_64") := by
    repeat first
    | exact segSkip_nil _
    | refine segSkip_cons (fun b => rfl) ?_
  have hs11 : SegSkip (tryShaCC (lit "osx and arm64") cN)
      ('\n' :: lit "\nbuild:\n  ") := by
    repeat first
    | exact segSkip_nil _
    | refine segSkip_cons (fun b => rfl) ?_
  have hs12 : SegSkip (tryShaCC (lit "osx and arm64") cN) (lit "number: ") := by
    repeat first
    | exact segSkip_nil _
    | refine segSkip_cons (fun b => rfl) ?_
  have hs13 : SegSkip (tryShaCC (lit "osx and arm64") cN)
      ('\n' :: lit "\nabout:\n  summary: ") := by
    repeat first
    | exact segSkip_nil _
    | refine segSkip_cons (fun b => rfl) ?_
  have hs14 : SegSkip (tryShaCC (lit "osx and arm64") cN) ['\n'] := by
    repeat first
    | exact segSkip_nil _
    | refine segSkip_cons (fun b => rfl) ?_
  unfold renderC
  rw [subAll_segskip hs1, subAll_segskip hs2, subAll_segskip hs3]
  rw [subAll_splice_cons (tryShaCC_hstart (lit "osx and arm64") cN) isVerCh 0
    (by decide) (by decide) '"' (by decide) hv]
  rw [subAll_segskip_cons hs4, subAll_segskip hsB, subAll_segskip hsD]
  rw [subAll_segskip_cons hs5]
  rw [subAll_splice_cons (tryShaCC_hstart (lit "osx and arm64") cN) isVerCh 0
    (by decide) (by decide) '/' (by decide) hu]
  rw [subAll_segskip_cons hs6]
  rw [subAll_ccShaLine_wrong hc1.2 hsX86 (fun t => rfl)]
  rw [subAll_segskip hs10, subAll_segskip hsB, subAll_segskip hsD]
  rw [subAll_segskip_cons hs5]
  rw [subAll_splice_cons (tryShaCC_hstart (lit "osx and arm64") cN) isVerCh 0
    (by decide) (by decide) '/' (by decide) hu]
  rw [subAll_segskip_cons hs6b]
  rw [subAll_match hcon (tryShaCC_site hc2.2 (hex64_ne_nil hc2) _ rfl)]
  rw [subAll_segskip_cons hs11]
  rw [subAll_segskip hs12]
  rw [subAll_splice_cons (tryShaCC_hstart (lit "osx and arm64") cN) isVerCh 0
    (by decide) (by decide) '\n' (by decide) hdsv]
  rw [subAll_segskip_cons hs13]
  rw [subAll_splice_cons (tryShaCC_hstart (lit "osx and arm64") cN) isJunkCh 0
    (by decide) (by decide) '\n' (by decide) hj]
  rw [subAll_segskip_total hs14]
  simp only [List.append_assoc, List.cons_append, List.singleton_append]
  rfl

/-- The global `number: \d+` → `number: 0` substitution rewrites exactly
the build-number field of the claude-code family. -/
theorem renderC_number {v u c1 c2 ds j : List Char}
    (hv : ∀ c ∈ v, isVerCh c = true) (hu : ∀ c ∈ u, isVerCh c = true)
    (hc1 : ∀ c ∈ c1, isHexCh c = true) (hc2 : ∀ c ∈ c2, isHexCh c = true)
    (hne : ds ≠ []) (hds : ∀ c ∈ ds, isDigitCh c = true)
    (hj : ∀ c ∈ j, isJunkCh c = true) :
    subAll tryNumber (renderC v u c1 c2 ds j) =
      renderC v u c1 c2 (lit "0") j := by
  have hcon := consumes_tryNumber
  have hc1v : ∀ c ∈ c1, isVerCh c = true := fun c hc => verCh_of_hexCh (hc1 c hc)
  have hc2v : ∀ c ∈ c2, isVerCh c = true := fun c hc => verCh_of_hexCh (hc2 c hc)
  have hs1 : SegSkip tryNumber (lit "package:") := by
    repeat first
    | exact segSkip_nil _
    | refine segSkip_cons (fun b => rfl) ?_
  have hs2 : SegSkip tryNumber (lit "\n  name: claude-code\n  ") := by
    repeat first
    | exact segSkip_nil _
    | refine segSkip_cons (fun b => rfl) ?_
  have hs3 : SegSkip tryNumber (lit "version: \"") := by
    repeat first
    | exact segSkip_nil _
    | refine segSkip_cons (fun b => rfl) ?_
  have hs4 : SegSkip tryNumber
      ('"' :: lit "\n\nsource:\n  - if: osx and x86_64\n    then:\n      url: ") := by
    repeat first
    | exact segSkip_nil _
    | refine segSkip_cons (fun b => rfl) ?_
  have hsB : SegSkip tryNumber ccUrlBase := by
    repeat first
    | exact segSkip_nil _
    | refine segSkip_cons (fun b => rfl) ?_
  have hsD : SegSkip tryNumber ccDist := by
    repeat first
    | exact segSkip_nil _
    | refine segSkip_cons (fun b => rfl) ?_
  have hs5 : SegSkip tryNumber ('/' :: lit "claude-code-releases/") := by
    repeat first
    | exact segSkip_nil _
    | refine segSkip_cons (fun b => rfl) ?_
  have hs6 : SegSkip tryNumber
      ('/' :: lit "darwin-x64/claude-code.tar.gz\n      ") := by
    repeat first
    | exact segSkip_nil _
    | refine segSkip_cons (fun b => rfl) ?_
  have hs6b : SegSkip tryNumber
      ('/' :: lit "darwin-arm64/claude-code.tar.gz\n      ") := by
    repeat first
    | exact segSkip_nil _
    | refine segSkip_cons (fun b => rfl) ?_
  have hs7 : SegSkip tryNumber (lit "# [") := by
    repeat first
    | exact segSkip_nil _
    | refine segSkip_cons (fun b => rfl) ?_
  have hs8 : SegSkip tryNumber (lit "osx and x86_64") := by
    repeat first
    | exact segSkip_nil _
    | refine segSkip_cons (fun b => rfl) ?_
  have hs8b : SegSkip tryNumber (lit "osx and arm64") := by
    repeat first
    | exact segSkip_nil _
    | refine segSkip_cons (fun b => rfl) ?_
  have hs9 : SegSkip tryNumber (']' :: lit "\n      sha256: ") := by
    repeat first
    | exact segSkip_nil _
    | refine segSkip_cons (fun b => rfl) ?_
  have hs10 : SegSkip tryNumber
      ('\n' :: lit "  - if: osx and arm64\n    then:\n      url: ") := by
    repeat first
    | exact segSkip_nil _
    | refine segSkip_cons (fun b => rfl) ?_
  have hs11 : SegSkip tryNumber ('\n' :: lit "\nbuild:\n  ") := by
    repeat first
    | exact segSkip_nil _
    | refine segSkip_cons (fun b => rfl) ?_
  have hs13 : SegSkip tryNumber ('\n' :: lit "\nabout:\n  summary: ") := by
    repeat first
    | exact segSkip_nil _
    | refine segSkip_cons (fun b => rfl) ?_
  have hs14 : SegSkip tryNumber ['\n'] := by
    repeat first
    | exact segSkip_nil _
    | refine segSkip_cons (fun b => rfl) ?_
  unfold renderC
  rw [subAll_segskip hs1, subAll_segskip hs2, subAll_segskip hs3]
  rw [subAll_splice_cons tryNumber_hstart isVerCh 6 (by decide) (by decide)
    '"' (by decide) hv]
  rw [subAll_segskip_cons hs4, subAll_segskip hsB, subAll_segskip hsD]
  rw [subAll_segskip_cons hs5]
  rw [subAll_splice_cons tryNumber_hstart isVerCh 6 (by decide) (by decide)
    '/' (by decide) hu]
  rw [subAll_segskip_cons hs6, subAll_segskip hs7, subAll_segskip hs8]
  rw [subAll_segskip_cons hs9]
  rw [subAll_splice_cons tryNumber_hstart isVerCh 6 (by decide) (by decide)
    '\n' (by decide) hc1v]
  rw [subAll_segskip_cons hs10, subAll_segskip hsB, subAll_segskip hsD]
  rw [subAll_segskip_cons hs5]
  rw [subAll_splice_cons tryNumber_hstart isVerCh 6 (by decide) (by decide)
    '/' (by decide) hu]
  rw [subAll_segskip_cons hs6b, subAll_segskip hs7, subAll_segskip hs8b]
  rw [subAll_segskip_cons hs9]
  rw [subAll_splice_cons tryNumber_hstart isVerCh 6 (by decide) (by decide)
    '\n' (by decide) hc2v]
  rw [subAll_segskip_cons hs11]
  rw [subAll_match hcon (tryNumber_site hne hds _ rfl)]
  rw [subAll_segskip_cons hs13]
  rw [subAll_splice_cons tryNumber_hstart isJunkCh 6 (by decide) (by decide)
    '\n' (by decide) hj]
  rw [subAll_segskip_total hs14]
  rfl

/-! ## The end-to-end characterisation of the claude-code rewriter -/

/-- `update-claude-code.py` `update_recipe` on a well-formed claude-code
recipe document, for a manifest carrying the two `osx` platforms: the
version field becomes the resolved version, *both* URLs are rewritten to
the resolved version as soon as at least one manifest checksum is truthy,
each checksum is overwritten exactly when its platform's manifest
checksum is truthy, and the build number is reset to `0`
*unconditionally* — even when nothing else changed. -/
theorem claudeUpdateRecipe_renderC (version o1 o2 : List Char)
    {v u c1 c2 ds j : List Char}
    (hver : VerStr version) (hv : VerStr v) (hu : VerStr u)
    (hc1 : Hex64 c1) (hc2 : Hex64 c2) (hds : DigStr ds) (hj : JunkStr j)
    (ho1 : o1 ≠ [] → Hex64 o1) (ho2 : o2 ≠ [] → Hex64 o2) :
    claudeUpdateRecipe version
        [("darwin-x64", some o1), ("darwin-arm64", some o2)]
        (renderC v u c1 c2 ds j) =
      renderC version (if o1 = [] ∧ o2 = [] then u else version)
        (if o1 = [] then c1 else o1) (if o2 = [] then c2 else o2)
        (lit "0") j := by
  obtain ⟨hvne, hvch⟩ := hv
  obtain ⟨hverne, hverch⟩ := hver
  obtain ⟨hune, huch⟩ := hu
  have hverq : subFirst (tryVerQ version) (renderC v u c1 c2 ds j) =
      renderC version u c1 c2 ds j :=
    renderC_verQ version u c1 c2 ds j hvne hvch
  by_cases h1 : o1 = []
  · by_cases h2 : o2 = []
    · subst h1; subst h2
      have hnum : subAll tryNumber (renderC version u c1 c2 ds j) =
          renderC version u c1 c2 (lit "0") j :=
        renderC_number hverch huch hc1.2 hc2.2 hds.1 hds.2 hj
      simp only [claudeUpdateRecipe, hverq]
      simp [ccPlatformMapping, List.lookup, hnum]
    · have hx2 : Hex64 o2 := ho2 h2
      have hurl : subAll (tryUrlCCtar version) (renderC version u c1 c2 ds j) =
          renderC version version c1 c2 ds j :=
        renderC_url version hverch hune huch hc1.2 hc2.2 hds.2 hj
      have hsha2 : subAll (tryShaCC (lit "osx and arm64") o2)
          (renderC version version c1 c2 ds j) =
          renderC version version c1 o2 ds j :=
        renderC_sha2 o2 hverch hverch hc1 hc2 hds.2 hj
      have hnum : subAll tryNumber (renderC version version c1 o2 ds j) =
          renderC version version c1 o2 (lit "0") j :=
        renderC_number hverch hverch hc1.2 hx2.2 hds.1 hds.2 hj
      subst h1
      simp only [claudeUpdateRecipe, hverq]
      simp [ccPlatformMapping, List.lookup, h2, hurl, hsha2, hnum]
  · have hx1 : Hex64 o1 := ho1 h1
    have hurl : subAll (tryUrlCCtar version) (renderC version u c1 c2 ds j) =
        renderC version version c1 c2 ds j :=
      renderC_url version hverch hune huch hc1.2 hc2.2 hds.2 hj
    have hsha1 : subAll (tryShaCC (lit "osx and x86_64") o1)
        (renderC version version c1 c2 ds j) =
        renderC version version o1 c2 ds j :=
      renderC_sha1 o1 hverch hverch hc1 hc2 hds.2 hj
    by_cases h2 : o2 = []
    · subst h2
      have hnum : subAll tryNumber (renderC version version o1 c2 ds j) =
          renderC version version o1 c2 (lit "0") j :=
        renderC_number hverch hverch hx1.2 hc2.2 hds.1 hds.2 hj
      simp only [claudeUpdateRecipe, hverq]
      simp [ccPlatformMapping, List.lookup, h1, hurl, hsha1, hnum]
    · have hx2 : Hex64 o2 := ho2 h2
      have hurl2 : subAll (tryUrlCCtar version)
          (renderC version version o1 c2 ds j) =
          renderC version version o1 c2 ds j :=
        renderC_url version hverch hverne hverch hx1.2 hc2.2 hds.2 hj
      have hsha2 : subAll (tryShaCC (lit "osx and arm64") o2)
          (renderC version version o1 c2 ds j) =
          renderC version version o1 o2 ds j :=
        renderC_sha2 o2 hverch hverch hx1 hc2 hds.2 hj
      have hnum : subAll tryNumber (renderC version version o1 o2 ds j) =
          renderC version version o1 o2 (lit "0") j :=
        renderC_number hverch hverch hx1.2 hx2.2 hds.1 hds.2 hj
      simp only [claudeUpdateRecipe, hverq]
      simp [ccPlatformMapping, List.lookup, h1, h2, hurl, hsha1, hurl2,
        hsha2, hnum]

/-! ## The ralph-orchestrator recipe family

`renderR v u c1 c2 ds j` is the ralph-orchestrator recipe document for
the two `osx` platforms: package version `v`, URL version segment `u` in
both `if:`-block URLs, per-block checksums `c1` (`osx and x86_64`) and
`c2` (`osx and arm64`), build number `ds` and a trailing free-form
comment `j`. -/

def renderR (v u c1 c2 ds j : List Char) : List Char :=
  lit "package:" ++ (lit "\n  name: ralph-orchestrator\n  " ++ (
  lit "version: \"" ++ (v ++ ('"' :: (lit "\n\nsource:\n  - " ++ (
  lit "if: " ++ (lit "osx and x86_64" ++ ('\n' :: (
  lit "    then:\n      " ++ (lit "url: " ++ (ralphUrlPrefix ++ (u ++ (
  '/' :: (lit "ralph-cli-x86_64-apple-darwin.tar.xz" ++ ('\n' :: (
  lit "      " ++ (lit "sha256: " ++ (c1 ++ ('\n' :: (lit "  - " ++ (
  lit "if: " ++ (lit "osx and arm64" ++ ('\n' :: (
  lit "    then:\n      " ++ (lit "url: " ++ (ralphUrlPrefix ++ (u ++ (
  '/' :: (lit "ralph-cli-aarch64-apple-darwin.tar.xz" ++ ('\n' :: (
  lit "      " ++ (lit "sha256: " ++ (c2 ++ ('\n' :: (
  lit "\nbuild:\n  " ++ (lit "number: " ++ (ds ++ ('\n' :: (
  lit "\nabout:\n  summary: " ++ (j ++ (
  ['\n'])))))))))))))))))))))))))))))))))))))))))

theorem takeWhile_append_pass {p : Char → Bool} {a : List Char} (b : List Char)
    (ha : ∀ c ∈ a, p c = true) :
    (a ++ b).takeWhile p = a ++ b.takeWhile p := by
  induction a with
  | nil => simp
  | cons c cs ih =>
    rw [List.cons_append, List.takeWhile_cons_of_pos (ha c (List.mem_cons_self c cs)),
      ih (fun d hd => ha d (List.mem_cons_of_mem c hd)), List.cons_append]

theorem dropWhile_append_pass {p : Char → Bool} {a : List Char} (b : List Char)
    (ha : ∀ c ∈ a, p c = true) :
    (a ++ b).dropWhile p = b.dropWhile p := by
  induction a with
  | nil => simp
  | cons c cs ih =>
    rw [List.cons_append, List.dropWhile_cons_of_pos (ha c (List.mem_cons_self c cs)),
      ih (fun d hd => ha d (List.mem_cons_of_mem c hd))]

theorem consumes_tryUrlR (new : List Char) : Consumes (tryUrlR new) := by
  intro s r rem h
  simp only [tryUrlR] at h
  split at h
  · exact absurd h (by simp)
  · rename_i s1 hm
    split at h
    · exact absurd h (by simp)
    · split at h
      · rename_i rest hm2
        simp only [Option.some.injEq, Prod.mk.injEq] at h
        have h1 := length_of_matchLit hm
        have h2 := length_dropWhile_le' (fun c => c != '/') s1
        rw [hm2] at h2
        have h3 : 0 < ralphUrlPrefix.length := by simp [ralphUrlPrefix, lit]
        rw [← h.2]
        simp only [List.length_cons] at h2
        omega
      · exact absurd h (by simp)

theorem consumes_tryShaR (cond c : List Char) : Consumes (tryShaR cond c) := by
  intro s r rem h
  simp only [tryShaR] at h
  split at h
  · exact absurd h (by simp)
  · rename_i s1 hm
    split at h
    · exact absurd h (by simp)
    · split at h
      · exact absurd h (by simp)
      · rename_i s2 hm2
        split at h
        · exact absurd h (by simp)
        · split at h
          · exact absurd h (by simp)
          · rename_i s3 hm3
            split at h
            · exact absurd h (by simp)
            · split at h
              · exact absurd h (by simp)
              · split at h
                · exact absurd h (by simp)
                · rename_i s5 hm5
                  split at h
                  · exact absurd h (by simp)
                  · simp only [Option.some.injEq, Prod.mk.injEq] at h
                    have h1 := length_of_matchLit hm
                    have hA := length_dropWhile_le' isSpaceCh s1
                    have h2 := length_of_matchLit hm2
                    have hB := length_dropWhile_le' isSpaceCh s2
                    have h3 := length_of_matchLit hm3
                    have hC := length_dropWhile_le' (fun c => c != '\n') s3
                    have hD := length_dropWhile_le' isSpaceCh
                      (s3.dropWhile (fun c => c != '\n'))
                    have h5 := length_of_matchLit hm5
                    have hE := length_dropWhile_le' isHexCh s5
                    rw [← h.2]
                    simp [lit] at h1 h2 h3 h5
                    omega

/-- The ralph-orchestrator URL substitution at a URL site. -/
theorem tryUrlR_site {u : List Char} (w : List Char) (hne : u ≠ [])
    (hu : ∀ c ∈ u, isVerCh c = true) {b : List Char} (tl : List Char)
    (hb : b = '/' :: tl) :
    tryUrlR w (ralphUrlPrefix ++ (u ++ b)) =
      some (ralphUrlPrefix ++ (w ++ ['/']), tl) := by
  subst hb
  have h1 : (u ++ '/' :: tl).takeWhile (fun c => c != '/') = u :=
    takeWhile_splice (fun c hc => bne_of_verCh (by decide) c (hu c hc)) (by simp)
  have h2 : (u ++ '/' :: tl).dropWhile (fun c => c != '/') = '/' :: tl :=
    dropWhile_splice (fun c hc => bne_of_verCh (by decide) c (hu c hc)) (by simp)
  rw [show ralphUrlPrefix ++ (u ++ '/' :: tl) =
    ralphUrlPrefix ++ ((u ++ '/' :: tl) : List Char) from rfl]
  simp only [tryUrlR, matchLit_self_append, h1, h2, if_neg hne]
  rfl

theorem tryUrlR_hstart (new : List Char) :
    ∀ s, matchLit ralphUrlPrefix s = none → tryUrlR new s = none :=
  fun _ h => tryUrlR_none h

theorem tryShaR_hstart (cond c : List Char) :
    ∀ s, matchLit (lit "if: ") s = none → tryShaR cond c s = none :=
  fun _ h => tryShaR_none (matchLit_append_none cond h)

theorem matchLit_self_append2 (x y rest : List Char) :
    matchLit (x ++ y) (x ++ (y ++ rest)) = some rest := by
  rw [matchLit_append_same, matchLit_self_append]

/-- The ralph-orchestrator checksum substitution at its own `if:` block:
it rewrites the block's checksum and regenerates every matched byte from
the captured groups. -/
theorem tryShaR_site (cond asset : List Char) (cN : List Char) {u c : List Char}
    (hu : ∀ ch ∈ u, isVerCh ch = true)
    (hassetNL : ∀ ch ∈ asset, (ch != '\n') = true)
    (hc : ∀ ch ∈ c, isHexCh ch = true) (hcne : c ≠ [])
    {b : List Char} (tl : List Char)
    (hb : b = '\n' :: (lit "    then:\n      " ++ (lit "url: " ++
      (ralphUrlPrefix ++ (u ++ ('/' :: (asset ++ ('\n' :: (lit "      " ++
      (lit "sha256: " ++ (c ++ ('\n' :: tl)))))))))))) :
    tryShaR cond cN (lit "if: " ++ (cond ++ b)) =
      some (lit "if: " ++ (cond ++ (lit "\n    then:\n      url: " ++
        (ralphUrlPrefix ++ (u ++ ('/' :: (asset ++ (lit "\n      sha256: " ++
          cN))))))), '\n' :: tl) := by
  subst hb
  have hm0 : matchLit (lit "if: " ++ cond) (lit "if: " ++ (cond ++
      ('\n' :: (lit "    then:\n      " ++ (lit "url: " ++
      (ralphUrlPrefix ++ (u ++ ('/' :: (asset ++ ('\n' :: (lit "      " ++
      (lit "sha256: " ++ (c ++ ('\n' :: tl)))))))))))))) =
      some ('\n' :: (lit "    then:\n      " ++ (lit "url: " ++
      (ralphUrlPrefix ++ (u ++ ('/' :: (asset ++ ('\n' :: (lit "      " ++
      (lit "sha256: " ++ (c ++ ('\n' :: tl)))))))))))) :=
    matchLit_self_append2 (lit "if: ") cond _
  simp only [tryShaR, hm0]
  have e1 : List.takeWhile isSpaceCh ('\n' :: (lit "    then:\n      " ++
      (lit "url: " ++ (ralphUrlPrefix ++ (u ++ ('/' :: (asset ++ ('\n' ::
      (lit "      " ++ (lit "sha256: " ++ (c ++ ('\n' :: tl)))))))))))) =
      '\n' :: lit "    " := rfl
  have e2 : List.dropWhile isSpaceCh ('\n' :: (lit "    then:\n      " ++
      (lit "url: " ++ (ralphUrlPrefix ++ (u ++ ('/' :: (asset ++ ('\n' ::
      (lit "      " ++ (lit "sha256: " ++ (c ++ ('\n' :: tl)))))))))))) =
      lit "then:" ++ ('\n' :: (lit "      " ++ (lit "url: " ++
      (ralphUrlPrefix ++ (u ++ ('/' :: (asset ++ ('\n' :: (lit "      " ++
      (lit "sha256: " ++ (c ++ ('\n' :: tl)))))))))))) := rfl
  have e3 : List.takeWhile isSpaceCh ('\n' :: (lit "      " ++ (lit "url: " ++
      (ralphUrlPrefix ++ (u ++ ('/' :: (asset ++ ('\n' :: (lit "      " ++
      (lit "sha256: " ++ (c ++ ('\n' :: tl)))))))))))) =
      '\n' :: lit "      " := rfl
  have e4 : List.dropWhile isSpaceCh ('\n' :: (lit "      " ++ (lit "url: " ++
      (ralphUrlPrefix ++ (u ++ ('/' :: (asset ++ ('\n' :: (lit "      " ++
      (lit "sha256: " ++ (c ++ ('\n' :: tl)))))))))))) =
      lit "url: " ++ (ralphUrlPrefix ++ (u ++ ('/' :: (asset ++ ('\n' ::
      (lit "      " ++ (lit "sha256: " ++ (c ++ ('\n' :: tl))))))))) := rfl
  have hP : ∀ ch ∈ ralphUrlPrefix, (ch != '\n') = true := by decide
  have hU : ∀ ch ∈ u, (ch != '\n') = true :=
    fun ch hm => bne_of_verCh (by decide) ch (hu ch hm)
  have hln : List.takeWhile (fun ch => ch != '\n')
      (ralphUrlPrefix ++ (u ++ ('/' :: (asset ++ ('\n' :: (lit "      " ++
      (lit "sha256: " ++ (c ++ ('\n' :: tl))))))))) =
      ralphUrlPrefix ++ (u ++ ('/' :: asset)) := by
    rw [takeWhile_append_pass _ hP, takeWhile_append_pass _ hU,
      List.takeWhile_cons_of_pos (by decide),
      takeWhile_splice hassetNL (by decide)]
  have hln2 : List.dropWhile (fun ch => ch != '\n')
      (ralphUrlPrefix ++ (u ++ ('/' :: (asset ++ ('\n' :: (lit "      " ++
      (lit "sha256: " ++ (c ++ ('\n' :: tl))))))))) =
      '\n' :: (lit "      " ++ (lit "sha256: " ++ (c ++ ('\n' :: tl)))) := by
    rw [dropWhile_append_pass _ hP, dropWhile_append_pass _ hU,
      List.dropWhile_cons_of_pos (by decide),
      dropWhile_splice hassetNL (by decide)]
  have e5 : List.takeWhile isSpaceCh ('\n' :: (lit "      " ++
      (lit "sha256: " ++ (c ++ ('\n' :: tl))))) = '\n' :: lit "      " := rfl
  have e6 : List.dropWhile isSpaceCh ('\n' :: (lit "      " ++
      (lit "sha256: " ++ (c ++ ('\n' :: tl))))) =
      lit "sha256: " ++ (c ++ ('\n' :: tl)) := rfl
  have e7 : List.takeWhile isHexCh (c ++ ('\n' :: tl)) = c :=
    takeWhile_splice hc (by decide)
  have e8 : List.dropWhile isHexCh (c ++ ('\n' :: tl)) = '\n' :: tl :=
    dropWhile_splice hc (by decide)
  simp only [e1, e2, e3, e4, hln, hln2, e5, e6, e7, e8, matchLit_self_append]
  rw [if_neg (by simp), if_neg (by simp),
    if_neg (by simp [ralphUrlPrefix, lit]), if_neg (by simp), if_neg hcne]
  simp only [List.append_assoc, List.cons_append, List.singleton_append]
  rfl

/-- The checksum substitution for one condition walks over the entire
`if:` block of a *different* condition without touching it. -/
theorem subAll_ralphBlock_wrong {condA cN : List Char} {selB assetB : List Char}
    {u c R : List Char}
    (hu : ∀ ch ∈ u, isVerCh ch = true) (hc : ∀ ch ∈ c, isHexCh ch = true)
    (hsel : SegSkip (tryShaR condA cN) selB)
    (hasset : SegSkip (tryShaR condA cN) assetB)
    (hw : ∀ t, tryShaR condA cN (lit "if: " ++ (selB ++ ('\n' :: t))) = none) :
    subAll (tryShaR condA cN)
        (lit "if: " ++ (selB ++ ('\n' :: (lit "    then:\n      " ++
          (lit "url: " ++ (ralphUrlPrefix ++ (u ++ ('/' :: (assetB ++
          ('\n' :: (lit "      " ++ (lit "sha256: " ++ (c ++
          ('\n' :: R)))))))))))))) =
      lit "if: " ++ (selB ++ ('\n' :: (lit "    then:\n      " ++
        (lit "url: " ++ (ralphUrlPrefix ++ (u ++ ('/' :: (assetB ++
        ('\n' :: (lit "      " ++ (lit "sha256: " ++ (c ++
        ('\n' :: subAll (tryShaR condA cN) R))))))))))))) := by
  have h0 := hw (lit "    then:\n      " ++ (lit "url: " ++
    (ralphUrlPrefix ++ (u ++ ('/' :: (assetB ++ ('\n' :: (lit "      " ++
    (lit "sha256: " ++ (c ++ ('\n' :: R)))))))))))
  have h0' : tryShaR condA cN ('i' :: (lit "f: " ++ (selB ++ ('\n' ::
      (lit "    then:\n      " ++ (lit "url: " ++ (ralphUrlPrefix ++ (u ++
      ('/' :: (assetB ++ ('\n' :: (lit "      " ++ (lit "sha256: " ++ (c ++
      ('\n' :: R))))))))))))))) = none := h0
  rw [show (lit "if: " ++ (selB ++ ('\n' :: (lit "    then:\n      " ++
      (lit "url: " ++ (ralphUrlPrefix ++ (u ++ ('/' :: (assetB ++ ('\n' ::
      (lit "      " ++ (lit "sha256: " ++ (c ++ ('\n' :: R))))))))))))) :
      List Char) =
    'i' :: (lit "f: " ++ (selB ++ ('\n' :: (lit "    then:\n      " ++
      (lit "url: " ++ (ralphUrlPrefix ++ (u ++ ('/' :: (assetB ++ ('\n' ::
      (lit "      " ++ (lit "sha256: " ++ (c ++ ('\n' :: R))))))))))))))
    from rfl]
  rw [subAll_cons_none h0']
  have hseg1 : SegSkip (tryShaR condA cN) (lit "f: ") := by
    repeat first
    | exact segSkip_nil _
    | refine segSkip_cons (fun b => rfl) ?_
  rw [subAll_segskip hseg1, subAll_segskip hsel]
  have hseg2 : SegSkip (tryShaR condA cN) ('\n' :: lit "    then:\n      ") := by
    repeat first
    | exact segSkip_nil _
    | refine segSkip_cons (fun b => rfl) ?_
  rw [subAll_segskip_cons hseg2]
  have hseg3 : SegSkip (tryShaR condA cN) (lit "url: ") := by
    repeat first
    | exact segSkip_nil _
    | refine segSkip_cons (fun b => rfl) ?_
  rw [subAll_segskip hseg3]
  have hseg4 : SegSkip (tryShaR condA cN) ralphUrlPrefix := by
    repeat first
    | exact segSkip_nil _
    | refine segSkip_cons (fun b => rfl) ?_
  rw [subAll_segskip hseg4]
  rw [subAll_splice_cons (tryShaR_hstart condA cN) isVerCh 2 (by decide)
    (by decide) '/' (by decide) hu]
  have hseg5 : SegSkip (tryShaR condA cN) ['/'] := by
    repeat first
    | exact segSkip_nil _
    | refine segSkip_cons (fun b => rfl) ?_
  rw [show ('/' :: (assetB ++ ('\n' :: (lit "      " ++ (lit "sha256: " ++
      (c ++ ('\n' :: R))))))) =
    ['/'] ++ (assetB ++ ('\n' :: (lit "      " ++ (lit "sha256: " ++
      (c ++ ('\n' :: R)))))) from rfl]
  rw [subAll_segskip hseg5, subAll_segskip hasset]
  have hseg6 : SegSkip (tryShaR condA cN) ('\n' :: lit "      ") := by
    repeat first
    | exact segSkip_nil _
    | refine segSkip_cons (fun b => rfl) ?_
  rw [subAll_segskip_cons hseg6]
  have hseg7 : SegSkip (tryShaR condA cN) (lit "sha256: ") := by
    repeat first
    | exact segSkip_nil _
    | refine segSkip_cons (fun b => rfl) ?_
  rw [subAll_segskip hseg7]
  rw [subAll_splice_cons (tryShaR_hstart condA cN) isHexCh 0 (by decide)
    (by decide) '\n' (by decide) hc]
  have h9 : tryShaR condA cN ('\n' :: R) = none := rfl
  rw [subAll_cons_none h9]
  rfl

/-! ## Characterisation of each substitution over the ralph family -/

theorem renderR_search {v : List Char} (u c1 c2 ds j : List Char)
    (hne : v ≠ []) (hv : ∀ c ∈ v, isVerCh c = true) :
    searchF tryVerG (renderR v u c1 c2 ds j) = some v := by
  unfold renderR
  have hs1 : SegSkip tryVerG (lit "package:") := by
    repeat first
    | exact segSkip_nil _
    | refine segSkip_cons (fun b => rfl) ?_
  have hs2 : SegSkip tryVerG (lit "\n  name: ralph-orchestrator\n  ") := by
    repeat first
    | exact segSkip_nil _
    | refine segSkip_cons (fun b => rfl) ?_
  rw [searchF_segskip hs1, searchF_segskip hs2]
  exact searchF_found (by exact List.cons_ne_nil _ _) (tryVerG_site hne hv _ rfl)

/-- The `count=1` quoted-version substitution rewrites exactly the version
field of the ralph family. -/
theorem renderR_verQ (w : List Char) {v : List Char} (u c1 c2 ds j : List Char)
    (hne : v ≠ []) (hv : ∀ c ∈ v, isVerCh c = true) :
    subFirst (tryVerQ w) (renderR v u c1 c2 ds j) =
      renderR w u c1 c2 ds j := by
  unfold renderR
  have hs1 : SegSkip (tryVerQ w) (lit "package:") := by
    repeat first
    | exact segSkip_nil _
    | refine segSkip_cons (fun b => rfl) ?_
  have hs2 : SegSkip (tryVerQ w) (lit "\n  name: ralph-orchestrator\n  ") := by
    repeat first
    | exact segSkip_nil _
    | refine segSkip_cons (fun b => rfl) ?_
  rw [subFirst_segskip hs1, subFirst_segskip hs2]
  rw [subFirst_found (by exact List.cons_ne_nil _ _) (tryVerQ_site hne hv _ rfl)]
  simp only [List.append_assoc, List.cons_append, List.singleton_append]
  rfl

/-- The global URL substitution rewrites the version segment of both
block URLs of the ralph family and nothing else. -/
theorem renderR_urlR (u' : List Char) {v u c1 c2 ds j : List Char}
    (hune : u ≠ [])
    (hv : ∀ c ∈ v, isVerCh c = true) (hu : ∀ c ∈ u, isVerCh c = true)
    (hc1 : ∀ c ∈ c1, isHexCh c = true) (hc2 : ∀ c ∈ c2, isHexCh c = true)
    (hds : ∀ c ∈ ds, isDigitCh c = true) (hj : ∀ c ∈ j, isJunkCh c = true) :
    subAll (tryUrlR u') (renderR v u c1 c2 ds j) =
      renderR v u' c1 c2 ds j := by
  have hcon := consumes_tryUrlR u'
  have hver : ∀ c ∈ c1, isVerCh c = true := fun c hc => verCh_of_hexCh (hc1 c hc)
  have hver2 : ∀ c ∈ c2, isVerCh c = true := fun c hc => verCh_of_hexCh (hc2 c hc)
  have hdsv : ∀ c ∈ ds, isVerCh c = true := fun c hc => verCh_of_digit (hds c hc)
  have hs1 : SegSkip (tryUrlR u') (lit "package:") := by
    repeat first
    | exact segSkip_nil _
    | refine segSkip_cons (fun b => rfl) ?_
  have hs2 : SegSkip (tryUrlR u') (lit "\n  name: ralph-orchestrator\n  ") := by
    repeat first
    | exact segSkip_nil _
    | refine segSkip_cons (fun b => rfl) ?_
  have hs3 : SegSkip (tryUrlR u') (lit "version: \"") := by
    repeat first
    | exact segSkip_nil _
    | refine segSkip_cons (fun b => rfl) ?_
  have hs4 : SegSkip (tryUrlR u')
      ('"' :: lit "\n\nsource:\n  - ") := by
    repeat first
    | exact segSkip_nil _
    | refine segSkip_cons (fun b => rfl) ?_
  have hs5 : SegSkip (tryUrlR u') (lit "if: ") := by
    repeat first
    | exact segSkip_nil _
    | refine segSkip_cons (fun b => rfl) ?_
  have hs6 : SegSkip (tryUrlR u') (lit "osx and x86_64") := by
    repeat first
    | exact segSkip_nil _
    | refine segSkip_cons (fun b => rfl) ?_
  have hs7 : SegSkip (tryUrlR u') ('\n' :: lit "    then:\n      ") := by
    repeat first
    | exact segSkip_nil _
    | refine segSkip_cons (fun b => rfl) ?_
  have hs8 : SegSkip (tryUrlR u') (lit "url: ") := by
    repeat first
    | exact segSkip_nil _
    | refine segSkip_cons (fun b => rfl) ?_
  have hs9 : SegSkip (tryUrlR u')
      (lit "ralph-cli-x86_64-apple-darwin.tar.xz") := by
    repeat first
    | exact segSkip_nil _
    | refine segSkip_cons (fun b => rfl) ?_
  have hs10 : SegSkip (tryUrlR u') ('\n' :: lit "      ") := by
    repeat first
    | exact segSkip_nil _
    | refine segSkip_cons (fun b => rfl) ?_
  have hs11 : SegSkip (tryUrlR u') (lit "sha256: ") := by
    repeat first
    | exact segSkip_nil _
    | refine segSkip_cons (fun b => rfl) ?_
  have hs12 : SegSkip (tryUrlR u') ('\n' :: lit "  - ") := by
    repeat first
    | exact segSkip_nil _
    | refine segSkip_cons (fun b => rfl) ?_
  have hs13 : SegSkip (tryUrlR u') (lit "osx and arm64") := by
    repeat first
    | exact segSkip_nil _
    | refine segSkip_cons (fun b => rfl) ?_
  have hs14 : SegSkip (tryUrlR u')
      (lit "ralph-cli-aarch64-apple-darwin.tar.xz") := by
    repeat first
    | exact segSkip_nil _
    | refine segSkip_cons (fun b => rfl) ?_
  have hs15 : SegSkip (tryUrlR u') ('\n' :: lit "\nbuild:\n  ") := by
    repeat first
    | exact segSkip_nil _
    | refine segSkip_cons (fun b => rfl) ?_
  have hs16 : SegSkip (tryUrlR u') (lit "number: ") := by
    repeat first
    | exact segSkip_nil _
    | refine segSkip_cons (fun b => rfl) ?_
  have hs17 : SegSkip (tryUrlR u') ('\n' :: lit "\nabout:\n  summary: ") := by
    repeat first
    | exact segSkip_nil _
    | refine segSkip_cons (fun b => rfl) ?_
  have hs18 : SegSkip (tryUrlR u') ['\n'] := by
    repeat first
    | exact segSkip_nil _
    | refine segSkip_cons (fun b => rfl) ?_
  unfold renderR
  rw [subAll_segskip hs1, subAll_segskip hs2, subAll_segskip hs3]
  rw [subAll_splice_cons (tryUrlR_hstart u') isVerCh 5 (by decide)
    (by decide) '"' (by decide) hv]
  rw [subAll_segskip_cons hs4, subAll_segskip hs5, subAll_segskip hs6]
  rw [subAll_segskip_cons hs7, subAll_segskip hs8]
  rw [subAll_match hcon (tryUrlR_site u' hune hu _ rfl)]
  rw [subAll_segskip hs9]
  rw [subAll_segskip_cons hs10, subAll_segskip hs11]
  rw [subAll_splice_cons (tryUrlR_hstart u') isVerCh 5 (by decide)
    (by decide) '\n' (by decide) hver]
  rw [subAll_segskip_cons hs12, subAll_segskip hs5, subAll_segskip hs13]
  rw [subAll_segskip_cons hs7, subAll_segskip hs8]
  rw [subAll_match hcon (tryUrlR_site u' hune hu _ rfl)]
  rw [subAll_segskip hs14]
  rw [subAll_segskip_cons hs10, subAll_segskip hs11]
  rw [subAll_splice_cons (tryUrlR_hstart u') isVerCh 5 (by decide)
    (by decide) '\n' (by decide) hver2]
  rw [subAll_segskip_cons hs15, subAll_segskip hs16]
  rw [subAll_splice_cons (tryUrlR_hstart u') isVerCh 5 (by decide)
    (by decide) '\n' (by decide) hdsv]
  rw [subAll_segskip_cons hs17]
  rw [subAll_splice_cons (tryUrlR_hstart u') isJunkCh 5 (by decide)
    (by decide) '\n' (by decide) hj]
  rw [subAll_segskip_total hs18]
  simp only [List.append_assoc, List.cons_append, List.singleton_append]
  rfl

/-- The `osx and x86_64` checksum substitution rewrites exactly the first
block's checksum of the ralph family. -/
theorem renderR_sha1 (cN : List Char) {v u c1 c2 ds j : List Char}
    (hv : ∀ c ∈ v, isVerCh c = true) (hu : ∀ c ∈ u, isVerCh c = true)
    (hc1 : Hex64 c1) (hc2 : Hex64 c2)
    (hds : ∀ c ∈ ds, isDigitCh c = true) (hj : ∀ c ∈ j, isJunkCh c = true) :
    subAll (tryShaR (lit "osx and x86_64") cN) (renderR v u c1 c2 ds j) =
      renderR v u cN c2 ds j := by
  have hcon := consumes_tryShaR (lit "osx and x86_64") cN
  have hs1 : SegSkip (tryShaR (lit "osx and x86_64") cN) (lit "package:") := by
    repeat first
    | exact segSkip_nil _
    | refine segSkip_cons (fun b => rfl) ?_
  have hs2 : SegSkip (tryShaR (lit "osx and x86_64") cN)
      (lit "\n  name: ralph-orchestrator\n  ") := by
    repeat first
    | exact segSkip_nil _
    | refine segSkip_cons (fun b => rfl) ?_
  have hs3 : SegSkip (tryShaR (lit "osx and x86_64") cN) (lit "version: \"") := by
    repeat first
    | exact segSkip_nil _
    | refine segSkip_cons (fun b => rfl) ?_
  have hs4 : SegSkip (tryShaR (lit "osx and x86_64") cN)
      ('"' :: lit "\n\nsource:\n  - ") := by
    repeat first
    | exact segSkip_nil _
    | refine segSkip_cons (fun b => rfl) ?_
  have hs5 : SegSkip (tryShaR (lit "osx and x86_64") cN) ('\n' :: lit "  - ") := by
    repeat first
    | exact segSkip_nil _
    | refine segSkip_cons (fun b => rfl) ?_
  have hsArm : SegSkip (tryShaR (lit "osx and x86_64") cN)
      (lit "osx and arm64") := by
    repeat first
    | exact segSkip_nil _
    | refine segSkip_cons (fun b => rfl) ?_
  have hsAsset : SegSkip (tryShaR (lit "osx and x86_64") cN)
      (lit "ralph-cli-aarch64-apple-darwin.tar.xz") := by
    repeat first
    | exact segSkip_nil _
    | refine segSkip_cons (fun b => rfl) ?_
  have hs6 : SegSkip (tryShaR (lit "osx and x86_64") cN) (lit "\nbuild:\n  ") := by
    repeat first
    | exact segSkip_nil _
    | refine segSkip_cons (fun b => rfl) ?_
  have hs7 : SegSkip (tryShaR (lit "osx and x86_64") cN) (lit "number: ") := by
    repeat first
    | exact segSkip_nil _
    | refine segSkip_cons (fun b => rfl) ?_
  have hs8 : SegSkip (tryShaR (lit "osx and x86_64") cN)
      ('\n' :: lit "\nabout:\n  summary: ") := by
    repeat first
    | exact segSkip_nil _
    | refine segSkip_cons (fun b => rfl) ?_
  have hs9 : SegSkip (tryShaR (lit "osx and x86_64") cN) ['\n'] := by
    repeat first
    | exact segSkip_nil _
    | refine segSkip_cons (fun b => rfl) ?_
  unfold renderR
  rw [subAll_segskip hs1, subAll_segskip hs2, subAll_segskip hs3]
  rw [subAll_splice_cons (tryShaR_hstart (lit "osx and x86_64") cN) isVerCh 2
    (by decide) (by decide) '"' (by decide) hv]
  rw [subAll_segskip_cons hs4]
  rw [subAll_match hcon (tryShaR_site (lit "osx and x86_64")
    (lit "ralph-cli-x86_64-apple-darwin.tar.xz") cN hu (by decide) hc1.2
    (hex64_ne_nil hc1) _ rfl)]
  rw [subAll_segskip_cons hs5]
  rw [subAll_ralphBlock_wrong hu hc2.2 hsArm hsAsset (fun t => rfl)]
  rw [subAll_segskip hs6, subAll_segskip hs7]
  rw [subAll_splice_cons (tryShaR_hstart (lit "osx and x86_64") cN) isDigitCh 0
    (by decide) (by decide) '\n' (by decide) hds]
  rw [subAll_segskip_cons hs8]
  rw [subAll_splice_cons (tryShaR_hstart (lit "osx and x86_64") cN) isJunkCh 2
    (by decide) (by decide) '\n' (by decide) hj]
  rw [subAll_segskip_total hs9]
  simp only [List.append_assoc, List.cons_append, List.singleton_append]
  rfl

/-- The `osx and arm64` checksum substitution rewrites exactly the second
block's checksum of the ralph family. -/
theorem renderR_sha2 (cN : List Char) {v u c1 c2 ds j : List Char}
    (hv : ∀ c ∈ v, isVerCh c = true) (hu : ∀ c ∈ u, isVerCh c = true)
    (hc1 : Hex64 c1) (hc2 : Hex64 c2)
    (hds : ∀ c ∈ ds, isDigitCh c = true) (hj : ∀ c ∈ j, isJunkCh c = true) :
    subAll (tryShaR (lit "osx and arm64") cN) (renderR v u c1 c2 ds j) =
      renderR v u c1 cN ds j := by
  have hcon := consumes_tryShaR (lit "osx and arm64") cN
  have hs1 : SegSkip (tryShaR (lit "osx and arm64") cN) (lit "package:") := by
    repeat first
    | exact segSkip_nil _
    | refine segSkip_cons (fun b => rfl) ?_
  have hs2 : SegSkip (tryShaR (lit "osx and arm64") cN)
      (lit "\n  name: ralph-orchestrator\n  ") := by
    repeat first
    | exact segSkip_nil _
    | refine segSkip_cons (fun b => rfl) ?_
  have hs3 : SegSkip (tryShaR (lit "osx and arm64") cN) (lit "version: \"") := by
    repeat first
    | exact segSkip_nil _
    | refine segSkip_cons (fun b => rfl) ?_
  have hs4 : SegSkip (tryShaR (lit "osx and arm64") cN)
      ('"' :: lit "\n\nsource:\n  - ") := by
    repeat first
    | exact segSkip_nil _
    | refine segSkip_cons (fun b => rfl) ?_
  have hs5 : SegSkip (tryShaR (lit "osx and arm64") cN) (lit "  - ") := by
    repeat first
    | exact segSkip_nil _
    | refine segSkip_cons (fun b => rfl) ?_
  have hsX86 : SegSkip (tryShaR (lit "osx and arm64") cN)
      (lit "osx and x86_64") := by
    repeat first
    | exact segSkip_nil _
    | refine segSkip_cons (fun b => rfl) ?_
  have hsAsset : SegSkip (tryShaR (lit "osx and arm64") cN)
      (lit "ralph-cli-x86_64-apple-darwin.tar.xz") := by
    repeat first
    | exact segSkip_nil _
    | refine segSkip_cons (fun b => rfl) ?_
  have hs6 : SegSkip (tryShaR (lit "osx and arm64") cN)
      ('\n' :: lit "\nbuild:\n  ") := by
    repeat first
    | exact segSkip_nil _
    | refine segSkip_cons (fun b => rfl) ?_
  have hs7 : SegSkip (tryShaR (lit "osx and arm64") cN) (lit "number: ") := by
    repeat first
    | exact segSkip_nil _
    | refine segSkip_cons (fun b => rfl) ?_
  have hs8 : SegSkip (tryShaR (lit "osx and arm64") cN)
      ('\n' :: lit "\nabout:\n  summary: ") := by
    repeat first
    | exact segSkip_nil _
    | refine segSkip_cons (fun b => rfl) ?_
  have hs9 : SegSkip (tryShaR (lit "osx and arm64") cN) ['\n'] := by
    repeat first
    | exact segSkip_nil _
    | refine segSkip_cons (fun b => rfl) ?_
  unfold renderR
  rw [subAll_segskip hs1, subAll_segskip hs2, subAll_segskip hs3]
  rw [subAll_splice_cons (tryShaR_hstart (lit "osx and arm64") cN) isVerCh 2
    (by decide) (by decide) '"' (by decide) hv]
  rw [subAll_segskip_cons hs4]
  rw [subAll_ralphBlock_wrong hu hc1.2 hsX86 hsAsset (fun t => rfl)]
  rw [subAll_segskip hs5]
  rw [subAll_match hcon (tryShaR_site (lit "osx and arm64")
    (lit "ralph-cli-aarch64-apple-darwin.tar.xz") cN hu (by decide) hc2.2
    (hex64_ne_nil hc2) _ rfl)]
  rw [subAll_segskip_cons hs6, subAll_segskip hs7]
  rw [subAll_splice_cons (tryShaR_hstart (lit "osx and arm64") cN) isDigitCh 0
    (by decide) (by decide) '\n' (by decide) hds]
  rw [subAll_segskip_cons hs8]
  rw [subAll_splice_cons (tryShaR_hstart (lit "osx and arm64") cN) isJunkCh 2
    (by decide) (by decide) '\n' (by decide) hj]
  rw [subAll_segskip_total hs9]
  simp only [List.append_assoc, List.cons_append, List.singleton_append]
  rfl

/-- The `number: \d+` substitution rewrites exactly the build-number field
of the ralph family. -/
theorem renderR_number {v u c1 c2 ds j : List Char}
    (hv : ∀ c ∈ v, isVerCh c = true) (hu : ∀ c ∈ u, isVerCh c = true)
    (hc1 : ∀ c ∈ c1, isHexCh c = true) (hc2 : ∀ c ∈ c2, isHexCh c = true)
    (hne : ds ≠ []) (hds : ∀ c ∈ ds, isDigitCh c = true)
    (hj : ∀ c ∈ j, isJunkCh c = true) :
    subAll tryNumber (renderR v u c1 c2 ds j) =
      renderR v u c1 c2 (lit "0") j := by
  have hcon := consumes_tryNumber
  have hc1v : ∀ c ∈ c1, isVerCh c = true := fun c hc => verCh_of_hexCh (hc1 c hc)
  have hc2v : ∀ c ∈ c2, isVerCh c = true := fun c hc => verCh_of_hexCh (hc2 c hc)
  have hs1 : SegSkip tryNumber (lit "package:") := by
    repeat first
    | exact segSkip_nil _
    | refine segSkip_cons (fun b => rfl) ?_
  have hs2 : SegSkip tryNumber (lit "\n  name: ralph-orchestrator\n  ") := by
    repeat first
    | exact segSkip_nil _
    | refine segSkip_cons (fun b => rfl) ?_
  have hs3 : SegSkip tryNumber (lit "version: \"") := by
    repeat first
    | exact segSkip_nil _
    | refine segSkip_cons (fun b => rfl) ?_
  have hs4 : SegSkip tryNumber ('"' :: lit "\n\nsource:\n  - ") := by
    repeat first
    | exact segSkip_nil _
    | refine segSkip_cons (fun b => rfl) ?_
  have hs5 : SegSkip tryNumber (lit "if: ") := by
    repeat first
    | exact segSkip_nil _
    | refine segSkip_cons (fun b => rfl) ?_
  have hs6 : SegSkip tryNumber (lit "osx and x86_64") := by
    repeat first
    | exact segSkip_nil _
    | refine segSkip_cons (fun b => rfl) ?_
  have hs7 : SegSkip tryNumber ('\n' :: lit "    then:\n      ") := by
    repeat first
    | exact segSkip_nil _
    | refine segSkip_cons (fun b => rfl) ?_
  have hs8 : SegSkip tryNumber (lit "url: ") := by
    repeat first
    | exact segSkip_nil _
    | refine segSkip_cons (fun b => rfl) ?_
  have hsU : SegSkip tryNumber ralphUrlPrefix := by
    repeat first
    | exact segSkip_nil _
    | refine segSkip_cons (fun b => rfl) ?_
  have hs9 : SegSkip tryNumber
      ('/' :: lit "ralph-cli-x86_64-apple-darwin.tar.xz") := by
    repeat first
    | exact segSkip_nil _
    | refine segSkip_cons (fun b => rfl) ?_
  have hs10 : SegSkip tryNumber ('\n' :: lit "      ") := by
    repeat first
    | exact segSkip_nil _
    | refine segSkip_cons (fun b => rfl) ?_
  have hs11 : SegSkip tryNumber (lit "sha256: ") := by
    repeat first
    | exact segSkip_nil _
    | refine segSkip_cons (fun b => rfl) ?_
  have hs12 : SegSkip tryNumber ('\n' :: lit "  - ") := by
    repeat first
    | exact segSkip_nil _
    | refine segSkip_cons (fun b => rfl) ?_
  have hs13 : SegSkip tryNumber (lit "osx and arm64") := by
    repeat first
    | exact segSkip_nil _
    | refine segSkip_cons (fun b => rfl) ?_
  have hs14 : SegSkip tryNumber
      ('/' :: lit "ralph-cli-aarch64-apple-darwin.tar.xz") := by
    repeat first
    | exact segSkip_nil _
    | refine segSkip_cons (fun b => rfl) ?_
  have hs15 : SegSkip tryNumber ('\n' :: lit "\nbuild:\n  ") := by
    repeat first
    | exact segSkip_nil _
    | refine segSkip_cons (fun b => rfl) ?_
  have hs16 : SegSkip tryNumber ('\n' :: lit "\nabout:\n  summary: ") := by
    repeat first
    | exact segSkip_nil _
    | refine segSkip_cons (fun b => rfl) ?_
  have hs17 : SegSkip tryNumber ['\n'] := by
    repeat first
    | exact segSkip_nil _
    | refine segSkip_cons (fun b => rfl) ?_
  unfold renderR
  rw [subAll_segskip hs1, subAll_segskip hs2, subAll_segskip hs3]
  rw [subAll_splice_cons tryNumber_hstart isVerCh 6 (by decide) (by decide)
    '"' (by decide) hv]
  rw [subAll_segskip_cons hs4, subAll_segskip hs5, subAll_segskip hs6]
  rw [subAll_segskip_cons hs7, subAll_segskip hs8, subAll_segskip hsU]
  rw [subAll_splice_cons tryNumber_hstart isVerCh 6 (by decide) (by decide)
    '/' (by decide) hu]
  rw [subAll_segskip_cons hs9]
  rw [subAll_segskip_cons hs10, subAll_segskip hs11]
  rw [subAll_splice_cons tryNumber_hstart isVerCh 6 (by decide) (by decide)
    '\n' (by decide) hc1v]
  rw [subAll_segskip_cons hs12, subAll_segskip hs5, subAll_segskip hs13]
  rw [subAll_segskip_cons hs7, subAll_segskip hs8, subAll_segskip hsU]
  rw [subAll_splice_cons tryNumber_hstart isVerCh 6 (by decide) (by decide)
    '/' (by decide) hu]
  rw [subAll_segskip_cons hs14]
  rw [subAll_segskip_cons hs10, subAll_segskip hs11]
  rw [subAll_splice_cons tryNumber_hstart isVerCh 6 (by decide) (by decide)
    '\n' (by decide) hc2v]
  rw [subAll_segskip_cons hs15]
  rw [subAll_match hcon (tryNumber_site hne hds _ rfl)]
  rw [subAll_segskip_cons hs16]
  rw [subAll_splice_cons tryNumber_hstart isJunkCh 6 (by decide) (by decide)
    '\n' (by decide) hj]
  rw [subAll_segskip_total hs17]
  rfl

/-! ## The end-to-end characterisation of the ralph-orchestrator rewriter -/

/-- `update-ralph-orchestrator.py` `update_recipe` on a well-formed ralph
recipe document, with checksums collected for the two `osx` conditions:
the version field and both block URL segments become the resolved
version, each block's checksum is overwritten, and the build number
resets to `0` exactly when the document version changed. -/
theorem ralphUpdateRecipe_renderR (version s1 s2 : List Char)
    {v u c1 c2 ds j : List Char}
    (hver : VerStr version) (hv : VerStr v) (hu : VerStr u)
    (hc1 : Hex64 c1) (hc2 : Hex64 c2) (hs1 : Hex64 s1) (hs2 : Hex64 s2)
    (hds : DigStr ds) (hj : JunkStr j) :
    ralphUpdateRecipe version
        [(lit "osx and x86_64", s1), (lit "osx and arm64", s2)]
        (renderR v u c1 c2 ds j) =
      renderR version version s1 s2
        (if v = version then ds else lit "0") j := by
  obtain ⟨hvne, hvch⟩ := hv
  obtain ⟨hverne, hverch⟩ := hver
  obtain ⟨hune, huch⟩ := hu
  have hsearch : searchF tryVerG (renderR v u c1 c2 ds j) = some v :=
    renderR_search u c1 c2 ds j hvne hvch
  have hverq : subFirst (tryVerQ version) (renderR v u c1 c2 ds j) =
      renderR version u c1 c2 ds j :=
    renderR_verQ version u c1 c2 ds j hvne hvch
  have hurl : subAll (tryUrlR version) (renderR version u c1 c2 ds j) =
      renderR version version c1 c2 ds j :=
    renderR_urlR version hune hverch huch hc1.2 hc2.2 hds.2 hj
  have hsha1 : subAll (tryShaR (lit "osx and x86_64") s1)
      (renderR version version c1 c2 ds j) =
      renderR version version s1 c2 ds j :=
    renderR_sha1 s1 hverch hverch hc1 hc2 hds.2 hj
  have hsha2 : subAll (tryShaR (lit "osx and arm64") s2)
      (renderR version version s1 c2 ds j) =
      renderR version version s1 s2 ds j :=
    renderR_sha2 s2 hverch hverch hs1 hc2 hds.2 hj
  simp only [ralphUpdateRecipe, hsearch, hverq, hurl, List.foldl, hsha1, hsha2]
  by_cases h3 : v = version
  · rw [if_pos (by rw [h3]), if_pos h3]
  · rw [if_neg (by simpa using h3), if_neg h3]
    exact renderR_number hverch hverch hs1.2 hs2.2 hds.1 hds.2 hj

/-! ## The iterfzf recipe family

`renderI v u1 u2 c1 c2 ds w` is the iterfzf recipe document for the two
`osx` platforms: package version `v`, wheel-filename version segments
`u1` / `u2` in the two platform URL lines, per-line checksums `c1` /
`c2`, build number `ds`, and the wheel-filename version `w` in the build
script line (the line rewritten by the `str.replace`). -/

def renderI (v u1 u2 c1 c2 ds w : List Char) : List Char :=
  lit "package:" ++ (lit "\n  name: iterfzf\n  " ++ (lit "version: \"" ++ (
    v ++ ('"' :: (lit "\n\nsource:\n  " ++ (lit "- url: " ++ (
    lit "https://" ++ (lit "files.pythonhosted.org/packages/iterfzf" ++ (
    '-' :: (u1 ++ ('-' :: (
    lit "py3-none-macosx_10_7_x86_64.macosx_10_9_x86_64.whl" ++ (' ' :: (
    lit "# [" ++ (lit "osx and x86_64" ++ (']' :: (lit "\n    " ++ (
    lit "sha256: " ++ (c1 ++ (' ' :: (lit " # [" ++ (
    lit "osx and x86_64" ++ (']' :: (lit "\n  " ++ (lit "- url: " ++ (
    lit "https://" ++ (lit "files.pythonhosted.org/packages/iterfzf" ++ (
    '-' :: (u2 ++ ('-' :: (lit "py3-none-macosx_11_0_arm64.whl" ++ (' ' :: (
    lit "# [" ++ (lit "osx and arm64" ++ (']' :: (lit "\n    " ++ (
    lit "sha256: " ++ (c2 ++ (' ' :: (lit " # [" ++ (
    lit "osx and arm64" ++ (']' :: (lit "\n\nbuild:\n  " ++ (
    lit "number: " ++ (ds ++ ('\n' :: (
    lit "  script: python -m pip install ./" ++ (lit "iterfzf" ++ ('-' :: (
    w ++ ('-' :: (
    lit "py3-none-any.whl\n"))))))))))))))))))))))))))))))))))))))))))))))))))))

/-- The PyPI wheel URL for the `osx and x86_64` platform wheel of a
given release. -/
def wheelUrlX (ver : List Char) : List Char :=
  lit "https://" ++ (lit "files.pythonhosted.org/packages/iterfzf" ++
    ('-' :: (ver ++ ('-' ::
      lit "py3-none-macosx_10_7_x86_64.macosx_10_9_x86_64.whl"))))

/-- The PyPI wheel URL for the `osx and arm64` platform wheel of a
given release. -/
def wheelUrlA (ver : List Char) : List Char :=
  lit "https://" ++ (lit "files.pythonhosted.org/packages/iterfzf" ++
    ('-' :: (ver ++ ('-' :: lit "py3-none-macosx_11_0_arm64.whl"))))

theorem matchLit_head_ne {p c : Char} (h : p ≠ c) (ps cs : List Char) :
    matchLit (p :: ps) (c :: cs) = none := by
  simp [matchLit, h]

/-- A literal pattern cannot match a text that continues into a `'-'`
boundary strictly before the pattern is exhausted: if the pattern is not
a prefix of the text before the boundary and contains no `'-'`, the
match fails. -/
theorem matchLit_not_prefix_boundary {v w : List Char}
    (hnp : ¬ List.IsPrefix v w) (hdash : '-' ∉ v) (X : List Char) :
    matchLit v (w ++ '-' :: X) = none := by
  cases hm : matchLit v (w ++ '-' :: X) with
  | none => rfl
  | some rem =>
    exfalso
    have heq := matchLit_eq_some_iff.mp hm
    by_cases hl : v.length ≤ w.length
    · apply hnp
      have e1 : (v ++ rem).take v.length = v := by simp
      rw [← heq] at e1
      rw [List.take_append_of_le_length hl] at e1
      rw [← e1]
      exact List.take_prefix _ _
    · apply hdash
      push_neg at hl
      have e1 : (w ++ '-' :: X).take (w.length + 1) = w ++ ['-'] := by
        rw [List.take_append_eq_append_take,
          List.take_of_length_le (by omega),
          show w.length + 1 - w.length = 0 + 1 from by omega,
          List.take_succ_cons, List.take_zero]
      have e2 : (w ++ '-' :: X).take (w.length + 1) = v.take (w.length + 1) := by
        rw [heq, List.take_append_of_le_length (by omega)]
      have e3 : '-' ∈ v.take (w.length + 1) := by
        rw [← e2, e1]
        simp
      exact List.mem_of_mem_take e3

theorem consumes_tryRepl {pat : List Char} (hne : pat ≠ []) (rep : List Char) :
    Consumes (tryRepl pat rep) := by
  intro s r rem h
  simp only [tryRepl] at h
  split at h
  · exact absurd h (by simp)
  · rename_i s1 hm
    simp only [Option.some.injEq, Prod.mk.injEq] at h
    have h1 := length_of_matchLit hm
    have h2 : 0 < pat.length := List.length_pos.mpr hne
    rw [← h.2]
    omega

theorem consumes_tryUrlI (sel w : List Char) : Consumes (tryUrlI sel w) := by
  intro s r rem h
  simp only [tryUrlI] at h
  split at h
  · exact absurd h (by simp)
  · rename_i s0 hm0
    split at h
    · exact absurd h (by simp)
    · rename_i s2 hm2
      split at h
      · exact absurd h (by simp)
      · rename_i s4 hm4
        split at h
        · exact absurd h (by simp)
        · split at h
          · rename_i s6 hm6
            split at h
            · rename_i rest hm8
              simp only [Option.some.injEq, Prod.mk.injEq] at h
              have h1 := length_of_matchLit hm0
              have hA := length_dropWhile_le' isSpaceCh s0
              have h2 := length_of_matchLit hm2
              have hB := length_dropWhile_le' isSpaceCh s2
              have h4 := length_of_matchLit hm4
              have hC := length_dropWhile_le' (fun c => !(isSpaceCh c)) s4
              have hD := length_dropWhile_le' isSpaceCh
                (s4.dropWhile (fun c => !(isSpaceCh c)))
              rw [hm6] at hD
              have hE := length_dropWhile_le' isSpaceCh s6
              have h8 := length_of_matchLit hm8
              have hlen : 0 < (lit "[" ++ sel ++ lit "]").length := by
                simp [lit]
              rw [← h.2]
              simp [lit] at h1 h2 h4
              simp only [List.length_cons] at hD
              omega
            · exact absurd h (by simp)
          · exact absurd h (by simp)

/-- Inside a field whose alphabet excludes `'-'`, the iterfzf URL
substitution can never start. -/
theorem tryUrlI_field_none (sel w : List Char) {Ab : Char → Bool}
    (hA : Ab '-' = false) (b : List Char) :
    ∀ r, r ≠ [] → (∀ c ∈ r, Ab c = true) → tryUrlI sel w (r ++ b) = none := by
  intro r hne hr
  apply tryUrlI_none
  cases r with
  | nil => exact absurd rfl hne
  | cons c cs =>
    have hcd : '-' ≠ c := by
      intro he
      have h2 := hr c (List.mem_cons_self c cs)
      rw [← he, hA] at h2
      exact Bool.noConfusion h2
    exact matchLit_head_ne hcd _ _

/-- Inside a field whose alphabet excludes `'i'`, the iterfzf
`str.replace` pattern can never start. -/
theorem tryRepl_field_none (v rep : List Char) {Ab : Char → Bool}
    (hA : Ab 'i' = false) (b : List Char) :
    ∀ r, r ≠ [] → (∀ c ∈ r, Ab c = true) →
      tryRepl (lit "iterfzf-" ++ v) rep (r ++ b) = none := by
  intro r hne hr
  apply tryRepl_none
  cases r with
  | nil => exact absurd rfl hne
  | cons c cs =>
    have hcd : 'i' ≠ c := by
      intro he
      have h2 := hr c (List.mem_cons_self c cs)
      rw [← he, hA] at h2
      exact Bool.noConfusion h2
    exact matchLit_head_ne hcd _ _

/-- A `'-'` directly followed by a digits-and-dots field cannot start an
iterfzf URL match (no `url:` follows the dash). -/
theorem tryUrlI_dash_pyfield (sel w : List Char) {u : List Char}
    (hu : ∀ c ∈ u, isPyCh c = true) (hune : u ≠ []) (bs : List Char) :
    tryUrlI sel w ('-' :: (u ++ bs)) = none := by
  cases u with
  | nil => exact absurd rfl hune
  | cons c cs =>
    have hns : ∀ ch ∈ (c :: cs : List Char), isSpaceCh ch = false := fun ch hm =>
      not_space_of_verCh (verCh_of_pyCh (hu ch hm))
    have hcu : 'u' ≠ c := by
      intro he
      have h2 := hu c (List.mem_cons_self c cs)
      rw [← he] at h2
      exact absurd h2 (by decide)
    have hm : matchLit (lit "url:") ((c :: cs : List Char) ++ bs) = none :=
      matchLit_head_ne hcu _ _
    have ed : List.dropWhile isSpaceCh ((c :: cs : List Char) ++ bs) =
        (c :: cs : List Char) ++ bs :=
      dropWhile_stop bs (by exact List.cons_ne_nil _ _) hns
    simp only [tryUrlI,
      show matchLit (lit "-") ('-' :: ((c :: cs : List Char) ++ bs)) =
        some ((c :: cs : List Char) ++ bs) from rfl,
      ed, hm]

theorem tryRepl_site (pat rep tl : List Char) :
    tryRepl pat rep (pat ++ tl) = some (rep, tl) := by
  simp only [tryRepl, matchLit_self_append]

/-- The `str.replace` pattern `iterfzf-{cur}` does not match at an
`iterfzf-` occurrence followed by a *different* version segment (one the
current version is not a prefix of). -/
theorem tryRepl_iter_skip {v rep U : List Char} (hnp : ¬ List.IsPrefix v U)
    (hdash : '-' ∉ v) (X : List Char) :
    tryRepl (lit "iterfzf-" ++ v) rep
      (lit "iterfzf" ++ ('-' :: (U ++ ('-' :: X)))) = none := by
  apply tryRepl_none
  show matchLit (lit "iterfzf-" ++ v) (lit "iterfzf-" ++ (U ++ ('-' :: X))) =
    none
  rw [matchLit_append_same]
  exact matchLit_not_prefix_boundary hnp hdash X

/-- The package-scoped version substitution at the head of the iterfzf
document. -/
theorem tryPkgVer_siteI {w v : List Char} (hne : v ≠ [])
    (hv : ∀ c ∈ v, isVerCh c = true) {b : List Char} (tl : List Char)
    (hb : b = '"' :: tl) :
    tryPkgVer w (lit "package:" ++
        (lit "\n  name: iterfzf\n  " ++ (lit "version: \"" ++ (v ++ b)))) =
      some (lit "package:\n  name: iterfzf\n  version: \"" ++ (w ++ ['"']),
        tl) := by
  subst hb
  simp only [tryPkgVer, matchLit_self_append]
  have hseg : SegSkip tryVerAfter (lit "\n  name: iterfzf\n  ") := by
    repeat first
    | exact segSkip_nil _
    | refine segSkip_cons (fun b => rfl) ?_
  rw [findVerAfter_segskip hseg,
    findVerAfter_found (by exact List.cons_ne_nil _ _)
      (tryVerAfter_site hne hv tl rfl)]
  rfl

/-- The iterfzf URL substitution at a URL line carrying its own
selector. -/
theorem tryUrlI_site (sel plat : List Char) (wN : List Char) {u : List Char}
    (hu : ∀ c ∈ u, isPyCh c = true)
    (hplat : ∀ ch ∈ plat, isSpaceCh ch = false)
    {b : List Char} (tl : List Char)
    (hb : b = ' ' :: (lit "# [" ++ (sel ++ (']' :: tl)))) :
    tryUrlI sel wN (lit "- url: " ++ (lit "https://" ++
      (lit "files.pythonhosted.org/packages/iterfzf" ++ ('-' :: (u ++
      ('-' :: (plat ++ b))))))) =
      some (lit "- url: " ++ (wN ++ (' ' :: (lit "# [" ++ (sel ++ [']'])))),
        tl) := by
  subst hb
  have hF : ∀ ch ∈ lit "files.pythonhosted.org/packages/iterfzf",
      (!(isSpaceCh ch)) = true := by decide
  have hUns : ∀ ch ∈ u, (!(isSpaceCh ch)) = true := fun ch hm => by
    simp [not_space_of_verCh (verCh_of_pyCh (hu ch hm))]
  have hPns : ∀ ch ∈ plat, (!(isSpaceCh ch)) = true := fun ch hm => by
    simp [hplat ch hm]
  have e00 : matchLit (lit "-") (lit "- url: " ++ (lit "https://" ++
      (lit "files.pythonhosted.org/packages/iterfzf" ++ ('-' :: (u ++
      ('-' :: (plat ++ (' ' :: (lit "# [" ++ (sel ++ (']' :: tl))))))))))) =
      some (lit " url: " ++ (lit "https://" ++
      (lit "files.pythonhosted.org/packages/iterfzf" ++ ('-' :: (u ++
      ('-' :: (plat ++ (' ' :: (lit "# [" ++ (sel ++ (']' :: tl))))))))))) :=
    rfl
  have e1 : List.takeWhile isSpaceCh (lit " url: " ++ (lit "https://" ++
      (lit "files.pythonhosted.org/packages/iterfzf" ++ ('-' :: (u ++
      ('-' :: (plat ++ (' ' :: (lit "# [" ++ (sel ++ (']' :: tl))))))))))) =
      [' '] := rfl
  have e2 : List.dropWhile isSpaceCh (lit " url: " ++ (lit "https://" ++
      (lit "files.pythonhosted.org/packages/iterfzf" ++ ('-' :: (u ++
      ('-' :: (plat ++ (' ' :: (lit "# [" ++ (sel ++ (']' :: tl))))))))))) =
      lit "url:" ++ (' ' :: (lit "https://" ++
      (lit "files.pythonhosted.org/packages/iterfzf" ++ ('-' :: (u ++
      ('-' :: (plat ++ (' ' :: (lit "# [" ++ (sel ++ (']' :: tl))))))))))) :=
    rfl
  have e3 : List.takeWhile isSpaceCh (' ' :: (lit "https://" ++
      (lit "files.pythonhosted.org/packages/iterfzf" ++ ('-' :: (u ++
      ('-' :: (plat ++ (' ' :: (lit "# [" ++ (sel ++ (']' :: tl))))))))))) =
      [' '] := rfl
  have e4 : List.dropWhile isSpaceCh (' ' :: (lit "https://" ++
      (lit "files.pythonhosted.org/packages/iterfzf" ++ ('-' :: (u ++
      ('-' :: (plat ++ (' ' :: (lit "# [" ++ (sel ++ (']' :: tl))))))))))) =
      lit "https://" ++
      (lit "files.pythonhosted.org/packages/iterfzf" ++ ('-' :: (u ++
      ('-' :: (plat ++ (' ' :: (lit "# [" ++ (sel ++ (']' :: tl))))))))) :=
    rfl
  have hrun : List.takeWhile (fun c => !(isSpaceCh c))
      (lit "files.pythonhosted.org/packages/iterfzf" ++ ('-' :: (u ++
      ('-' :: (plat ++ (' ' :: (lit "# [" ++ (sel ++ (']' :: tl))))))))) =
      lit "files.pythonhosted.org/packages/iterfzf" ++
        ('-' :: (u ++ ('-' :: plat))) := by
    rw [takeWhile_append_pass _ hF, List.takeWhile_cons_of_pos (by decide),
      takeWhile_append_pass _ hUns, List.takeWhile_cons_of_pos (by decide),
      takeWhile_splice hPns (by decide)]
  have hdrop : List.dropWhile (fun c => !(isSpaceCh c))
      (lit "files.pythonhosted.org/packages/iterfzf" ++ ('-' :: (u ++
      ('-' :: (plat ++ (' ' :: (lit "# [" ++ (sel ++ (']' :: tl))))))))) =
      ' ' :: (lit "# [" ++ (sel ++ (']' :: tl))) := by
    rw [dropWhile_append_pass _ hF, List.dropWhile_cons_of_pos (by decide),
      dropWhile_append_pass _ hUns, List.dropWhile_cons_of_pos (by decide),
      dropWhile_splice hPns (by decide)]
  have e5 : List.takeWhile isSpaceCh
      (' ' :: (lit "# [" ++ (sel ++ (']' :: tl)))) = [' '] := rfl
  have e6 : List.dropWhile isSpaceCh
      (' ' :: (lit "# [" ++ (sel ++ (']' :: tl)))) =
      '#' :: (' ' :: ('[' :: (sel ++ (']' :: tl)))) := rfl
  have e7 : List.takeWhile isSpaceCh (' ' :: ('[' :: (sel ++ (']' :: tl)))) =
      [' '] := rfl
  have e8 : List.dropWhile isSpaceCh (' ' :: ('[' :: (sel ++ (']' :: tl)))) =
      '[' :: (sel ++ (']' :: tl)) := rfl
  have h9 : matchLit (lit "[" ++ sel ++ lit "]") ('[' :: (sel ++ (']' :: tl))) =
      some tl := by
    rw [show ('[' :: (sel ++ (']' :: tl)) : List Char) =
      lit "[" ++ (sel ++ (']' :: tl)) from rfl]
    rw [show lit "[" ++ sel ++ lit "]" = lit "[" ++ (sel ++ lit "]") from rfl]
    rw [matchLit_append_same (lit "[") (sel ++ lit "]") (sel ++ (']' :: tl)),
      matchLit_append_same sel (lit "]") (']' :: tl)]
    rfl
  simp only [tryUrlI, e00, e1, e2, e3, e4, matchLit_self_append, hrun, hdrop,
    e5, e6, e7, e8, h9]
  rw [if_neg (by simp [lit])]
  simp only [List.append_assoc, List.cons_append, List.singleton_append]
  rfl

/-- The iterfzf URL substitution refuses a URL line carrying a
*different* selector. -/
theorem tryUrlI_wrongsite (sel selDoc plat : List Char) (wN : List Char)
    {u : List Char} (hu : ∀ c ∈ u, isPyCh c = true)
    (hplat : ∀ ch ∈ plat, isSpaceCh ch = false) (tl : List Char)
    (hw : matchLit (lit "[" ++ sel ++ lit "]")
      ('[' :: (selDoc ++ (']' :: tl))) = none) :
    tryUrlI sel wN (lit "- url: " ++ (lit "https://" ++
      (lit "files.pythonhosted.org/packages/iterfzf" ++ ('-' :: (u ++
      ('-' :: (plat ++ (' ' :: (lit "# [" ++ (selDoc ++
      (']' :: tl))))))))))) = none := by
  have hF : ∀ ch ∈ lit "files.pythonhosted.org/packages/iterfzf",
      (!(isSpaceCh ch)) = true := by decide
  have hUns : ∀ ch ∈ u, (!(isSpaceCh ch)) = true := fun ch hm => by
    simp [not_space_of_verCh (verCh_of_pyCh (hu ch hm))]
  have hPns : ∀ ch ∈ plat, (!(isSpaceCh ch)) = true := fun ch hm => by
    simp [hplat ch hm]
  have e00 : matchLit (lit "-") (lit "- url: " ++ (lit "https://" ++
      (lit "files.pythonhosted.org/packages/iterfzf" ++ ('-' :: (u ++
      ('-' :: (plat ++ (' ' :: (lit "# [" ++ (selDoc ++ (']' :: tl))))))))))) =
      some (lit " url: " ++ (lit "https://" ++
      (lit "files.pythonhosted.org/packages/iterfzf" ++ ('-' :: (u ++
      ('-' :: (plat ++ (' ' :: (lit "# [" ++ (selDoc ++ (']' :: tl))))))))))) :=
    rfl
  have e1 : List.takeWhile isSpaceCh (lit " url: " ++ (lit "https://" ++
      (lit "files.pythonhosted.org/packages/iterfzf" ++ ('-' :: (u ++
      ('-' :: (plat ++ (' ' :: (lit "# [" ++ (selDoc ++ (']' :: tl))))))))))) =
      [' '] := rfl
  have e2 : List.dropWhile isSpaceCh (lit " url: " ++ (lit "https://" ++
      (lit "files.pythonhosted.org/packages/iterfzf" ++ ('-' :: (u ++
      ('-' :: (plat ++ (' ' :: (lit "# [" ++ (selDoc ++ (']' :: tl))))))))))) =
      lit "url:" ++ (' ' :: (lit "https://" ++
      (lit "files.pythonhosted.org/packages/iterfzf" ++ ('-' :: (u ++
      ('-' :: (plat ++ (' ' :: (lit "# [" ++ (selDoc ++ (']' :: tl))))))))))) :=
    rfl
  have e3 : List.takeWhile isSpaceCh (' ' :: (lit "https://" ++
      (lit "files.pythonhosted.org/packages/iterfzf" ++ ('-' :: (u ++
      ('-' :: (plat ++ (' ' :: (lit "# [" ++ (selDoc ++ (']' :: tl))))))))))) =
      [' '] := rfl
  have e4 : List.dropWhile isSpaceCh (' ' :: (lit "https://" ++
      (lit "files.pythonhosted.org/packages/iterfzf" ++ ('-' :: (u ++
      ('-' :: (plat ++ (' ' :: (lit "# [" ++ (selDoc ++ (']' :: tl))))))))))) =
      lit "https://" ++
      (lit "files.pythonhosted.org/packages/iterfzf" ++ ('-' :: (u ++
      ('-' :: (plat ++ (' ' :: (lit "# [" ++ (selDoc ++ (']' :: tl))))))))) :=
    rfl
  have hrun : List.takeWhile (fun c => !(isSpaceCh c))
      (lit "files.pythonhosted.org/packages/iterfzf" ++ ('-' :: (u ++
      ('-' :: (plat ++ (' ' :: (lit "# [" ++ (selDoc ++ (']' :: tl))))))))) =
      lit "files.pythonhosted.org/packages/iterfzf" ++
        ('-' :: (u ++ ('-' :: plat))) := by
    rw [takeWhile_append_pass _ hF, List.takeWhile_cons_of_pos (by decide),
      takeWhile_append_pass _ hUns, List.takeWhile_cons_of_pos (by decide),
      takeWhile_splice hPns (by decide)]
  have hdrop : List.dropWhile (fun c => !(isSpaceCh c))
      (lit "files.pythonhosted.org/packages/iterfzf" ++ ('-' :: (u ++
      ('-' :: (plat ++ (' ' :: (lit "# [" ++ (selDoc ++ (']' :: tl))))))))) =
      ' ' :: (lit "# [" ++ (selDoc ++ (']' :: tl))) := by
    rw [dropWhile_append_pass _ hF, List.dropWhile_cons_of_pos (by decide),
      dropWhile_append_pass _ hUns, List.dropWhile_cons_of_pos (by decide),
      dropWhile_splice hPns (by decide)]
  have e5 : List.takeWhile isSpaceCh
      (' ' :: (lit "# [" ++ (selDoc ++ (']' :: tl)))) = [' '] := rfl
  have e6 : List.dropWhile isSpaceCh
      (' ' :: (lit "# [" ++ (selDoc ++ (']' :: tl)))) =
      '#' :: (' ' :: ('[' :: (selDoc ++ (']' :: tl)))) := rfl
  have e8 : List.dropWhile isSpaceCh (' ' :: ('[' :: (selDoc ++ (']' :: tl)))) =
      '[' :: (selDoc ++ (']' :: tl)) := rfl
  simp only [tryUrlI, e00, e1, e2, e3, e4, matchLit_self_append, hrun, hdrop,
    e5, e6, e8, hw]
  rw [if_neg (by simp [lit])]

/-- The URL substitution for one selector walks over the entire URL line
of a *different* selector without touching it. -/
theorem subAll_urlLineI_wrong {sel wN : List Char} {selDoc plat : List Char}
    {u R : List Char}
    (hu : ∀ c ∈ u, isPyCh c = true) (hune : u ≠ [])
    (hplatns : ∀ ch ∈ plat, isSpaceCh ch = false)
    (hplatline : ∀ X, tryUrlI sel wN ('-' :: (plat ++ X)) = none)
    (hplatskip : SegSkip (tryUrlI sel wN) plat)
    (hselskip : SegSkip (tryUrlI sel wN) selDoc)
    (hw : matchLit (lit "[" ++ sel ++ lit "]")
      ('[' :: (selDoc ++ (']' :: R))) = none) :
    subAll (tryUrlI sel wN) (lit "- url: " ++ (lit "https://" ++
      (lit "files.pythonhosted.org/packages/iterfzf" ++ ('-' :: (u ++
      ('-' :: (plat ++ (' ' :: (lit "# [" ++ (selDoc ++ (']' :: R))))))))))) =
      lit "- url: " ++ (lit "https://" ++
      (lit "files.pythonhosted.org/packages/iterfzf" ++ ('-' :: (u ++
      ('-' :: (plat ++ (' ' :: (lit "# [" ++ (selDoc ++
      (']' :: subAll (tryUrlI sel wN) R)))))))))) := by
  have h0 : tryUrlI sel wN (lit "- url: " ++ (lit "https://" ++
      (lit "files.pythonhosted.org/packages/iterfzf" ++ ('-' :: (u ++
      ('-' :: (plat ++ (' ' :: (lit "# [" ++ (selDoc ++
      (']' :: R))))))))))) = none :=
    tryUrlI_wrongsite sel selDoc plat wN hu hplatns R hw
  have h0' : tryUrlI sel wN ('-' :: (lit " url: " ++ (lit "https://" ++
      (lit "files.pythonhosted.org/packages/iterfzf" ++ ('-' :: (u ++
      ('-' :: (plat ++ (' ' :: (lit "# [" ++ (selDoc ++
      (']' :: R)))))))))))) = none := h0
  rw [show (lit "- url: " ++ (lit "https://" ++
      (lit "files.pythonhosted.org/packages/iterfzf" ++ ('-' :: (u ++
      ('-' :: (plat ++ (' ' :: (lit "# [" ++ (selDoc ++ (']' :: R)))))))))) :
      List Char) =
    '-' :: (lit " url: " ++ (lit "https://" ++
      (lit "files.pythonhosted.org/packages/iterfzf" ++ ('-' :: (u ++
      ('-' :: (plat ++ (' ' :: (lit "# [" ++ (selDoc ++ (']' :: R)))))))))))
    from rfl]
  rw [subAll_cons_none h0']
  have hseg1 : SegSkip (tryUrlI sel wN) (lit " url: ") := by
    repeat first
    | exact segSkip_nil _
    | refine segSkip_cons (fun b => rfl) ?_
  have hseg2 : SegSkip (tryUrlI sel wN) (lit "https://") := by
    repeat first
    | exact segSkip_nil _
    | refine segSkip_cons (fun b => rfl) ?_
  have hseg3 : SegSkip (tryUrlI sel wN)
      (lit "files.pythonhosted.org/packages/iterfzf") := by
    repeat first
    | exact segSkip_nil _
    | refine segSkip_cons (fun b => rfl) ?_
  rw [subAll_segskip hseg1, subAll_segskip hseg2, subAll_segskip hseg3]
  rw [subAll_cons_none (tryUrlI_dash_pyfield sel wN hu hune _)]
  rw [subAll_splice_skip (tryUrlI_field_none sel wN (by decide) _) hu]
  rw [subAll_cons_none (hplatline (' ' :: (lit "# [" ++ (selDoc ++
    (']' :: R)))))]
  rw [subAll_segskip hplatskip]
  have hseg4 : SegSkip (tryUrlI sel wN) (' ' :: lit "# [") := by
    repeat first
    | exact segSkip_nil _
    | refine segSkip_cons (fun b => rfl) ?_
  rw [subAll_segskip_cons hseg4]
  rw [subAll_segskip hselskip]
  have h9 : tryUrlI sel wN (']' :: R) = none := rfl
  rw [subAll_cons_none h9]
  rfl

/-- A same-version `str.replace` over a wheel URL rewrites the
`iterfzf-{version}` filename segment to itself. -/
theorem subAll_replfiles_eq {vv X : List Char} :
    subAll (tryRepl (lit "iterfzf-" ++ vv) (lit "iterfzf-" ++ vv))
        (lit "files.pythonhosted.org/packages/iterfzf" ++
          ('-' :: (vv ++ ('-' :: X)))) =
      lit "files.pythonhosted.org/packages/iterfzf" ++ ('-' :: (vv ++
        ('-' :: subAll (tryRepl (lit "iterfzf-" ++ vv)
          (lit "iterfzf-" ++ vv)) X))) := by
  rw [show lit "files.pythonhosted.org/packages/iterfzf" ++
      ('-' :: (vv ++ ('-' :: X))) =
    lit "files.pythonhosted.org/packages/" ++
      ((lit "iterfzf-" ++ vv) ++ ('-' :: X)) from rfl]
  have hseg : SegSkip (tryRepl (lit "iterfzf-" ++ vv) (lit "iterfzf-" ++ vv))
      (lit "files.pythonhosted.org/packages/") := by
    repeat first
    | exact segSkip_nil _
    | refine segSkip_cons (fun b => rfl) ?_
  rw [subAll_segskip hseg]
  rw [subAll_match (consumes_tryRepl (by exact List.cons_ne_nil _ _) _)
    (tryRepl_site _ _ ('-' :: X))]
  have hd : ∀ b, tryRepl (lit "iterfzf-" ++ vv) (lit "iterfzf-" ++ vv)
      ('-' :: b) = none := fun b => rfl
  rw [subAll_cons_none (hd _)]
  rfl

/-- A version-changing `str.replace` walks over a wheel URL whose
filename segment carries a version the current one is not a prefix of,
without touching it. -/
theorem subAll_replfiles_ne {v rep U X : List Char}
    (hnp : ¬ List.IsPrefix v U) (hdash : '-' ∉ v)
    (hU : ∀ c ∈ U, isPyCh c = true) :
    subAll (tryRepl (lit "iterfzf-" ++ v) rep)
        (lit "files.pythonhosted.org/packages/iterfzf" ++
          ('-' :: (U ++ ('-' :: X)))) =
      lit "files.pythonhosted.org/packages/iterfzf" ++ ('-' :: (U ++
        ('-' :: subAll (tryRepl (lit "iterfzf-" ++ v) rep) X))) := by
  rw [show lit "files.pythonhosted.org/packages/iterfzf" ++
      ('-' :: (U ++ ('-' :: X))) =
    lit "files.pythonhosted.org/packages/" ++
      (lit "iterfzf" ++ ('-' :: (U ++ ('-' :: X)))) from rfl]
  have hseg : SegSkip (tryRepl (lit "iterfzf-" ++ v) rep)
      (lit "files.pythonhosted.org/packages/") := by
    repeat first
    | exact segSkip_nil _
    | refine segSkip_cons (fun b => rfl) ?_
  rw [subAll_segskip hseg]
  have h0 : tryRepl (lit "iterfzf-" ++ v) rep
      ('i' :: (lit "terfzf" ++ ('-' :: (U ++ ('-' :: X))))) = none :=
    tryRepl_iter_skip hnp hdash X
  rw [show (lit "iterfzf" ++ ('-' :: (U ++ ('-' :: X))) : List Char) =
    'i' :: (lit "terfzf" ++ ('-' :: (U ++ ('-' :: X)))) from rfl]
  rw [subAll_cons_none h0]
  have hseg2 : SegSkip (tryRepl (lit "iterfzf-" ++ v) rep) (lit "terfzf") := by
    repeat first
    | exact segSkip_nil _
    | refine segSkip_cons (fun b => rfl) ?_
  rw [subAll_segskip hseg2]
  have hd : ∀ b, tryRepl (lit "iterfzf-" ++ v) rep ('-' :: b) = none :=
    fun b => rfl
  rw [subAll_cons_none (hd _)]
  rw [subAll_splice_skip (@tryRepl_field_none v rep isPyCh (by decide) _) hU]
  rw [subAll_cons_none (hd _)]
  rfl

theorem renderI_search {v : List Char} (u1 u2 c1 c2 ds w : List Char)
    (hne : v ≠ []) (hv : ∀ c ∈ v, isVerCh c = true) :
    searchF tryVerG (renderI v u1 u2 c1 c2 ds w) = some v := by
  unfold renderI
  have hs1 : SegSkip tryVerG (lit "package:") := by
    repeat first
    | exact segSkip_nil _
    | refine segSkip_cons (fun b => rfl) ?_
  have hs2 : SegSkip tryVerG (lit "\n  name: iterfzf\n  ") := by
    repeat first
    | exact segSkip_nil _
    | refine segSkip_cons (fun b => rfl) ?_
  rw [searchF_segskip hs1, searchF_segskip hs2]
  exact searchF_found (by exact List.cons_ne_nil _ _) (tryVerG_site hne hv _ rfl)

/-- The package-scoped version substitution rewrites exactly the version
field of the iterfzf family. -/
theorem renderI_pkgver (wN : List Char) {v : List Char}
    (u1 u2 c1 c2 ds w : List Char)
    (hne : v ≠ []) (hv : ∀ c ∈ v, isVerCh c = true) :
    subFirst (tryPkgVer wN) (renderI v u1 u2 c1 c2 ds w) =
      renderI wN u1 u2 c1 c2 ds w := by
  unfold renderI
  rw [subFirst_found (by exact List.cons_ne_nil _ _)
    (tryPkgVer_siteI hne hv _ rfl)]
  simp only [List.append_assoc, List.cons_append, List.singleton_append]
  rfl

/-- The `osx and x86_64` checksum substitution rewrites exactly the first
checksum field of the iterfzf family. -/
theorem renderI_sha1 (cN : List Char) {v u1 u2 c1 c2 ds w : List Char}
    (hv : ∀ c ∈ v, isPyCh c = true)
    (hu1 : ∀ c ∈ u1, isPyCh c = true) (hu2 : ∀ c ∈ u2, isPyCh c = true)
    (hw : ∀ c ∈ w, isPyCh c = true)
    (hc1 : Hex64 c1) (hc2 : Hex64 c2)
    (hds : ∀ c ∈ ds, isDigitCh c = true) :
    subAll (tryShaSel (lit "osx and x86_64") cN) (renderI v u1 u2 c1 c2 ds w) =
      renderI v u1 u2 cN c2 ds w := by
  have hcon := consumes_tryShaSel (lit "osx and x86_64") cN
  have hdash : ∀ b, tryShaSel (lit "osx and x86_64") cN ('-' :: b) = none :=
    fun b => rfl
  have hs1 : SegSkip (tryShaSel (lit "osx and x86_64") cN) (lit "package:") := by
    repeat first
    | exact segSkip_nil _
    | refine segSkip_cons (fun b => rfl) ?_
  have hs2 : SegSkip (tryShaSel (lit "osx and x86_64") cN)
      (lit "\n  name: iterfzf\n  ") := by
    repeat first
    | exact segSkip_nil _
    | refine segSkip_cons (fun b => rfl) ?_
  have hs3 : SegSkip (tryShaSel (lit "osx and x86_64") cN)
      (lit "version: \"") := by
    repeat first
    | exact segSkip_nil _
    | refine segSkip_cons (fun b => rfl) ?_
  have hs4 : SegSkip (tryShaSel (lit "osx and x86_64") cN)
      ('"' :: lit "\n\nsource:\n  ") := by
    repeat first
    | exact segSkip_nil _
    | refine segSkip_cons (fun b => rfl) ?_
  have hs5 : SegSkip (tryShaSel (lit "osx and x86_64") cN) (lit "- url: ") := by
    repeat first
    | exact segSkip_nil _
    | refine segSkip_cons (fun b => rfl) ?_
  have hs6 : SegSkip (tryShaSel (lit "osx and x86_64") cN) (lit "https://") := by
    repeat first
    | exact segSkip_nil _
    | refine segSkip_cons (fun b => rfl) ?_
  have hs7 : SegSkip (tryShaSel (lit "osx and x86_64") cN)
      (lit "files.pythonhosted.org/packages/iterfzf") := by
    repeat first
    | exact segSkip_nil _
    | refine segSkip_cons (fun b => rfl) ?_
  have hs8 : SegSkip (tryShaSel (lit "osx and x86_64") cN)
      ('-' :: lit "py3-none-macosx_10_7_x86_64.macosx_10_9_x86_64.whl") := by
    repeat first
    | exact segSkip_nil _
    | refine segSkip_cons (fun b => rfl) ?_
  have hs9 : SegSkip (tryShaSel (lit "osx and x86_64") cN)
      (' ' :: lit "# [") := by
    repeat first
    | exact segSkip_nil _
    | refine segSkip_cons (fun b => rfl) ?_
  have hs10 : SegSkip (tryShaSel (lit "osx and x86_64") cN)
      (lit "osx and x86_64") := by
    repeat first
    | exact segSkip_nil _
    | refine segSkip_cons (fun b => rfl) ?_
  have hs11 : SegSkip (tryShaSel (lit "osx and x86_64") cN)
      (']' :: lit "\n    ") := by
    repeat first
    | exact segSkip_nil _
    | refine segSkip_cons (fun b => rfl) ?_
  have hs12 : SegSkip (tryShaSel (lit "osx and x86_64") cN) (lit "\n  ") := by
    repeat first
    | exact segSkip_nil _
    | refine segSkip_cons (fun b => rfl) ?_
  have hs13 : SegSkip (tryShaSel (lit "osx and x86_64") cN)
      ('-' :: lit "py3-none-macosx_11_0_arm64.whl") := by
    repeat first
    | exact segSkip_nil _
    | refine segSkip_cons (fun b => rfl) ?_
  have hs14 : SegSkip (tryShaSel (lit "osx and x86_64") cN)
      (lit "osx and arm64") := by
    repeat first
    | exact segSkip_nil _
    | refine segSkip_cons (fun b => rfl) ?_
  have hs15 : SegSkip (tryShaSel (lit "osx and x86_64") cN)
      (lit "\n\nbuild:\n  ") := by
    repeat first
    | exact segSkip_nil _
    | refine segSkip_cons (fun b => rfl) ?_
  have hs16 : SegSkip (tryShaSel (lit "osx and x86_64") cN)
      (lit "number: ") := by
    repeat first
    | exact segSkip_nil _
    | refine segSkip_cons (fun b => rfl) ?_
  have hs17 : SegSkip (tryShaSel (lit "osx and x86_64") cN)
      ('\n' :: lit "  script: python -m pip install ./") := by
    repeat first
    | exact segSkip_nil _
    | refine segSkip_cons (fun b => rfl) ?_
  have hs18 : SegSkip (tryShaSel (lit "osx and x86_64") cN)
      (lit "iterfzf") := by
    repeat first
    | exact segSkip_nil _
    | refine segSkip_cons (fun b => rfl) ?_
  have hs19 : SegSkip (tryShaSel (lit "osx and x86_64") cN)
      (lit "py3-none-any.whl\n") := by
    repeat first
    | exact segSkip_nil _
    | refine segSkip_cons (fun b => rfl) ?_
  unfold renderI
  rw [subAll_segskip hs1, subAll_segskip hs2, subAll_segskip hs3]
  rw [subAll_splice_cons (tryShaSel_hstart (lit "osx and x86_64") cN) isPyCh 0
    (by decide) (by decide) '"' (by decide) hv]
  rw [subAll_segskip_cons hs4, subAll_segskip hs5, subAll_segskip hs6,
    subAll_segskip hs7]
  rw [subAll_cons_none (hdash _)]
  rw [subAll_splice_skip
    (splice_hnone_of_lit (tryShaSel_hstart (lit "osx and x86_64") cN) isPyCh 0
      (by decide) (by decide) '-' (by decide) _) hu1]
  rw [subAll_segskip_cons hs8]
  rw [subAll_segskip_cons hs9, subAll_segskip hs10]
  rw [subAll_segskip_cons hs11]
  rw [subAll_match hcon (tryShaSel_site hc1.2 hc1.1 (hex64_ne_nil hc1) _ rfl)]
  rw [subAll_segskip hs12, subAll_segskip hs5, subAll_segskip hs6,
    subAll_segskip hs7]
  rw [subAll_cons_none (hdash _)]
  rw [subAll_splice_skip
    (splice_hnone_of_lit (tryShaSel_hstart (lit "osx and x86_64") cN) isPyCh 0
      (by decide) (by decide) '-' (by decide) _) hu2]
  rw [subAll_segskip_cons hs13]
  rw [subAll_segskip_cons hs9, subAll_segskip hs14]
  rw [subAll_segskip_cons hs11]
  rw [subAll_shaLine_wrong hc2.2 hc2.1 (hex64_ne_nil hc2) hs14 (fun t => rfl)]
  rw [subAll_segskip hs15, subAll_segskip hs16]
  rw [subAll_splice_cons (tryShaSel_hstart (lit "osx and x86_64") cN) isDigitCh 0
    (by decide) (by decide) '\n' (by decide) hds]
  rw [subAll_segskip_cons hs17, subAll_segskip hs18]
  rw [subAll_cons_none (hdash _)]
  rw [subAll_splice_skip
    (splice_hnone_of_lit (tryShaSel_hstart (lit "osx and x86_64") cN) isPyCh 0
      (by decide) (by decide) '-' (by decide) _) hw]
  rw [subAll_cons_none (hdash _)]
  rw [subAll_segskip_total hs19]
  simp only [List.append_assoc, List.cons_append, List.singleton_append]
  rfl

/-- The `osx and arm64` checksum substitution rewrites exactly the second
checksum field of the iterfzf family. -/
theorem renderI_sha2 (cN : List Char) {v u1 u2 c1 c2 ds w : List Char}
    (hv : ∀ c ∈ v, isPyCh c = true)
    (hu1 : ∀ c ∈ u1, isPyCh c = true) (hu2 : ∀ c ∈ u2, isPyCh c = true)
    (hw : ∀ c ∈ w, isPyCh c = true)
    (hc1 : Hex64 c1) (hc2 : Hex64 c2)
    (hds : ∀ c ∈ ds, isDigitCh c = true) :
    subAll (tryShaSel (lit "osx and arm64") cN) (renderI v u1 u2 c1 c2 ds w) =
      renderI v u1 u2 c1 cN ds w := by
  have hcon := consumes_tryShaSel (lit "osx and arm64") cN
  have hdash : ∀ b, tryShaSel (lit "osx and arm64") cN ('-' :: b) = none :=
    fun b => rfl
  have hs1 : SegSkip (tryShaSel (lit "osx and arm64") cN) (lit "package:") := by
    repeat first
    | exact segSkip_nil _
    | refine segSkip_cons (fun b => rfl) ?_
  have hs2 : SegSkip (tryShaSel (lit "osx and arm64") cN)
      (lit "\n  name: iterfzf\n  ") := by
    repeat first
    | exact segSkip_nil _
    | refine segSkip_cons (fun b => rfl) ?_
  have hs3 : SegSkip (tryShaSel (lit "osx and arm64") cN)
      (lit "version: \"") := by
    repeat first
    | exact segSkip_nil _
    | refine segSkip_cons (fun b => rfl) ?_
  have hs4 : SegSkip (tryShaSel (lit "osx and arm64") cN)
      ('"' :: lit "\n\nsource:\n  ") := by
    repeat first
    | exact segSkip_nil _
    | refine segSkip_cons (fun b => rfl) ?_
  have hs5 : SegSkip (tryShaSel (lit "osx and arm64") cN) (lit "- url: ") := by
    repeat first
    | exact segSkip_nil _
    | refine segSkip_cons (fun b => rfl) ?_
  have hs6 : SegSkip (tryShaSel (lit "osx and arm64") cN) (lit "https://") := by
    repeat first
    | exact segSkip_nil _
    | refine segSkip_cons (fun b => rfl) ?_
  have hs7 : SegSkip (tryShaSel (lit "osx and arm64") cN)
      (lit "files.pythonhosted.org/packages/iterfzf") := by
    repeat first
    | exact segSkip_nil _
    | refine segSkip_cons (fun b => rfl) ?_
  have hs8 : SegSkip (tryShaSel (lit "osx and arm64") cN)
      ('-' :: lit "py3-none-macosx_10_7_x86_64.macosx_10_9_x86_64.whl") := by
    repeat first
    | exact segSkip_nil _
    | refine segSkip_cons (fun b => rfl) ?_
  have hs9 : SegSkip (tryShaSel (lit "osx and arm64") cN)
      (' ' :: lit "# [") := by
    repeat first
    | exact segSkip_nil _
    | refine segSkip_cons (fun b => rfl) ?_
  have hs10 : SegSkip (tryShaSel (lit "osx and arm64") cN)
      (lit "osx and x86_64") := by
    repeat first
    | exact segSkip_nil _
    | refine segSkip_cons (fun b => rfl) ?_
  have hs11 : SegSkip (tryShaSel (lit "osx and arm64") cN)
      (']' :: lit "\n    ") := by
    repeat first
    | exact segSkip_nil _
    | refine segSkip_cons (fun b => rfl) ?_
  have hs12 : SegSkip (tryShaSel (lit "osx and arm64") cN) (lit "\n  ") := by
    repeat first
    | exact segSkip_nil _
    | refine segSkip_cons (fun b => rfl) ?_
  have hs13 : SegSkip (tryShaSel (lit "osx and arm64") cN)
      ('-' :: lit "py3-none-macosx_11_0_arm64.whl") := by
    repeat first
    | exact segSkip_nil _
    | refine segSkip_cons (fun b => rfl) ?_
  have hs14 : SegSkip (tryShaSel (lit "osx and arm64") cN)
      (lit "osx and arm64") := by
    repeat first
    | exact segSkip_nil _
    | refine segSkip_cons (fun b => rfl) ?_
  have hs15 : SegSkip (tryShaSel (lit "osx and arm64") cN)
      (lit "\n\nbuild:\n  ") := by
    repeat first
    | exact segSkip_nil _
    | refine segSkip_cons (fun b => rfl) ?_
  have hs16 : SegSkip (tryShaSel (lit "osx and arm64") cN)
      (lit "number: ") := by
    repeat first
    | exact segSkip_nil _
    | refine segSkip_cons (fun b => rfl) ?_
  have hs17 : SegSkip (tryShaSel (lit "osx and arm64") cN)
      ('\n' :: lit "  script: python -m pip install ./") := by
    repeat first
    | exact segSkip_nil _
    | refine segSkip_cons (fun b => rfl) ?_
  have hs18 : SegSkip (tryShaSel (lit "osx and arm64") cN)
      (lit "iterfzf") := by
    repeat first
    | exact segSkip_nil _
    | refine segSkip_cons (fun b => rfl) ?_
  have hs19 : SegSkip (tryShaSel (lit "osx and arm64") cN)
      (lit "py3-none-any.whl\n") := by
    repeat first
    | exact segSkip_nil _
    | refine segSkip_cons (fun b => rfl) ?_
  unfold renderI
  rw [subAll_segskip hs1, subAll_segskip hs2, subAll_segskip hs3]
  rw [subAll_splice_cons (tryShaSel_hstart (lit "osx and arm64") cN) isPyCh 0
    (by decide) (by decide) '"' (by decide) hv]
  rw [subAll_segskip_cons hs4, subAll_segskip hs5, subAll_segskip hs6,
    subAll_segskip hs7]
  rw [subAll_cons_none (hdash _)]
  rw [subAll_splice_skip
    (splice_hnone_of_lit (tryShaSel_hstart (lit "osx and arm64") cN) isPyCh 0
      (by decide) (by decide) '-' (by decide) _) hu1]
  rw [subAll_segskip_cons hs8]
  rw [subAll_segskip_cons hs9, subAll_segskip hs10]
  rw [subAll_segskip_cons hs11]
  rw [subAll_shaLine_wrong hc1.2 hc1.1 (hex64_ne_nil hc1) hs10 (fun t => rfl)]
  rw [subAll_segskip hs12, subAll_segskip hs5, subAll_segskip hs6,
    subAll_segskip hs7]
  rw [subAll_cons_none (hdash _)]
  rw [subAll_splice_skip
    (splice_hnone_of_lit (tryShaSel_hstart (lit "osx and arm64") cN) isPyCh 0
      (by decide) (by decide) '-' (by decide) _) hu2]
  rw [subAll_segskip_cons hs13]
  rw [subAll_segskip_cons hs9, subAll_segskip hs14]
  rw [subAll_segskip_cons hs11]
  rw [subAll_match hcon (tryShaSel_site hc2.2 hc2.1 (hex64_ne_nil hc2) _ rfl)]
  rw [subAll_segskip hs15, subAll_segskip hs16]
  rw [subAll_splice_cons (tryShaSel_hstart (lit "osx and arm64") cN) isDigitCh 0
    (by decide) (by decide) '\n' (by decide) hds]
  rw [subAll_segskip_cons hs17, subAll_segskip hs18]
  rw [subAll_cons_none (hdash _)]
  rw [subAll_splice_skip
    (splice_hnone_of_lit (tryShaSel_hstart (lit "osx and arm64") cN) isPyCh 0
      (by decide) (by decide) '-' (by decide) _) hw]
  rw [subAll_cons_none (hdash _)]
  rw [subAll_segskip_total hs19]
  simp only [List.append_assoc, List.cons_append, List.singleton_append]
  rfl

/-- The `osx and x86_64` URL substitution rewrites exactly the first URL
line of the iterfzf family. -/
theorem renderI_urlX (uN : List Char) {v u1 u2 c1 c2 ds w : List Char}
    (hv : ∀ c ∈ v, isPyCh c = true)
    (hu1 : ∀ c ∈ u1, isPyCh c = true)
    (hu2 : ∀ c ∈ u2, isPyCh c = true) (hu2ne : u2 ≠ [])
    (hw : ∀ c ∈ w, isPyCh c = true) (hwne : w ≠ [])
    (hc1 : ∀ c ∈ c1, isHexCh c = true) (hc2 : ∀ c ∈ c2, isHexCh c = true)
    (hds : ∀ c ∈ ds, isDigitCh c = true) :
    subAll (tryUrlI (lit "osx and x86_64") (wheelUrlX uN))
        (renderI v u1 u2 c1 c2 ds w) =
      renderI v uN u2 c1 c2 ds w := by
  have hcon := consumes_tryUrlI (lit "osx and x86_64") (wheelUrlX uN)
  have hs1 : SegSkip (tryUrlI (lit "osx and x86_64") (wheelUrlX uN))
      (lit "package:") := by
    repeat first
    | exact segSkip_nil _
    | refine segSkip_cons (fun b => rfl) ?_
  have hs2 : SegSkip (tryUrlI (lit "osx and x86_64") (wheelUrlX uN))
      (lit "\n  name: iterfzf\n  ") := by
    repeat first
    | exact segSkip_nil _
    | refine segSkip_cons (fun b => rfl) ?_
  have hs3 : SegSkip (tryUrlI (lit "osx and x86_64") (wheelUrlX uN))
      (lit "version: \"") := by
    repeat first
    | exact segSkip_nil _
    | refine segSkip_cons (fun b => rfl) ?_
  have hs4 : SegSkip (tryUrlI (lit "osx and x86_64") (wheelUrlX uN))
      ('"' :: lit "\n\nsource:\n  ") := by
    repeat first
    | exact segSkip_nil _
    | refine segSkip_cons (fun b => rfl) ?_
  have hs5 : SegSkip (tryUrlI (lit "osx and x86_64") (wheelUrlX uN))
      (lit "\n    ") := by
    repeat first
    | exact segSkip_nil _
    | refine segSkip_cons (fun b => rfl) ?_
  have hs6 : SegSkip (tryUrlI (lit "osx and x86_64") (wheelUrlX uN))
      (lit "sha256: ") := by
    repeat first
    | exact segSkip_nil _
    | refine segSkip_cons (fun b => rfl) ?_
  have hs7 : SegSkip (tryUrlI (lit "osx and x86_64") (wheelUrlX uN))
      (' ' :: lit " # [") := by
    repeat first
    | exact segSkip_nil _
    | refine segSkip_cons (fun b => rfl) ?_
  have hs8 : SegSkip (tryUrlI (lit "osx and x86_64") (wheelUrlX uN))
      (lit "osx and x86_64") := by
    repeat first
    | exact segSkip_nil _
    | refine segSkip_cons (fun b => rfl) ?_
  have hs9 : SegSkip (tryUrlI (lit "osx and x86_64") (wheelUrlX uN))
      (']' :: lit "\n  ") := by
    repeat first
    | exact segSkip_nil _
    | refine segSkip_cons (fun b => rfl) ?_
  have hs10 : SegSkip (tryUrlI (lit "osx and x86_64") (wheelUrlX uN))
      (lit "osx and arm64") := by
    repeat first
    | exact segSkip_nil _
    | refine segSkip_cons (fun b => rfl) ?_
  have hs11 : SegSkip (tryUrlI (lit "osx and x86_64") (wheelUrlX uN))
      (']' :: lit "\n\nbuild:\n  ") := by
    repeat first
    | exact segSkip_nil _
    | refine segSkip_cons (fun b => rfl) ?_
  have hs12 : SegSkip (tryUrlI (lit "osx and x86_64") (wheelUrlX uN))
      (lit "number: ") := by
    repeat first
    | exact segSkip_nil _
    | refine segSkip_cons (fun b => rfl) ?_
  have hs13 : SegSkip (tryUrlI (lit "osx and x86_64") (wheelUrlX uN))
      ('\n' :: lit "  script: python -m pip install ./") := by
    repeat first
    | exact segSkip_nil _
    | refine segSkip_cons (fun b => rfl) ?_
  have hs14 : SegSkip (tryUrlI (lit "osx and x86_64") (wheelUrlX uN))
      (lit "iterfzf") := by
    repeat first
    | exact segSkip_nil _
    | refine segSkip_cons (fun b => rfl) ?_
  have hs15 : SegSkip (tryUrlI (lit "osx and x86_64") (wheelUrlX uN))
      (lit "py3-none-any.whl\n") := by
    repeat first
    | exact segSkip_nil _
    | refine segSkip_cons (fun b => rfl) ?_
  have hplatskipA : SegSkip (tryUrlI (lit "osx and x86_64") (wheelUrlX uN))
      (lit "py3-none-macosx_11_0_arm64.whl") := by
    repeat first
    | exact segSkip_nil _
    | refine segSkip_cons (fun b => rfl) ?_
  have hplatline : ∀ X, tryUrlI (lit "osx and x86_64") (wheelUrlX uN)
      ('-' :: (lit "py3-none-macosx_11_0_arm64.whl" ++ X)) = none :=
    fun X => rfl
  have hend : tryUrlI (lit "osx and x86_64") (wheelUrlX uN)
      ('-' :: lit "py3-none-any.whl\n") = none := rfl
  unfold renderI
  rw [subAll_segskip hs1, subAll_segskip hs2, subAll_segskip hs3]
  rw [subAll_splice_skip
    (tryUrlI_field_none (lit "osx and x86_64") (wheelUrlX uN)
      (by decide) _) hv]
  rw [subAll_segskip_cons hs4]
  rw [subAll_match hcon (tryUrlI_site (lit "osx and x86_64")
    (lit "py3-none-macosx_10_7_x86_64.macosx_10_9_x86_64.whl")
    (wheelUrlX uN) hu1 (by decide) _ rfl)]
  rw [subAll_segskip hs5, subAll_segskip hs6]
  rw [subAll_splice_skip
    (tryUrlI_field_none (lit "osx and x86_64") (wheelUrlX uN)
      (by decide) _) hc1]
  rw [subAll_segskip_cons hs7, subAll_segskip hs8]
  rw [subAll_segskip_cons hs9]
  rw [subAll_urlLineI_wrong hu2 hu2ne (by decide) hplatline
    hplatskipA hs10 rfl]
  rw [subAll_segskip hs5, subAll_segskip hs6]
  rw [subAll_splice_skip
    (tryUrlI_field_none (lit "osx and x86_64") (wheelUrlX uN)
      (by decide) _) hc2]
  rw [subAll_segskip_cons hs7, subAll_segskip hs10]
  rw [subAll_segskip_cons hs11, subAll_segskip hs12]
  rw [subAll_splice_skip
    (tryUrlI_field_none (lit "osx and x86_64") (wheelUrlX uN)
      (by decide) _) hds]
  rw [subAll_segskip_cons hs13, subAll_segskip hs14]
  rw [subAll_cons_none
    (tryUrlI_dash_pyfield (lit "osx and x86_64") (wheelUrlX uN) hw hwne _)]
  rw [subAll_splice_skip
    (tryUrlI_field_none (lit "osx and x86_64") (wheelUrlX uN)
      (by decide) _) hw]
  rw [subAll_cons_none hend]
  rw [subAll_segskip_total hs15]
  simp only [wheelUrlX, List.append_assoc, List.cons_append,
    List.singleton_append, List.nil_append]

/-- The `osx and arm64` URL substitution rewrites exactly the second URL
line of the iterfzf family. -/
theorem renderI_urlA (uN : List Char) {v u1 u2 c1 c2 ds w : List Char}
    (hv : ∀ c ∈ v, isPyCh c = true)
    (hu1 : ∀ c ∈ u1, isPyCh c = true) (hu1ne : u1 ≠ [])
    (hu2 : ∀ c ∈ u2, isPyCh c = true)
    (hw : ∀ c ∈ w, isPyCh c = true) (hwne : w ≠ [])
    (hc1 : ∀ c ∈ c1, isHexCh c = true) (hc2 : ∀ c ∈ c2, isHexCh c = true)
    (hds : ∀ c ∈ ds, isDigitCh c = true) :
    subAll (tryUrlI (lit "osx and arm64") (wheelUrlA uN))
        (renderI v u1 u2 c1 c2 ds w) =
      renderI v u1 uN c1 c2 ds w := by
  have hcon := consumes_tryUrlI (lit "osx and arm64") (wheelUrlA uN)
  have hs1 : SegSkip (tryUrlI (lit "osx and arm64") (wheelUrlA uN))
      (lit "package:") := by
    repeat first
    | exact segSkip_nil _
    | refine segSkip_cons (fun b => rfl) ?_
  have hs2 : SegSkip (tryUrlI (lit "osx and arm64") (wheelUrlA uN))
      (lit "\n  name: iterfzf\n  ") := by
    repeat first
    | exact segSkip_nil _
    | refine segSkip_cons (fun b => rfl) ?_
  have hs3 : SegSkip (tryUrlI (lit "osx and arm64") (wheelUrlA uN))
      (lit "version: \"") := by
    repeat first
    | exact segSkip_nil _
    | refine segSkip_cons (fun b => rfl) ?_
  have hs4 : SegSkip (tryUrlI (lit "osx and arm64") (wheelUrlA uN))
      ('"' :: lit "\n\nsource:\n  ") := by
    repeat first
    | exact segSkip_nil _
    | refine segSkip_cons (fun b => rfl) ?_
  have hs5 : SegSkip (tryUrlI (lit "osx and arm64") (wheelUrlA uN))
      (lit "\n    ") := by
    repeat first
    | exact segSkip_nil _
    | refine segSkip_cons (fun b => rfl) ?_
  have hs6 : SegSkip (tryUrlI (lit "osx and arm64") (wheelUrlA uN))
      (lit "sha256: ") := by
    repeat first
    | exact segSkip_nil _
    | refine segSkip_cons (fun b => rfl) ?_
  have hs7 : SegSkip (tryUrlI (lit "osx and arm64") (wheelUrlA uN))
      (' ' :: lit " # [") := by
    repeat first
    | exact segSkip_nil _
    | refine segSkip_cons (fun b => rfl) ?_
  have hs8 : SegSkip (tryUrlI (lit "osx and arm64") (wheelUrlA uN))
      (lit "osx and x86_64") := by
    repeat first
    | exact segSkip_nil _
    | refine segSkip_cons (fun b => rfl) ?_
  have hs9 : SegSkip (tryUrlI (lit "osx and arm64") (wheelUrlA uN))
      (']' :: lit "\n  ") := by
    repeat first
    | exact segSkip_nil _
    | refine segSkip_cons (fun b => rfl) ?_
  have hs10 : SegSkip (tryUrlI (lit "osx and arm64") (wheelUrlA uN))
      (lit "osx and arm64") := by
    repeat first
    | exact segSkip_nil _
    | refine segSkip_cons (fun b => rfl) ?_
  have hs11 : SegSkip (tryUrlI (lit "osx and arm64") (wheelUrlA uN))
      (']' :: lit "\n\nbuild:\n  ") := by
    repeat first
    | exact segSkip_nil _
    | refine segSkip_cons (fun b => rfl) ?_
  have hs12 : SegSkip (tryUrlI (lit "osx and arm64") (wheelUrlA uN))
      (lit "number: ") := by
    repeat first
    | exact segSkip_nil _
    | refine segSkip_cons (fun b => rfl) ?_
  have hs13 : SegSkip (tryUrlI (lit "osx and arm64") (wheelUrlA uN))
      ('\n' :: lit "  script: python -m pip install ./") := by
    repeat first
    | exact segSkip_nil _
    | refine segSkip_cons (fun b => rfl) ?_
  have hs14 : SegSkip (tryUrlI (lit "osx and arm64") (wheelUrlA uN))
      (lit "iterfzf") := by
    repeat first
    | exact segSkip_nil _
    | refine segSkip_cons (fun b => rfl) ?_
  have hs15 : SegSkip (tryUrlI (lit "osx and arm64") (wheelUrlA uN))
      (lit "py3-none-any.whl\n") := by
    repeat first
    | exact segSkip_nil _
    | refine segSkip_cons (fun b => rfl) ?_
  have hplatskipX : SegSkip (tryUrlI (lit "osx and arm64") (wheelUrlA uN))
      (lit "py3-none-macosx_10_7_x86_64.macosx_10_9_x86_64.whl") := by
    repeat first
    | exact segSkip_nil _
    | refine segSkip_cons (fun b => rfl) ?_
  have hplatline : ∀ X, tryUrlI (lit "osx and arm64") (wheelUrlA uN)
      ('-' :: (lit "py3-none-macosx_10_7_x86_64.macosx_10_9_x86_64.whl" ++ X))
      = none := fun X => rfl
  have hend : tryUrlI (lit "osx and arm64") (wheelUrlA uN)
      ('-' :: lit "py3-none-any.whl\n") = none := rfl
  unfold renderI
  rw [subAll_segskip hs1, subAll_segskip hs2, subAll_segskip hs3]
  rw [subAll_splice_skip
    (tryUrlI_field_none (lit "osx and arm64") (wheelUrlA uN)
      (by decide) _) hv]
  rw [subAll_segskip_cons hs4]
  rw [subAll_urlLineI_wrong hu1 hu1ne (by decide) hplatline
    hplatskipX hs8 rfl]
  rw [subAll_segskip hs5, subAll_segskip hs6]
  rw [subAll_splice_skip
    (tryUrlI_field_none (lit "osx and arm64") (wheelUrlA uN)
      (by decide) _) hc1]
  rw [subAll_segskip_cons hs7, subAll_segskip hs8]
  rw [subAll_segskip_cons hs9]
  rw [subAll_match hcon (tryUrlI_site (lit "osx and arm64")
    (lit "py3-none-macosx_11_0_arm64.whl")
    (wheelUrlA uN) hu2 (by decide) _ rfl)]
  rw [subAll_segskip hs5, subAll_segskip hs6]
  rw [subAll_splice_skip
    (tryUrlI_field_none (lit "osx and arm64") (wheelUrlA uN)
      (by decide) _) hc2]
  rw [subAll_segskip_cons hs7, subAll_segskip hs10]
  rw [subAll_segskip_cons hs11, subAll_segskip hs12]
  rw [subAll_splice_skip
    (tryUrlI_field_none (lit "osx and arm64") (wheelUrlA uN)
      (by decide) _) hds]
  rw [subAll_segskip_cons hs13, subAll_segskip hs14]
  rw [subAll_cons_none
    (tryUrlI_dash_pyfield (lit "osx and arm64") (wheelUrlA uN) hw hwne _)]
  rw [subAll_splice_skip
    (tryUrlI_field_none (lit "osx and arm64") (wheelUrlA uN)
      (by decide) _) hw]
  rw [subAll_cons_none hend]
  rw [subAll_segskip_total hs15]
  simp only [wheelUrlA, List.append_assoc, List.cons_append,
    List.singleton_append, List.nil_append]

/-- The build-number reset rewrites exactly the number field of the
iterfzf family. -/
theorem renderI_number {v u1 u2 c1 c2 ds w : List Char}
    (hv : ∀ c ∈ v, isPyCh c = true)
    (hu1 : ∀ c ∈ u1, isPyCh c = true) (hu2 : ∀ c ∈ u2, isPyCh c = true)
    (hw : ∀ c ∈ w, isPyCh c = true)
    (hc1 : ∀ c ∈ c1, isHexCh c = true) (hc2 : ∀ c ∈ c2, isHexCh c = true)
    (hne : ds ≠ []) (hds : ∀ c ∈ ds, isDigitCh c = true) :
    subAll tryNumber (renderI v u1 u2 c1 c2 ds w) =
      renderI v u1 u2 c1 c2 (lit "0") w := by
  have hcon := consumes_tryNumber
  have hdash : ∀ b, tryNumber ('-' :: b) = none := fun b => rfl
  have hs1 : SegSkip tryNumber (lit "package:") := by
    repeat first
    | exact segSkip_nil _
    | refine segSkip_cons (fun b => rfl) ?_
  have hs2 : SegSkip tryNumber (lit "\n  name: iterfzf\n  ") := by
    repeat first
    | exact segSkip_nil _
    | refine segSkip_cons (fun b => rfl) ?_
  have hs3 : SegSkip tryNumber (lit "version: \"") := by
    repeat first
    | exact segSkip_nil _
    | refine segSkip_cons (fun b => rfl) ?_
  have hs4 : SegSkip tryNumber ('"' :: lit "\n\nsource:\n  ") := by
    repeat first
    | exact segSkip_nil _
    | refine segSkip_cons (fun b => rfl) ?_
  have hs5 : SegSkip tryNumber (lit "- url: ") := by
    repeat first
    | exact segSkip_nil _
    | refine segSkip_cons (fun b => rfl) ?_
  have hs6 : SegSkip tryNumber (lit "https://") := by
    repeat first
    | exact segSkip_nil _
    | refine segSkip_cons (fun b => rfl) ?_
  have hs7 : SegSkip tryNumber
      (lit "files.pythonhosted.org/packages/iterfzf") := by
    repeat first
    | exact segSkip_nil _
    | refine segSkip_cons (fun b => rfl) ?_
  have hs8 : SegSkip tryNumber
      ('-' :: lit "py3-none-macosx_10_7_x86_64.macosx_10_9_x86_64.whl") := by
    repeat first
    | exact segSkip_nil _
    | refine segSkip_cons (fun b => rfl) ?_
  have hs9 : SegSkip tryNumber (' ' :: lit "# [") := by
    repeat first
    | exact segSkip_nil _
    | refine segSkip_cons (fun b => rfl) ?_
  have hs10 : SegSkip tryNumber (lit "osx and x86_64") := by
    repeat first
    | exact segSkip_nil _
    | refine segSkip_cons (fun b => rfl) ?_
  have hs11 : SegSkip tryNumber (']' :: lit "\n    ") := by
    repeat first
    | exact segSkip_nil _
    | refine segSkip_cons (fun b => rfl) ?_
  have hs12 : SegSkip tryNumber (lit "sha256: ") := by
    repeat first
    | exact segSkip_nil _
    | refine segSkip_cons (fun b => rfl) ?_
  have hs13 : SegSkip tryNumber (' ' :: lit " # [") := by
    repeat first
    | exact segSkip_nil _
    | refine segSkip_cons (fun b => rfl) ?_
  have hs14 : SegSkip tryNumber (']' :: lit "\n  ") := by
    repeat first
    | exact segSkip_nil _
    | refine segSkip_cons (fun b => rfl) ?_
  have hs15 : SegSkip tryNumber
      ('-' :: lit "py3-none-macosx_11_0_arm64.whl") := by
    repeat first
    | exact segSkip_nil _
    | refine segSkip_cons (fun b => rfl) ?_
  have hs16 : SegSkip tryNumber (lit "osx and arm64") := by
    repeat first
    | exact segSkip_nil _
    | refine segSkip_cons (fun b => rfl) ?_
  have hs17 : SegSkip tryNumber (']' :: lit "\n\nbuild:\n  ") := by
    repeat first
    | exact segSkip_nil _
    | refine segSkip_cons (fun b => rfl) ?_
  have hs18 : SegSkip tryNumber
      ('\n' :: lit "  script: python -m pip install ./") := by
    repeat first
    | exact segSkip_nil _
    | refine segSkip_cons (fun b => rfl) ?_
  have hs19 : SegSkip tryNumber (lit "iterfzf") := by
    repeat first
    | exact segSkip_nil _
    | refine segSkip_cons (fun b => rfl) ?_
  have hs20 : SegSkip tryNumber (lit "py3-none-any.whl\n") := by
    repeat first
    | exact segSkip_nil _
    | refine segSkip_cons (fun b => rfl) ?_
  unfold renderI
  rw [subAll_segskip hs1, subAll_segskip hs2, subAll_segskip hs3]
  rw [subAll_splice_cons tryNumber_hstart isPyCh 0
    (by decide) (by decide) '"' (by decide) hv]
  rw [subAll_segskip_cons hs4, subAll_segskip hs5, subAll_segskip hs6,
    subAll_segskip hs7]
  rw [subAll_cons_none (hdash _)]
  rw [subAll_splice_skip
    (splice_hnone_of_lit tryNumber_hstart isPyCh 0
      (by decide) (by decide) '-' (by decide) _) hu1]
  rw [subAll_segskip_cons hs8]
  rw [subAll_segskip_cons hs9, subAll_segskip hs10]
  rw [subAll_segskip_cons hs11, subAll_segskip hs12]
  rw [subAll_splice_cons tryNumber_hstart isHexCh 0
    (by decide) (by decide) ' ' (by decide) hc1]
  rw [subAll_segskip_cons hs13, subAll_segskip hs10]
  rw [subAll_segskip_cons hs14, subAll_segskip hs5, subAll_segskip hs6,
    subAll_segskip hs7]
  rw [subAll_cons_none (hdash _)]
  rw [subAll_splice_skip
    (splice_hnone_of_lit tryNumber_hstart isPyCh 0
      (by decide) (by decide) '-' (by decide) _) hu2]
  rw [subAll_segskip_cons hs15]
  rw [subAll_segskip_cons hs9, subAll_segskip hs16]
  rw [subAll_segskip_cons hs11, subAll_segskip hs12]
  rw [subAll_splice_cons tryNumber_hstart isHexCh 0
    (by decide) (by decide) ' ' (by decide) hc2]
  rw [subAll_segskip_cons hs13, subAll_segskip hs16]
  rw [subAll_segskip_cons hs17]
  rw [subAll_match hcon (tryNumber_site hne hds _ rfl)]
  rw [subAll_segskip_cons hs18, subAll_segskip hs19]
  rw [subAll_cons_none (hdash _)]
  rw [subAll_splice_skip
    (splice_hnone_of_lit tryNumber_hstart isPyCh 0
      (by decide) (by decide) '-' (by decide) _) hw]
  rw [subAll_cons_none (hdash _)]
  rw [subAll_segskip_total hs20]
  rfl

/-- The global `iterfzf-{current}` → `iterfzf-{version}` string
replacement when the version did not change: every occurrence is
replaced by itself, so the document is unchanged. -/
theorem renderI_repl_eq {P c1 c2 ds vv : List Char}
    (hP : ∀ c ∈ P, isPyCh c = true)
    (hc1 : ∀ c ∈ c1, isHexCh c = true) (hc2 : ∀ c ∈ c2, isHexCh c = true)
    (hds : ∀ c ∈ ds, isDigitCh c = true) :
    subAll (tryRepl (lit "iterfzf-" ++ vv) (lit "iterfzf-" ++ vv))
        (renderI P vv vv c1 c2 ds vv) =
      renderI P vv vv c1 c2 ds vv := by
  have hpne : (lit "iterfzf-" ++ vv) ≠ [] := by exact List.cons_ne_nil _ _
  have hd : ∀ b, tryRepl (lit "iterfzf-" ++ vv) (lit "iterfzf-" ++ vv)
      ('-' :: b) = none := fun b => rfl
  have hs1 : SegSkip (tryRepl (lit "iterfzf-" ++ vv) (lit "iterfzf-" ++ vv))
      (lit "package:") := by
    repeat first
    | exact segSkip_nil _
    | refine segSkip_cons (fun b => rfl) ?_
  have hs2 : SegSkip (tryRepl (lit "iterfzf-" ++ vv) (lit "iterfzf-" ++ vv))
      (lit "\n  name: iterfzf\n  ") := by
    repeat first
    | exact segSkip_nil _
    | refine segSkip_cons (fun b => rfl) ?_
  have hs3 : SegSkip (tryRepl (lit "iterfzf-" ++ vv) (lit "iterfzf-" ++ vv))
      (lit "version: \"") := by
    repeat first
    | exact segSkip_nil _
    | refine segSkip_cons (fun b => rfl) ?_
  have hs4 : SegSkip (tryRepl (lit "iterfzf-" ++ vv) (lit "iterfzf-" ++ vv))
      ('"' :: lit "\n\nsource:\n  ") := by
    repeat first
    | exact segSkip_nil _
    | refine segSkip_cons (fun b => rfl) ?_
  have hs5 : SegSkip (tryRepl (lit "iterfzf-" ++ vv) (lit "iterfzf-" ++ vv))
      (lit "- url: ") := by
    repeat first
    | exact segSkip_nil _
    | refine segSkip_cons (fun b => rfl) ?_
  have hs6 : SegSkip (tryRepl (lit "iterfzf-" ++ vv) (lit "iterfzf-" ++ vv))
      (lit "https://") := by
    repeat first
    | exact segSkip_nil _
    | refine segSkip_cons (fun b => rfl) ?_
  have hs8 : SegSkip (tryRepl (lit "iterfzf-" ++ vv) (lit "iterfzf-" ++ vv))
      (lit "py3-none-macosx_10_7_x86_64.macosx_10_9_x86_64.whl") := by
    repeat first
    | exact segSkip_nil _
    | refine segSkip_cons (fun b => rfl) ?_
  have hs9 : SegSkip (tryRepl (lit "iterfzf-" ++ vv) (lit "iterfzf-" ++ vv))
      (' ' :: lit "# [") := by
    repeat first
    | exact segSkip_nil _
    | refine segSkip_cons (fun b => rfl) ?_
  have hs10 : SegSkip (tryRepl (lit "iterfzf-" ++ vv) (lit "iterfzf-" ++ vv))
      (lit "osx and x86_64") := by
    repeat first
    | exact segSkip_nil _
    | refine segSkip_cons (fun b => rfl) ?_
  have hs11 : SegSkip (tryRepl (lit "iterfzf-" ++ vv) (lit "iterfzf-" ++ vv))
      (']' :: lit "\n    ") := by
    repeat first
    | exact segSkip_nil _
    | refine segSkip_cons (fun b => rfl) ?_
  have hs12 : SegSkip (tryRepl (lit "iterfzf-" ++ vv) (lit "iterfzf-" ++ vv))
      (lit "sha256: ") := by
    repeat first
    | exact segSkip_nil _
    | refine segSkip_cons (fun b => rfl) ?_
  have hs13 : SegSkip (tryRepl (lit "iterfzf-" ++ vv) (lit "iterfzf-" ++ vv))
      (' ' :: lit " # [") := by
    repeat first
    | exact segSkip_nil _
    | refine segSkip_cons (fun b => rfl) ?_
  have hs14 : SegSkip (tryRepl (lit "iterfzf-" ++ vv) (lit "iterfzf-" ++ vv))
      (']' :: lit "\n  ") := by
    repeat first
    | exact segSkip_nil _
    | refine segSkip_cons (fun b => rfl) ?_
  have hs15 : SegSkip (tryRepl (lit "iterfzf-" ++ vv) (lit "iterfzf-" ++ vv))
      (lit "py3-none-macosx_11_0_arm64.whl") := by
    repeat first
    | exact segSkip_nil _
    | refine segSkip_cons (fun b => rfl) ?_
  have hs16 : SegSkip (tryRepl (lit "iterfzf-" ++ vv) (lit "iterfzf-" ++ vv))
      (lit "osx and arm64") := by
    repeat first
    | exact segSkip_nil _
    | refine segSkip_cons (fun b => rfl) ?_
  have hs17 : SegSkip (tryRepl (lit "iterfzf-" ++ vv) (lit "iterfzf-" ++ vv))
      (']' :: lit "\n\nbuild:\n  ") := by
    repeat first
    | exact segSkip_nil _
    | refine segSkip_cons (fun b => rfl) ?_
  have hs18 : SegSkip (tryRepl (lit "iterfzf-" ++ vv) (lit "iterfzf-" ++ vv))
      (lit "number: ") := by
    repeat first
    | exact segSkip_nil _
    | refine segSkip_cons (fun b => rfl) ?_
  have hs19 : SegSkip (tryRepl (lit "iterfzf-" ++ vv) (lit "iterfzf-" ++ vv))
      ('\n' :: lit "  script: python -m pip install ./") := by
    repeat first
    | exact segSkip_nil _
    | refine segSkip_cons (fun b => rfl) ?_
  have hs20 : SegSkip (tryRepl (lit "iterfzf-" ++ vv) (lit "iterfzf-" ++ vv))
      (lit "py3-none-any.whl\n") := by
    repeat first
    | exact segSkip_nil _
    | refine segSkip_cons (fun b => rfl) ?_
  have hsite : tryRepl (lit "iterfzf-" ++ vv) (lit "iterfzf-" ++ vv)
      (lit "iterfzf" ++ ('-' :: (vv ++ ('-' :: lit "py3-none-any.whl\n")))) =
      some (lit "iterfzf-" ++ vv, '-' :: lit "py3-none-any.whl\n") :=
    tryRepl_site (lit "iterfzf-" ++ vv) (lit "iterfzf-" ++ vv)
      ('-' :: lit "py3-none-any.whl\n")
  unfold renderI
  rw [subAll_segskip hs1, subAll_segskip hs2, subAll_segskip hs3]
  rw [subAll_splice_skip
    (tryRepl_field_none vv (lit "iterfzf-" ++ vv) (by decide) _) hP]
  rw [subAll_segskip_cons hs4, subAll_segskip hs5, subAll_segskip hs6]
  rw [subAll_replfiles_eq]
  rw [subAll_segskip hs8]
  rw [subAll_segskip_cons hs9, subAll_segskip hs10]
  rw [subAll_segskip_cons hs11, subAll_segskip hs12]
  rw [subAll_splice_skip
    (tryRepl_field_none vv (lit "iterfzf-" ++ vv) (by decide) _) hc1]
  rw [subAll_segskip_cons hs13, subAll_segskip hs10]
  rw [subAll_segskip_cons hs14, subAll_segskip hs5, subAll_segskip hs6]
  rw [subAll_replfiles_eq]
  rw [subAll_segskip hs15]
  rw [subAll_segskip_cons hs9, subAll_segskip hs16]
  rw [subAll_segskip_cons hs11, subAll_segskip hs12]
  rw [subAll_splice_skip
    (tryRepl_field_none vv (lit "iterfzf-" ++ vv) (by decide) _) hc2]
  rw [subAll_segskip_cons hs13, subAll_segskip hs16]
  rw [subAll_segskip_cons hs17, subAll_segskip hs18]
  rw [subAll_splice_skip
    (tryRepl_field_none vv (lit "iterfzf-" ++ vv) (by decide) _) hds]
  rw [subAll_segskip_cons hs19]
  rw [subAll_match (consumes_tryRepl hpne _) hsite]
  rw [subAll_cons_none (hd _)]
  rw [subAll_segskip_total hs20]
  simp only [List.append_assoc, List.cons_append, List.singleton_append]
  rfl

/-- The global `iterfzf-{current}` → `iterfzf-{version}` string
replacement when the version changed and the old version is not a prefix
of the new one: only the build-script wheel filename still carries the
old version, and exactly that occurrence is rewritten. -/
theorem renderI_repl_ne (version : List Char) {vv P U1 U2 c1 c2 ds : List Char}
    (hP : ∀ c ∈ P, isPyCh c = true)
    (hvv : ∀ c ∈ vv, isPyCh c = true)
    (hU1 : ∀ c ∈ U1, isPyCh c = true) (hU2 : ∀ c ∈ U2, isPyCh c = true)
    (hnp1 : ¬ List.IsPrefix vv U1) (hnp2 : ¬ List.IsPrefix vv U2)
    (hc1 : ∀ c ∈ c1, isHexCh c = true) (hc2 : ∀ c ∈ c2, isHexCh c = true)
    (hds : ∀ c ∈ ds, isDigitCh c = true) :
    subAll (tryRepl (lit "iterfzf-" ++ vv) (lit "iterfzf-" ++ version))
        (renderI P U1 U2 c1 c2 ds vv) =
      renderI P U1 U2 c1 c2 ds version := by
  have hpne : (lit "iterfzf-" ++ vv) ≠ [] := by exact List.cons_ne_nil _ _
  have hdashv : '-' ∉ vv := fun hm => by
    have := hvv '-' hm
    exact absurd this (by decide)
  have hd : ∀ b, tryRepl (lit "iterfzf-" ++ vv) (lit "iterfzf-" ++ version)
      ('-' :: b) = none := fun b => rfl
  have hs1 : SegSkip
      (tryRepl (lit "iterfzf-" ++ vv) (lit "iterfzf-" ++ version))
      (lit "package:") := by
    repeat first
    | exact segSkip_nil _
    | refine segSkip_cons (fun b => rfl) ?_
  have hs2 : SegSkip
      (tryRepl (lit "iterfzf-" ++ vv) (lit "iterfzf-" ++ version))
      (lit "\n  name: iterfzf\n  ") := by
    repeat first
    | exact segSkip_nil _
    | refine segSkip_cons (fun b => rfl) ?_
  have hs3 : SegSkip
      (tryRepl (lit "iterfzf-" ++ vv) (lit "iterfzf-" ++ version))
      (lit "version: \"") := by
    repeat first
    | exact segSkip_nil _
    | refine segSkip_cons (fun b => rfl) ?_
  have hs4 : SegSkip
      (tryRepl (lit "iterfzf-" ++ vv) (lit "iterfzf-" ++ version))
      ('"' :: lit "\n\nsource:\n  ") := by
    repeat first
    | exact segSkip_nil _
    | refine segSkip_cons (fun b => rfl) ?_
  have hs5 : SegSkip
      (tryRepl (lit "iterfzf-" ++ vv) (lit "iterfzf-" ++ version))
      (lit "- url: ") := by
    repeat first
    | exact segSkip_nil _
    | refine segSkip_cons (fun b => rfl) ?_
  have hs6 : SegSkip
      (tryRepl (lit "iterfzf-" ++ vv) (lit "iterfzf-" ++ version))
      (lit "https://") := by
    repeat first
    | exact segSkip_nil _
    | refine segSkip_cons (fun b => rfl) ?_
  have hs8 : SegSkip
      (tryRepl (lit "iterfzf-" ++ vv) (lit "iterfzf-" ++ version))
      (lit "py3-none-macosx_10_7_x86_64.macosx_10_9_x86_64.whl") := by
    repeat first
    | exact segSkip_nil _
    | refine segSkip_cons (fun b => rfl) ?_
  have hs9 : SegSkip
      (tryRepl (lit "iterfzf-" ++ vv) (lit "iterfzf-" ++ version))
      (' ' :: lit "# [") := by
    repeat first
    | exact segSkip_nil _
    | refine segSkip_cons (fun b => rfl) ?_
  have hs10 : SegSkip
      (tryRepl (lit "iterfzf-" ++ vv) (lit "iterfzf-" ++ version))
      (lit "osx and x86_64") := by
    repeat first
    | exact segSkip_nil _
    | refine segSkip_cons (fun b => rfl) ?_
  have hs11 : SegSkip
      (tryRepl (lit "iterfzf-" ++ vv) (lit "iterfzf-" ++ version))
      (']' :: lit "\n    ") := by
    repeat first
    | exact segSkip_nil _
    | refine segSkip_cons (fun b => rfl) ?_
  have hs12 : SegSkip
      (tryRepl (lit "iterfzf-" ++ vv) (lit "iterfzf-" ++ version))
      (lit "sha256: ") := by
    repeat first
    | exact segSkip_nil _
    | refine segSkip_cons (fun b => rfl) ?_
  have hs13 : SegSkip
      (tryRepl (lit "iterfzf-" ++ vv) (lit "iterfzf-" ++ version))
      (' ' :: lit " # [") := by
    repeat first
    | exact segSkip_nil _
    | refine segSkip_cons (fun b => rfl) ?_
  have hs14 : SegSkip
      (tryRepl (lit "iterfzf-" ++ vv) (lit "iterfzf-" ++ version))
      (']' :: lit "\n  ") := by
    repeat first
    | exact segSkip_nil _
    | refine segSkip_cons (fun b => rfl) ?_
  have hs15 : SegSkip
      (tryRepl (lit "iterfzf-" ++ vv) (lit "iterfzf-" ++ version))
      (lit "py3-none-macosx_11_0_arm64.whl") := by
    repeat first
    | exact segSkip_nil _
    | refine segSkip_cons (fun b => rfl) ?_
  have hs16 : SegSkip
      (tryRepl (lit "iterfzf-" ++ vv) (lit "iterfzf-" ++ version))
      (lit "osx and arm64") := by
    repeat first
    | exact segSkip_nil _
    | refine segSkip_cons (fun b => rfl) ?_
  have hs17 : SegSkip
      (tryRepl (lit "iterfzf-" ++ vv) (lit "iterfzf-" ++ version))
      (']' :: lit "\n\nbuild:\n  ") := by
    repeat first
    | exact segSkip_nil _
    | refine segSkip_cons (fun b => rfl) ?_
  have hs18 : SegSkip
      (tryRepl (lit "iterfzf-" ++ vv) (lit "iterfzf-" ++ version))
      (lit "number: ") := by
    repeat first
    | exact segSkip_nil _
    | refine segSkip_cons (fun b => rfl) ?_
  have hs19 : SegSkip
      (tryRepl (lit "iterfzf-" ++ vv) (lit "iterfzf-" ++ version))
      ('\n' :: lit "  script: python -m pip install ./") := by
    repeat first
    | exact segSkip_nil _
    | refine segSkip_cons (fun b => rfl) ?_
  have hs20 : SegSkip
      (tryRepl (lit "iterfzf-" ++ vv) (lit "iterfzf-" ++ version))
      (lit "py3-none-any.whl\n") := by
    repeat first
    | exact segSkip_nil _
    | refine segSkip_cons (fun b => rfl) ?_
  have hsite : tryRepl (lit "iterfzf-" ++ vv) (lit "iterfzf-" ++ version)
      (lit "iterfzf" ++ ('-' :: (vv ++ ('-' :: lit "py3-none-any.whl\n")))) =
      some (lit "iterfzf-" ++ version, '-' :: lit "py3-none-any.whl\n") :=
    tryRepl_site (lit "iterfzf-" ++ vv) (lit "iterfzf-" ++ version)
      ('-' :: lit "py3-none-any.whl\n")
  unfold renderI
  rw [subAll_segskip hs1, subAll_segskip hs2, subAll_segskip hs3]
  rw [subAll_splice_skip
    (tryRepl_field_none vv (lit "iterfzf-" ++ version) (by decide) _) hP]
  rw [subAll_segskip_cons hs4, subAll_segskip hs5, subAll_segskip hs6]
  rw [subAll_replfiles_ne hnp1 hdashv hU1]
  rw [subAll_segskip hs8]
  rw [subAll_segskip_cons hs9, subAll_segskip hs10]
  rw [subAll_segskip_cons hs11, subAll_segskip hs12]
  rw [subAll_splice_skip
    (tryRepl_field_none vv (lit "iterfzf-" ++ version) (by decide) _) hc1]
  rw [subAll_segskip_cons hs13, subAll_segskip hs10]
  rw [subAll_segskip_cons hs14, subAll_segskip hs5, subAll_segskip hs6]
  rw [subAll_replfiles_ne hnp2 hdashv hU2]
  rw [subAll_segskip hs15]
  rw [subAll_segskip_cons hs9, subAll_segskip hs16]
  rw [subAll_segskip_cons hs11, subAll_segskip hs12]
  rw [subAll_splice_skip
    (tryRepl_field_none vv (lit "iterfzf-" ++ version) (by decide) _) hc2]
  rw [subAll_segskip_cons hs13, subAll_segskip hs16]
  rw [subAll_segskip_cons hs17, subAll_segskip hs18]
  rw [subAll_splice_skip
    (tryRepl_field_none vv (lit "iterfzf-" ++ version) (by decide) _) hds]
  rw [subAll_segskip_cons hs19]
  rw [subAll_match (consumes_tryRepl hpne _) hsite]
  rw [subAll_cons_none (hd _)]
  rw [subAll_segskip_total hs20]
  simp only [List.append_assoc, List.cons_append, List.singleton_append]
  rfl

/-- `update-iterfzf.py` `update_recipe` end to end on the two-platform
osx family: both wheel URLs and checksums are rewritten, the version
field updated, the `iterfzf-{current}` filename in the build script
replaced, and the build number reset exactly when the version changed. -/
theorem iterfzfUpdateRecipe_renderI (version n1 n2 : List Char)
    {v c1 c2 ds : List Char}
    (hver : PyStr version) (hv : PyStr v)
    (hc1 : Hex64 c1) (hc2 : Hex64 c2) (hn1 : Hex64 n1) (hn2 : Hex64 n2)
    (hds : DigStr ds)
    (hnp : v = version ∨ ¬ List.IsPrefix v version) :
    iterfzfUpdateRecipe version
        [("osx-64", (wheelUrlX version, n1)),
         ("osx-arm64", (wheelUrlA version, n2))]
        (renderI v v v c1 c2 ds v) =
      renderI version version version n1 n2
        (if v = version then ds else lit "0") version := by
  have hvV : ∀ c ∈ v, isVerCh c = true := fun c hc => verCh_of_pyCh (hv.2 c hc)
  have hsearch : searchF tryVerG (renderI v v v c1 c2 ds v) = some v :=
    renderI_search _ _ _ _ _ _ hv.1 hvV
  have hpkg : subFirst (tryPkgVer version) (renderI v v v c1 c2 ds v) =
      renderI version v v c1 c2 ds v :=
    renderI_pkgver version _ _ _ _ _ _ hv.1 hvV
  have hurl1 : subAll (tryUrlI (lit "osx and x86_64") (wheelUrlX version))
      (renderI version v v c1 c2 ds v) =
      renderI version version v c1 c2 ds v :=
    renderI_urlX version hver.2 hv.2 hv.2 hv.1 hv.2 hv.1 hc1.2 hc2.2 hds.2
  have hsha1 : subAll (tryShaSel (lit "osx and x86_64") n1)
      (renderI version version v c1 c2 ds v) =
      renderI version version v n1 c2 ds v :=
    renderI_sha1 n1 hver.2 hver.2 hv.2 hv.2 hc1 hc2 hds.2
  have hurl2 : subAll (tryUrlI (lit "osx and arm64") (wheelUrlA version))
      (renderI version version v n1 c2 ds v) =
      renderI version version version n1 c2 ds v :=
    renderI_urlA version hver.2 hver.2 hver.1 hv.2 hv.2 hv.1 hn1.2 hc2.2 hds.2
  have hsha2 : subAll (tryShaSel (lit "osx and arm64") n2)
      (renderI version version version n1 c2 ds v) =
      renderI version version version n1 n2 ds v :=
    renderI_sha2 n2 hver.2 hver.2 hver.2 hv.2 hn1 hc2 hds.2
  rcases hnp with heq | hnp
  · subst heq
    have hrepl : subAll
        (tryRepl (lit "iterfzf-" ++ v) (lit "iterfzf-" ++ v))
        (renderI v v v n1 n2 ds v) = renderI v v v n1 n2 ds v :=
      renderI_repl_eq hv.2 hn1.2 hn2.2 hds.2
    simp [iterfzfUpdateRecipe, iterfzfSelectorMap, List.lookup, hsearch,
      hpkg, hurl1, hsha1, hurl2, hsha2, hrepl]
  · have hne : v ≠ version := fun h => hnp (h ▸ List.prefix_rfl)
    have hrepl : subAll
        (tryRepl (lit "iterfzf-" ++ v) (lit "iterfzf-" ++ version))
        (renderI version version version n1 n2 ds v) =
        renderI version version version n1 n2 ds version :=
      renderI_repl_ne version hver.2 hv.2 hver.2 hver.2 hnp hnp
        hn1.2 hn2.2 hds.2
    have hnum : subAll tryNumber
        (renderI version version version n1 n2 ds version) =
        renderI version version version n1 n2 (lit "0") version :=
      renderI_number hver.2 hver.2 hver.2 hver.2 hn1.2 hn2.2 hds.1 hds.2
    simp [iterfzfUpdateRecipe, iterfzfSelectorMap, List.lookup, hsearch,
      hpkg, hurl1, hsha1, hurl2, hsha2, hrepl, hnum, hne]

/-! ## The claims -/

set_option maxRecDepth 40000

/-- C2: idempotence (amended scope).  Re-running the updater with the
same version and checksums reproduces the first run's output byte for
byte — and in particular does not touch the build number again — for
devpod-prerelease (resolved version without underscores), claude-code,
devpod (whenever the first run succeeds), ralph-orchestrator, and for
iterfzf whenever the old version is not a proper prefix of the new one.
For iterfzf the universal claim is *false*: on a prefix transition the
global `str.replace` of the first run corrupts the just-rewritten wheel
URLs, and the second run's selector-scoped URL substitution repairs
them, so the two outputs differ — see the counterexample. -/
theorem C2_idempotent (version o1 o2 : List Char)
    {v u c1 c2 ds j : List Char}
    (hver : VerStr version) (hnu : ∀ c ∈ version, c ≠ '_')
    (hv : VerStr v) (hu : VerStr u)
    (hc1 : Hex64 c1) (hc2 : Hex64 c2) (hds : DigStr ds) (hj : JunkStr j)
    (ho1 : o1 ≠ [] → Hex64 o1) (ho2 : o2 ≠ [] → Hex64 o2)
    (versionD oD1 oD2 : List Char) {vD cD1 cD2 dsD jD : List Char}
    (hverD : VerStr versionD) (hkverD : backref1Kind versionD = .group1)
    (hvD : VerStr vD)
    (hcD1 : Hex64 cD1) (hcD2 : Hex64 cD2) (hdsD : DigStr dsD)
    (hjD : JunkStr jD)
    (hoD1 : oD1 ≠ [] → Hex64 oD1) (hoD2 : oD2 ≠ [] → Hex64 oD2)
    (hkD1 : oD1 ≠ [] → backref1Kind oD1 = .group1)
    (hkD2 : oD2 ≠ [] → backref1Kind oD2 = .group1)
    (versionI nI1 nI2 : List Char) {vI cI1 cI2 dsI : List Char}
    (hverI : PyStr versionI) (hvI : PyStr vI)
    (hcI1 : Hex64 cI1) (hcI2 : Hex64 cI2) (hnI1 : Hex64 nI1)
    (hnI2 : Hex64 nI2) (hdsI : DigStr dsI)
    (hnpI : vI = versionI ∨ ¬ List.IsPrefix vI versionI)
    (versionR sR1 sR2 : List Char) {vR uR cR1 cR2 dsR jR : List Char}
    (hverR : VerStr versionR) (hvR : VerStr vR) (huR : VerStr uR)
    (hcR1 : Hex64 cR1) (hcR2 : Hex64 cR2) (hsR1 : Hex64 sR1)
    (hsR2 : Hex64 sR2) (hdsR : DigStr dsR) (hjR : JunkStr jR) :
    preUpdateRecipe version [("osx-64", o1), ("osx-arm64", o2)]
        (preUpdateRecipe version [("osx-64", o1), ("osx-arm64", o2)]
          (renderD v (hyphenOf v) c1 c2 ds j)) =
      preUpdateRecipe version [("osx-64", o1), ("osx-arm64", o2)]
        (renderD v (hyphenOf v) c1 c2 ds j) ∧
    claudeUpdateRecipe version
        [("darwin-x64", some o1), ("darwin-arm64", some o2)]
        (claudeUpdateRecipe version
          [("darwin-x64", some o1), ("darwin-arm64", some o2)]
          (renderC v u c1 c2 ds j)) =
      claudeUpdateRecipe version
        [("darwin-x64", some o1), ("darwin-arm64", some o2)]
        (renderC v u c1 c2 ds j) ∧
    (∀ docD, devpodUpdateRecipe versionD [("osx-64", oD1), ("osx-arm64", oD2)]
        (renderD vD vD cD1 cD2 dsD jD) = .ok docD →
      devpodUpdateRecipe versionD [("osx-64", oD1), ("osx-arm64", oD2)]
        docD = .ok docD) ∧
    iterfzfUpdateRecipe versionI
        [("osx-64", (wheelUrlX versionI, nI1)),
         ("osx-arm64", (wheelUrlA versionI, nI2))]
        (iterfzfUpdateRecipe versionI
          [("osx-64", (wheelUrlX versionI, nI1)),
           ("osx-arm64", (wheelUrlA versionI, nI2))]
          (renderI vI vI vI cI1 cI2 dsI vI)) =
      iterfzfUpdateRecipe versionI
        [("osx-64", (wheelUrlX versionI, nI1)),
         ("osx-arm64", (wheelUrlA versionI, nI2))]
        (renderI vI vI vI cI1 cI2 dsI vI) ∧
    ralphUpdateRecipe versionR
        [(lit "osx and x86_64", sR1), (lit "osx and arm64", sR2)]
        (ralphUpdateRecipe versionR
          [(lit "osx and x86_64", sR1), (lit "osx and arm64", sR2)]
          (renderR vR uR cR1 cR2 dsR jR)) =
      ralphUpdateRecipe versionR
        [(lit "osx and x86_64", sR1), (lit "osx and arm64", sR2)]
        (renderR vR uR cR1 cR2 dsR jR) := by
  have hpv : VerStr (underscoreOf version) :=
    ⟨underscoreOf_ne_nil hver.1, verCh_underscoreOf hver.2⟩
  have hC1 : Hex64 (if o1 = [] then c1 else o1) := by
    by_cases h : o1 = []
    · simpa [h] using hc1
    · simpa [h] using ho1 h
  have hC2 : Hex64 (if o2 = [] then c2 else o2) := by
    by_cases h : o2 = []
    · simpa [h] using hc2
    · simpa [h] using ho2 h
  have hDS : DigStr (if v = underscoreOf version then ds else lit "0") := by
    by_cases h : v = underscoreOf version
    · simpa [h] using hds
    · simp only [if_neg h]
      exact ⟨by decide, by decide⟩
  refine ⟨?_, ?_, ?_, ?_, ?_⟩
  · rw [preUpdateRecipe_renderD version o1 o2 hver hv hc1 hc2 hds hj ho1 ho2]
    have hdoc : renderD (underscoreOf version) version
        (if o1 = [] then c1 else o1) (if o2 = [] then c2 else o2)
        (if v = underscoreOf version then ds else lit "0") j =
        renderD (underscoreOf version) (hyphenOf (underscoreOf version))
        (if o1 = [] then c1 else o1) (if o2 = [] then c2 else o2)
        (if v = underscoreOf version then ds else lit "0") j := by
      rw [hyphenOf_underscoreOf hnu]
    rw [hdoc,
      preUpdateRecipe_renderD version o1 o2 hver hpv hC1 hC2 hDS hj ho1 ho2,
      hyphenOf_underscoreOf hnu, if_pos rfl]
    by_cases hh1 : o1 = [] <;> by_cases hh2 : o2 = [] <;> simp [hh1, hh2]
  · rw [claudeUpdateRecipe_renderC version o1 o2 hver hv hu hc1 hc2 hds hj
      ho1 ho2]
    have hU : VerStr (if o1 = [] ∧ o2 = [] then u else version) := by
      by_cases h : o1 = [] ∧ o2 = []
      · simpa [h] using hu
      · simpa [h] using hver
    rw [claudeUpdateRecipe_renderC version o1 o2 hver hver hU hC1 hC2
      ⟨by decide, by decide⟩ hj ho1 ho2]
    by_cases hh1 : o1 = [] <;> by_cases hh2 : o2 = [] <;> simp [hh1, hh2]
  · intro docD h
    rw [devpodUpdateRecipe_renderD versionD oD1 oD2 hverD hkverD hvD hcD1
      hcD2 hdsD hjD hoD1 hoD2 hkD1 hkD2] at h
    have hCD1 : Hex64 (if oD1 = [] then cD1 else oD1) := by
      by_cases hh : oD1 = []
      · simpa [hh] using hcD1
      · simpa [hh] using hoD1 hh
    have hCD2 : Hex64 (if oD2 = [] then cD2 else oD2) := by
      by_cases hh : oD2 = []
      · simpa [hh] using hcD2
      · simpa [hh] using hoD2 hh
    have hDSD : DigStr (if vD = versionD then dsD else lit "0") := by
      by_cases hh : vD = versionD
      · simpa [hh] using hdsD
      · simp only [if_neg hh]
        exact ⟨by decide, by decide⟩
    simp only [Except.ok.injEq] at h
    subst h
    rw [devpodUpdateRecipe_renderD versionD oD1 oD2 hverD hkverD hverD hCD1
      hCD2 hDSD hjD hoD1 hoD2 hkD1 hkD2]
    by_cases hh1 : oD1 = [] <;> by_cases hh2 : oD2 = [] <;> simp [hh1, hh2]
  · rw [iterfzfUpdateRecipe_renderI versionI nI1 nI2 hverI hvI hcI1 hcI2
      hnI1 hnI2 hdsI hnpI]
    have hDSI : DigStr (if vI = versionI then dsI else lit "0") := by
      by_cases hh : vI = versionI
      · simpa [hh] using hdsI
      · simp only [if_neg hh]
        exact ⟨by decide, by decide⟩
    rw [iterfzfUpdateRecipe_renderI versionI nI1 nI2 hverI hverI hnI1 hnI2
      hnI1 hnI2 hDSI (Or.inl rfl), if_pos rfl]
  · rw [ralphUpdateRecipe_renderR versionR sR1 sR2 hverR hvR huR hcR1 hcR2
      hsR1 hsR2 hdsR hjR]
    have hDSR : DigStr (if vR = versionR then dsR else lit "0") := by
      by_cases hh : vR = versionR
      · simpa [hh] using hdsR
      · simp only [if_neg hh]
        exact ⟨by decide, by decide⟩
    rw [ralphUpdateRecipe_renderR versionR sR1 sR2 hverR hverR hverR hsR1
      hsR2 hsR1 hsR2 hDSR hjR, if_pos rfl]

/-- C2 counterexample: `update-iterfzf.py` is not idempotent across a
version transition `1.0` → `1.0.1` in which the old version is a prefix
of the new one.  The first run's global
`str.replace("iterfzf-1.0", "iterfzf-1.0.1")` mangles the wheel URL that
the selector-scoped substitution had just written (producing
`iterfzf-1.0.1.1-…`), and the second run's URL substitution repairs it,
so the second run's output differs from the first run's. -/
theorem C2_counterexample :
    iterfzfUpdateRecipe (lit "1.0.1")
        [("osx-64", (lit "https://h/iterfzf-1.0.1-x.whl",
          lit "bbbbbbbbbbbbbbbbbbbbbbbbbbbbbbbbbbbbbbbbbbbbbbbbbbbbbbbbbbbbbbbb"))]
        (lit "package:\nversion: \"1.0\"\n- url: https://h/iterfzf-1.0-x.whl # [osx and x86_64]\nsha256: aaaaaaaaaaaaaaaaaaaaaaaaaaaaaaaaaaaaaaaaaaaaaaaaaaaaaaaaaaaaaaaa # [osx and x86_64]\nnumber: 3\n") =
      lit "package:\nversion: \"1.0.1\"\n- url: https://h/iterfzf-1.0.1.1-x.whl # [osx and x86_64]\nsha256: bbbbbbbbbbbbbbbbbbbbbbbbbbbbbbbbbbbbbbbbbbbbbbbbbbbbbbbbbbbbbbbb # [osx and x86_64]\nnumber: 0\n" ∧
    iterfzfUpdateRecipe (lit "1.0.1")
        [("osx-64", (lit "https://h/iterfzf-1.0.1-x.whl",
          lit "bbbbbbbbbbbbbbbbbbbbbbbbbbbbbbbbbbbbbbbbbbbbbbbbbbbbbbbbbbbbbbbb"))]
        (lit "package:\nversion: \"1.0.1\"\n- url: https://h/iterfzf-1.0.1.1-x.whl # [osx and x86_64]\nsha256: bbbbbbbbbbbbbbbbbbbbbbbbbbbbbbbbbbbbbbbbbbbbbbbbbbbbbbbbbbbbbbbb # [osx and x86_64]\nnumber: 0\n") =
      lit "package:\nversion: \"1.0.1\"\n- url: https://h/iterfzf-1.0.1-x.whl # [osx and x86_64]\nsha256: bbbbbbbbbbbbbbbbbbbbbbbbbbbbbbbbbbbbbbbbbbbbbbbbbbbbbbbbbbbbbbbb # [osx and x86_64]\nnumber: 0\n" ∧
    (lit "package:\nversion: \"1.0.1\"\n- url: https://h/iterfzf-1.0.1.1-x.whl # [osx and x86_64]\nsha256: bbbbbbbbbbbbbbbbbbbbbbbbbbbbbbbbbbbbbbbbbbbbbbbbbbbbbbbbbbbbbbbb # [osx and x86_64]\nnumber: 0\n" : List Char) ≠
      lit "package:\nversion: \"1.0.1\"\n- url: https://h/iterfzf-1.0.1-x.whl # [osx and x86_64]\nsha256: bbbbbbbbbbbbbbbbbbbbbbbbbbbbbbbbbbbbbbbbbbbbbbbbbbbbbbbbbbbbbbbb # [osx and x86_64]\nnumber: 0\n" := by
  refine ⟨by decide, by decide, by decide⟩

/-- C4: checksum substitutions are selector-scoped in every script.
Rewriting the `osx and arm64` checksum leaves the `osx and x86_64` URL
and checksum (and every other byte) unchanged, for each of the five
checksum patterns: the shared `tryShaSel` of devpod-prerelease, the
claude comment-keyed `tryShaCC`, devpod's unsafe-template `tryShaSelD`
(on a surviving `\g1`-style run), ralph's block-scoped `tryShaR`, and
the iterfzf instance of `tryShaSel`; iterfzf's URL substitution is also
selector-scoped.  The *URL* substitution of `update-claude-code.py`,
however, is global and version-keyed, not selector-scoped — see the
counterexample. -/
theorem C4_checksum_selector_scoped (cN : List Char) {v u c1 c2 ds j : List Char}
    (hv : ∀ c ∈ v, isVerCh c = true) (hu : ∀ c ∈ u, isVerCh c = true)
    (hc1 : Hex64 c1) (hc2 : Hex64 c2)
    (hds : ∀ c ∈ ds, isDigitCh c = true) (hj : ∀ c ∈ j, isJunkCh c = true)
    (uN : List Char) {vI uI1 uI2 cI1 cI2 dsI wI : List Char}
    (hvI : ∀ c ∈ vI, isPyCh c = true)
    (huI1 : ∀ c ∈ uI1, isPyCh c = true) (huI1ne : uI1 ≠ [])
    (huI2 : ∀ c ∈ uI2, isPyCh c = true)
    (hwI : ∀ c ∈ wI, isPyCh c = true) (hwIne : wI ≠ [])
    (hcI1 : Hex64 cI1) (hcI2 : Hex64 cI2)
    (hdsI : ∀ c ∈ dsI, isDigitCh c = true) :
    subAll (tryShaSel (lit "osx and arm64") cN) (renderD v u c1 c2 ds j) =
      renderD v u c1 cN ds j ∧
    subAll (tryShaCC (lit "osx and arm64") cN) (renderC v u c1 c2 ds j) =
      renderC v u c1 cN ds j ∧
    subAll (tryShaSelD (lit "osx and arm64") cN .group1)
        (renderD v u c1 c2 ds j) =
      renderD v u c1 cN ds j ∧
    subAll (tryShaR (lit "osx and arm64") cN) (renderR v u c1 c2 ds j) =
      renderR v u c1 cN ds j ∧
    subAll (tryShaSel (lit "osx and arm64") cN)
        (renderI vI uI1 uI2 cI1 cI2 dsI wI) =
      renderI vI uI1 uI2 cI1 cN dsI wI ∧
    subAll (tryUrlI (lit "osx and arm64") (wheelUrlA uN))
        (renderI vI uI1 uI2 cI1 cI2 dsI wI) =
      renderI vI uI1 uN cI1 cI2 dsI wI :=
  ⟨renderD_sha2 cN hv hu hc1 hc2 hds hj,
   renderC_sha2 cN hv hu hc1 hc2 hds hj,
   by rw [tryShaSelD_group1]; exact renderD_sha2 cN hv hu hc1 hc2 hds hj,
   renderR_sha2 cN hv hu hc1 hc2 hds hj,
   renderI_sha2 cN hvI huI1 huI2 hwI hcI1 hcI2 hdsI,
   renderI_urlA uN hvI huI1 huI1ne huI2 hwI hwIne hcI1.2 hcI2.2 hdsI⟩

/-- C4 counterexample: on a document carrying both osx blocks,
`update-claude-code.py` processing a manifest with only the
`darwin-arm64` platform updates the arm64 checksum but *also* rewrites
the version segment of the `darwin-x64` URL, because the `tar.gz` URL
pattern is global and version-keyed rather than selector-scoped; the
claim-conform result (x86_64 block untouched) differs. -/
theorem C4_counterexample :
    claudeUpdateRecipe (lit "2.0.0")
        [("darwin-arm64",
          some (lit "cccccccccccccccccccccccccccccccccccccccccccccccccccccccccccccccc"))]
        (lit "url: https://storage.googleapis.com/claude-code-dist-x/claude-code-releases/1.0.0/darwin-x64/claude-code.tar.gz\n# [osx and x86_64]\nsha256: aaaaaaaaaaaaaaaaaaaaaaaaaaaaaaaaaaaaaaaaaaaaaaaaaaaaaaaaaaaaaaaa\nurl: https://storage.googleapis.com/claude-code-dist-x/claude-code-releases/1.0.0/darwin-arm64/claude-code.tar.gz\n# [osx and arm64]\nsha256: bbbbbbbbbbbbbbbbbbbbbbbbbbbbbbbbbbbbbbbbbbbbbbbbbbbbbbbbbbbbbbbb\n") =
      lit "url: https://storage.googleapis.com/claude-code-dist-x/claude-code-releases/2.0.0/darwin-x64/claude-code.tar.gz\n# [osx and x86_64]\nsha256: aaaaaaaaaaaaaaaaaaaaaaaaaaaaaaaaaaaaaaaaaaaaaaaaaaaaaaaaaaaaaaaa\nurl: https://storage.googleapis.com/claude-code-dist-x/claude-code-releases/2.0.0/darwin-arm64/claude-code.tar.gz\n# [osx and arm64]\nsha256: cccccccccccccccccccccccccccccccccccccccccccccccccccccccccccccccc\n" ∧
    (lit "url: https://storage.googleapis.com/claude-code-dist-x/claude-code-releases/2.0.0/darwin-x64/claude-code.tar.gz\n# [osx and x86_64]\nsha256: aaaaaaaaaaaaaaaaaaaaaaaaaaaaaaaaaaaaaaaaaaaaaaaaaaaaaaaaaaaaaaaa\nurl: https://storage.googleapis.com/claude-code-dist-x/claude-code-releases/2.0.0/darwin-arm64/claude-code.tar.gz\n# [osx and arm64]\nsha256: cccccccccccccccccccccccccccccccccccccccccccccccccccccccccccccccc\n" : List Char) ≠
      lit "url: https://storage.googleapis.com/claude-code-dist-x/claude-code-releases/1.0.0/darwin-x64/claude-code.tar.gz\n# [osx and x86_64]\nsha256: aaaaaaaaaaaaaaaaaaaaaaaaaaaaaaaaaaaaaaaaaaaaaaaaaaaaaaaaaaaaaaaa\nurl: https://storage.googleapis.com/claude-code-dist-x/claude-code-releases/2.0.0/darwin-arm64/claude-code.tar.gz\n# [osx and arm64]\nsha256: cccccccccccccccccccccccccccccccccccccccccccccccccccccccccccccccc\n" := by
  refine ⟨by decide, by decide⟩

/-- C9: hyphen/underscore dual-form handling of devpod-prerelease.  The
document's version field receives the underscored form of the resolved
version while both URL segments receive the original hyphenated form,
derived from the single resolved version. -/
theorem C9_dual_form_version (version o1 o2 : List Char)
    {v c1 c2 ds j : List Char}
    (hver : VerStr version) (hv : VerStr v)
    (hc1 : Hex64 c1) (hc2 : Hex64 c2) (hds : DigStr ds) (hj : JunkStr j)
    (ho1 : o1 ≠ [] → Hex64 o1) (ho2 : o2 ≠ [] → Hex64 o2) :
    preUpdateRecipe version [("osx-64", o1), ("osx-arm64", o2)]
        (renderD v (hyphenOf v) c1 c2 ds j) =
      renderD (underscoreOf version) version (if o1 = [] then c1 else o1)
        (if o2 = [] then c2 else o2)
        (if v = underscoreOf version then ds else lit "0") j :=
  preUpdateRecipe_renderD version o1 o2 hver hv hc1 hc2 hds hj ho1 ho2

/-- C6: explicit version argument (amended scope).  Four of the five
resolvers return an explicit version argument unchanged without
consulting the upstream for version resolution.
`update-ralph-orchestrator.py` is the exception: even with an explicit
argument it queries the tag-specific GitHub endpoint, fails fatally when
that endpoint is unreachable, and returns the *response's* tag (with
leading `v` stripped) rather than the argument. -/
theorem C6_explicit_version_resolution (vArg : List Char)
    (stableResp : Option (List Char))
    (latestResp : Option (List Char × List (String × List Char)))
    (resp : Option (List GhRelease))
    (pu : List Char → Option (List (String × List Char)))
    (urls : List (String × List Char)) (hpu : pu vArg = some urls) :
    claudeGetVersion (some vArg) stableResp = .ok vArg ∧
    devpodGetVersion (some vArg) latestResp = .ok (vArg, none) ∧
    preGetVersion (some vArg) resp = .ok (some vArg, none) ∧
    iterfzfResolve (some vArg) pu latestResp = .ok (vArg, urls) ∧
    ralphGetLatestRelease (some vArg) (fun _ => none) = .error () := by
  refine ⟨rfl, rfl, rfl, ?_, rfl⟩
  simp [iterfzfResolve, hpu]

/-- C6 counterexample: with the explicit argument `1.2.3` the
ralph-orchestrator resolver exits fatally when the upstream is
unreachable (so the upstream *is* consulted), and with argument `v1.2.3`
it returns the response-derived `1.2.3`, not the argument unchanged. -/
theorem C6_counterexample :
    ralphGetLatestRelease (some (lit "1.2.3")) (fun _ => none) = .error () ∧
    ralphGetLatestRelease (some (lit "v1.2.3"))
        (fun _ => some (lit "v1.2.3", [])) = .ok (lit "1.2.3", []) ∧
    (lit "1.2.3" : List Char) ≠ lit "v1.2.3" :=
  ⟨rfl, rfl, by decide⟩

/-- C7: fatal paths never write.  In each of the five scripts, when the
required version or manifest cannot be resolved (upstream unreachable or
response undecodable) or the recipe file is missing, the run reports
failure and leaves the recipe file exactly as it was (no partial
write). -/
theorem C7_fatal_paths_preserve_file (vArg : List Char)
    (sr : Option (List Char))
    (m : List Char → Option (List (String × Option (List Char))))
    (latestResp : Option (List Char × List (String × List Char)))
    (hashOf : List Char → Option (List Char))
    (resp : Option (List GhRelease))
    (pvw : List Char → Option (List (String × (List Char × List Char))))
    (latestRespI :
      Option (List Char × List (String × (List Char × List Char))))
    (vArgO : Option (List Char))
    (fetch : List Char → Option (List Char × List (String × List Char)))
    (shaFetch : List Char → Option (List Char))
    (file : Option (List Char)) :
    claudeMain none none m file = (file, false) ∧
    claudeMain (some vArg) sr (fun _ => none) file = (file, false) ∧
    claudeMain (some vArg) sr m none = (none, false) ∧
    devpodMain none none hashOf file = (file, false) ∧
    devpodMain (some vArg) latestResp hashOf none = (none, false) ∧
    preMain none none hashOf file = (file, false) ∧
    preMain (some vArg) resp hashOf none = (none, false) ∧
    iterfzfMain (some vArg) (fun _ => none) latestRespI file =
      (file, false) ∧
    iterfzfMain none pvw none file = (file, false) ∧
    iterfzfMain (some vArg) pvw latestRespI none = (none, false) ∧
    ralphMain vArgO (fun _ => none) shaFetch file = (file, false) ∧
    ralphMain vArgO fetch shaFetch none = (none, false) := by
  refine ⟨rfl, rfl, ?_, rfl, ?_, rfl, rfl, rfl, rfl, ?_, rfl, ?_⟩
  · cases h : m vArg <;> simp [claudeMain, claudeGetVersion, h]
  · simp [devpodMain, devpodGetVersion]
  · cases h : pvw vArg <;> simp [iterfzfMain, h]
  · cases h : ralphGetLatestRelease vArgO fetch with
    | error e => simp [ralphMain, h]
    | ok va =>
      cases h2 : ralphCollectChecksums va.2 shaFetch with
      | error e => simp [ralphMain, h, h2]
      | ok cs =>
        by_cases h3 : cs = [] <;> simp [ralphMain, h, h2, h3]

/-- C8: prerelease selection.  With no explicit argument the
devpod-prerelease resolver picks the first release of the list that is
marked prerelease *and* has a non-empty asset list; when no such entry
exists it falls back to the first entry of the list regardless of its
prerelease flag. -/
theorem C8_prerelease_selection (rs : List GhRelease) :
    (∀ r, rs.find? (fun x => x.prerelease && !x.assets.isEmpty) = some r →
      lstripV r.tag ≠ [] →
      preGetVersion none (some rs) =
        .ok (some (lstripV r.tag), some r.assets)) ∧
    (rs.find? (fun x => x.prerelease && !x.assets.isEmpty) = none →
      ∀ r0 rest, rs = r0 :: rest →
      preGetVersion none (some rs) =
        .ok (some (lstripV r0.tag), some r0.assets)) := by
  constructor
  · intro r hfind htag
    have hp := List.find?_some hfind
    have hassets : r.assets ≠ [] := by
      intro hh
      rw [Bool.and_eq_true] at hp
      rw [hh] at hp
      simp at hp
    simp [preGetVersion, preGetLatestPrerelease, hfind, htag, hassets]
  · intro hfind r0 rest hrs
    subst hrs
    simp [preGetVersion, preGetLatestPrerelease, preGetLatestReleaseFallback,
      hfind]

/-- C10: the ralph-orchestrator `main` exits before any recipe rewriting
when no checksum at all was collected (all four expected assets absent
from the release), leaving the recipe file unchanged. -/
theorem C10_no_checksums_aborts (versionArg : Option (List Char))
    (fetch : List Char → Option (List Char × List (String × List Char)))
    (shaFetch : List Char → Option (List Char))
    (file : Option (List Char))
    (ver : List Char) (assets : List (String × List Char))
    (hrel : ralphGetLatestRelease versionArg fetch = .ok (ver, assets))
    (h1 : assets.lookup "ralph-cli-x86_64-unknown-linux-gnu.tar.xz" = none)
    (h2 : assets.lookup "ralph-cli-aarch64-unknown-linux-gnu.tar.xz" = none)
    (h3 : assets.lookup "ralph-cli-x86_64-apple-darwin.tar.xz" = none)
    (h4 : assets.lookup "ralph-cli-aarch64-apple-darwin.tar.xz" = none) :
    ralphMain versionArg fetch shaFetch file = (file, false) := by
  have hcol : ralphCollectChecksums assets shaFetch = .ok [] := by
    simp [ralphCollectChecksums, ralphPlatformAssets, List.foldl, h1, h2,
      h3, h4]
  simp [ralphMain, hrel, hcol]

/-! ## Witnesses: the claim theorems applied at concrete inputs -/

theorem C2_witness :
    preUpdateRecipe (lit "0.3-beta")
        [("osx-64",
          lit "cccccccccccccccccccccccccccccccccccccccccccccccccccccccccccccccc"),
         ("osx-arm64", [])]
        (preUpdateRecipe (lit "0.3-beta")
          [("osx-64",
            lit "cccccccccccccccccccccccccccccccccccccccccccccccccccccccccccccccc"),
           ("osx-arm64", [])]
          (renderD (lit "1.0.0") (hyphenOf (lit "1.0.0"))
            (lit "aaaaaaaaaaaaaaaaaaaaaaaaaaaaaaaaaaaaaaaaaaaaaaaaaaaaaaaaaaaaaaaa")
            (lit "bbbbbbbbbbbbbbbbbbbbbbbbbbbbbbbbbbbbbbbbbbbbbbbbbbbbbbbbbbbbbbbb")
            (lit "5") (lit "ok"))) =
      preUpdateRecipe (lit "0.3-beta")
        [("osx-64",
          lit "cccccccccccccccccccccccccccccccccccccccccccccccccccccccccccccccc"),
         ("osx-arm64", [])]
        (renderD (lit "1.0.0") (hyphenOf (lit "1.0.0"))
          (lit "aaaaaaaaaaaaaaaaaaaaaaaaaaaaaaaaaaaaaaaaaaaaaaaaaaaaaaaaaaaaaaaa")
          (lit "bbbbbbbbbbbbbbbbbbbbbbbbbbbbbbbbbbbbbbbbbbbbbbbbbbbbbbbbbbbbbbbb")
          (lit "5") (lit "ok")) :=
  (@C2_idempotent (lit "0.3-beta")
    (lit "cccccccccccccccccccccccccccccccccccccccccccccccccccccccccccccccc") []
    (lit "1.0.0") (lit "1.0.0")
    (lit "aaaaaaaaaaaaaaaaaaaaaaaaaaaaaaaaaaaaaaaaaaaaaaaaaaaaaaaaaaaaaaaa")
    (lit "bbbbbbbbbbbbbbbbbbbbbbbbbbbbbbbbbbbbbbbbbbbbbbbbbbbbbbbbbbbbbbbb")
    (lit "5") (lit "ok") (by decide) (by decide) (by decide) (by decide)
    (by decide) (by decide) (by decide) (by decide) (by decide) (by decide)
    (lit "v9.0")
    (lit "cccccccccccccccccccccccccccccccccccccccccccccccccccccccccccccccc") []
    (lit "1.0.0")
    (lit "aaaaaaaaaaaaaaaaaaaaaaaaaaaaaaaaaaaaaaaaaaaaaaaaaaaaaaaaaaaaaaaa")
    (lit "bbbbbbbbbbbbbbbbbbbbbbbbbbbbbbbbbbbbbbbbbbbbbbbbbbbbbbbbbbbbbbbb")
    (lit "5") (lit "ok") (by decide) (by decide) (by decide) (by decide)
    (by decide) (by decide) (by decide) (by decide) (by decide) (by decide)
    (by decide)
    (lit "2.0.0")
    (lit "cccccccccccccccccccccccccccccccccccccccccccccccccccccccccccccccc")
    (lit "dddddddddddddddddddddddddddddddddddddddddddddddddddddddddddddddd")
    (lit "1.0.0")
    (lit "aaaaaaaaaaaaaaaaaaaaaaaaaaaaaaaaaaaaaaaaaaaaaaaaaaaaaaaaaaaaaaaa")
    (lit "bbbbbbbbbbbbbbbbbbbbbbbbbbbbbbbbbbbbbbbbbbbbbbbbbbbbbbbbbbbbbbbb")
    (lit "3") (by decide) (by decide) (by decide) (by decide) (by decide)
    (by decide) (by decide) (by decide)
    (lit "2.0.0")
    (lit "cccccccccccccccccccccccccccccccccccccccccccccccccccccccccccccccc")
    (lit "dddddddddddddddddddddddddddddddddddddddddddddddddddddddddddddddd")
    (lit "1.0.0") (lit "1.0.0")
    (lit "aaaaaaaaaaaaaaaaaaaaaaaaaaaaaaaaaaaaaaaaaaaaaaaaaaaaaaaaaaaaaaaa")
    (lit "bbbbbbbbbbbbbbbbbbbbbbbbbbbbbbbbbbbbbbbbbbbbbbbbbbbbbbbbbbbbbbbb")
    (lit "7") (lit "ok") (by decide) (by decide) (by decide) (by decide)
    (by decide) (by decide) (by decide) (by decide) (by decide)).1

theorem C4_witness :
    subAll (tryShaSel (lit "osx and arm64")
        (lit "cccccccccccccccccccccccccccccccccccccccccccccccccccccccccccccccc"))
      (renderD (lit "1.0.0") (lit "1.0.0")
        (lit "aaaaaaaaaaaaaaaaaaaaaaaaaaaaaaaaaaaaaaaaaaaaaaaaaaaaaaaaaaaaaaaa")
        (lit "bbbbbbbbbbbbbbbbbbbbbbbbbbbbbbbbbbbbbbbbbbbbbbbbbbbbbbbbbbbbbbbb")
        (lit "5") (lit "ok")) =
      renderD (lit "1.0.0") (lit "1.0.0")
        (lit "aaaaaaaaaaaaaaaaaaaaaaaaaaaaaaaaaaaaaaaaaaaaaaaaaaaaaaaaaaaaaaaa")
        (lit "cccccccccccccccccccccccccccccccccccccccccccccccccccccccccccccccc")
        (lit "5") (lit "ok") :=
  (@C4_checksum_selector_scoped
    (lit "cccccccccccccccccccccccccccccccccccccccccccccccccccccccccccccccc")
    (lit "1.0.0") (lit "1.0.0")
    (lit "aaaaaaaaaaaaaaaaaaaaaaaaaaaaaaaaaaaaaaaaaaaaaaaaaaaaaaaaaaaaaaaa")
    (lit "bbbbbbbbbbbbbbbbbbbbbbbbbbbbbbbbbbbbbbbbbbbbbbbbbbbbbbbbbbbbbbbb")
    (lit "5") (lit "ok") (by decide) (by decide) (by decide) (by decide)
    (by decide) (by decide)
    (lit "2.0.0") (lit "1.0.0") (lit "1.0.0") (lit "1.0.0")
    (lit "aaaaaaaaaaaaaaaaaaaaaaaaaaaaaaaaaaaaaaaaaaaaaaaaaaaaaaaaaaaaaaaa")
    (lit "bbbbbbbbbbbbbbbbbbbbbbbbbbbbbbbbbbbbbbbbbbbbbbbbbbbbbbbbbbbbbbbb")
    (lit "3") (lit "1.0.0") (by decide) (by decide) (by decide) (by decide)
    (by decide) (by decide) (by decide) (by decide) (by decide)).1

theorem C6_witness :
    claudeGetVersion (some (lit "1.2.3")) none = .ok (lit "1.2.3") ∧
    devpodGetVersion (some (lit "1.2.3")) none = .ok (lit "1.2.3", none) ∧
    preGetVersion (some (lit "1.2.3")) none = .ok (some (lit "1.2.3"), none) ∧
    iterfzfResolve (some (lit "1.2.3")) (fun _ => some []) none =
      .ok (lit "1.2.3", []) ∧
    ralphGetLatestRelease (some (lit "1.2.3")) (fun _ => none) = .error () :=
  C6_explicit_version_resolution (lit "1.2.3") none none none
    (fun _ => some []) [] rfl

theorem C8_witness :
    preGetVersion none
        (some [⟨lit "v2.0.0", false, [("a", lit "u")]⟩,
               ⟨lit "v1.9.0", true, [("b", lit "w")]⟩]) =
      .ok (some (lit "1.9.0"), some [("b", lit "w")]) :=
  (C8_prerelease_selection
      [⟨lit "v2.0.0", false, [("a", lit "u")]⟩,
       ⟨lit "v1.9.0", true, [("b", lit "w")]⟩]).1
    ⟨lit "v1.9.0", true, [("b", lit "w")]⟩ (by decide) (by decide)

theorem C9_witness :
    preUpdateRecipe (lit "0.3-beta")
        [("osx-64",
          lit "cccccccccccccccccccccccccccccccccccccccccccccccccccccccccccccccc"),
         ("osx-arm64", [])]
        (renderD (lit "0.1.0") (lit "0.1.0")
          (lit "aaaaaaaaaaaaaaaaaaaaaaaaaaaaaaaaaaaaaaaaaaaaaaaaaaaaaaaaaaaaaaaa")
          (lit "bbbbbbbbbbbbbbbbbbbbbbbbbbbbbbbbbbbbbbbbbbbbbbbbbbbbbbbbbbbbbbbb")
          (lit "5") (lit "ok")) =
      renderD (lit "0.3_beta") (lit "0.3-beta")
        (lit "cccccccccccccccccccccccccccccccccccccccccccccccccccccccccccccccc")
        (lit "bbbbbbbbbbbbbbbbbbbbbbbbbbbbbbbbbbbbbbbbbbbbbbbbbbbbbbbbbbbbbbbb")
        (lit "0") (lit "ok") :=
  @C9_dual_form_version (lit "0.3-beta")
    (lit "cccccccccccccccccccccccccccccccccccccccccccccccccccccccccccccccc") []
    (lit "0.1.0")
    (lit "aaaaaaaaaaaaaaaaaaaaaaaaaaaaaaaaaaaaaaaaaaaaaaaaaaaaaaaaaaaaaaaa")
    (lit "bbbbbbbbbbbbbbbbbbbbbbbbbbbbbbbbbbbbbbbbbbbbbbbbbbbbbbbbbbbbbbbb")
    (lit "5") (lit "ok") (by decide) (by decide) (by decide) (by decide)
    (by decide) (by decide) (by decide) (by decide)

theorem C10_witness :
    ralphMain none (fun _ => some (lit "v1.0.0", [])) (fun _ => none)
        (some (lit "d")) = (some (lit "d"), false) :=
  C10_no_checksums_aborts none (fun _ => some (lit "v1.0.0", []))
    (fun _ => none) (some (lit "d")) (lit "1.0.0") [] rfl rfl rfl rfl rfl

end Feedstock
